import Mathlib

/-!
# sigrlinn: growable container, draw-queue submission, pipeline-state creation

A shallow embedding of `sigrlinn/private/array.hh`, of the Direct3D 11 backend
`sigrlinn/sigrlinn_d3d11.cc` and of the ownership wrapper of `demo/common/app.hh`,
followed by theorems about them.

Conventions of the embedding

* `size_t` values are natural numbers; every `size_t` addition or multiplication the source
  performs is reduced modulo `SIZE_MOD = 2 ^ 64`, every narrowing to `UINT` modulo
  `UINT_MOD = 2 ^ 32`.
* Raw storage is a list of slots; a slot is `some v` while an object with value `v` lives in
  it and `none` otherwise (never constructed, or destroyed).
* An operation returns `none` when the C++ execution has undefined behaviour: a read of a
  slot that holds no live object, or an access outside the storage.
* Storage is counted in element slots. The members under `DynamicArray` give the block that
  `A::Allocate(n * sizeof(T))` returns `n` slots, which is what the source does as long as the
  byte count `n * sizeof(T)` does not wrap `size_t` (`sizedGrow_eq`), and always for elements
  of one byte. The members under `DynamicArray.Sized` take `sizeof(T)` as the parameter
  `sizeofT` and compute the byte count as the source does, as a `size_t` product; the block
  has room for as many elements as that many bytes hold.
* `A::Allocate` returns a block of the byte count it is asked for.
-/

namespace sgfx

/-- Number of values of the type `size_t`. -/
def SIZE_MOD : Nat := 2 ^ 64

/-- Number of values of the type `UINT`. -/
def UINT_MOD : Nat := 2 ^ 32

namespace internal

/-! ## `array.hh`: `ImmutableArray` / `DynamicArray` -/

/-- A block handed out by `A::Allocate`: its identity (the number of earlier allocations) and
its element slots. -/
structure HeapBlock (T : Type) where
  id : Nat
  slots : List (Option T)

/-- The class `DynamicArray<T, I, G, A>` together with the allocator's call history.
`heap = none` stands for `pointer == _inplaceStorage`; `heap = some b` for `pointer` addressing
the allocated block `b`. `allocations` counts the calls of `A::Allocate`, `freed` lists the
blocks passed to `A::Free`, oldest first. -/
structure DynamicArray (T : Type) (I G : Nat) where
  capacity : Nat
  size : Nat
  inplaceStorage : List (Option T)
  heap : Option (HeapBlock T)
  allocations : Nat
  freed : List Nat

namespace DynamicArray

variable {T : Type} {I G : Nat}

/-- The slots `pointer` addresses. -/
def storage (a : DynamicArray T I G) : List (Option T) :=
  match a.heap with
  | some b => b.slots
  | none => a.inplaceStorage

/-- Replace the slots `pointer` addresses. -/
def setStorage (a : DynamicArray T I G) (s : List (Option T)) : DynamicArray T I G :=
  match a.heap with
  | some b => { a with heap := some { b with slots := s } }
  | none => { a with inplaceStorage := s }

/-- The constructor `DynamicArray()`: `capacity = kInplaceStorageSize`, `size = 0`,
`pointer = _inplaceStorage`, whose `I` slots hold no object yet. -/
def new : DynamicArray T I G :=
  { capacity := I, size := 0, inplaceStorage := List.replicate I none, heap := none,
    allocations := 0, freed := [] }

/-- The member `GetSize()`. -/
def GetSize (a : DynamicArray T I G) : Nat := a.size

/-- The member `GetCapacity()`. -/
def GetCapacity (a : DynamicArray T I G) : Nat := a.capacity

/-- Reading the object in slot `index` of a storage: `none` when the slot is outside the
storage or holds no live object. -/
def readLive (s : List (Option T)) (index : Nat) : Option T :=
  match s[index]? with
  | some (some v) => some v
  | _ => none

/-- The member `operator[](index)`, read as a value: `pointer[index]`. -/
def get (a : DynamicArray T I G) (index : Nat) : Option T :=
  readLive a.storage index

/-- Placement construction `::new (&s[i]) T(v)`: `none` when slot `i` is outside the
storage. -/
def constructAt (s : List (Option T)) (i : Nat) (v : T) : Option (List (Option T)) :=
  if i < s.length then some (s.set i (some v)) else none

/-- The member `DeleteContents()`: a heap block is passed to `A::Free` and `pointer` goes back
to `_inplaceStorage`. -/
def DeleteContents (a : DynamicArray T I G) : DynamicArray T I G :=
  match a.heap with
  | some b => { a with heap := none, freed := a.freed ++ [b.id] }
  | none => a

/-- The loop `for (i = i0; i < i0 + n; ++i) ::new (&ptr[i]) T(static_cast<T&&>(pointer[i]))`
of `Grow`: `src` is the old storage, `dst` the new one. The moved-from objects stay where they
are. -/
def moveRange (src : List (Option T)) (dst : List (Option T)) (i : Nat) :
    Nat → Option (List (Option T))
  | 0 => some dst
  | n + 1 =>
    match readLive src i with
    | none => none
    | some v =>
      match constructAt dst i v with
      | none => none
      | some d => moveRange src d (i + 1) n

/-- The member `Grow(numElements)`. The block allocated for `newCapacity > I` has
`newCapacity` slots: the byte count `newCapacity * sizeof(T)` is taken not to wrap `size_t`.
`Sized.Grow` is the member with the byte count computed. -/
def Grow (a : DynamicArray T I G) (numElements : Nat) : Option (DynamicArray T I G) :=
  let newCapacity := (a.size + numElements) % SIZE_MOD
  let a1 : DynamicArray T I G := { a with capacity := newCapacity }
  if newCapacity > I then
    match moveRange a1.storage (List.replicate newCapacity none) 0 a1.size with
    | none => none
    | some slots =>
      let a2 : DynamicArray T I G := DeleteContents { a1 with allocations := a1.allocations + 1 }
      some { a2 with heap := some { id := a1.allocations, slots := slots } }
  else
    some a1

/-- The member `Add(element)`. -/
def Add (a : DynamicArray T I G) (element : T) : Option (DynamicArray T I G) :=
  match (if a.size ≥ a.capacity then Grow a G else some a) with
  | none => none
  | some a1 =>
    match constructAt a1.storage a1.size element with
    | none => none
    | some s => some { a1.setStorage s with size := (a1.size + 1) % SIZE_MOD }

/-- The member `EmplaceAdd(args...)`: `construct args` is the value `T(args...)` builds. -/
def EmplaceAdd {Args : Type} (a : DynamicArray T I G) (construct : Args → T) (args : Args) :
    Option (DynamicArray T I G) :=
  match (if a.size ≥ a.capacity then Grow a G else some a) with
  | none => none
  | some a1 =>
    match constructAt a1.storage a1.size (construct args) with
    | none => none
    | some s => some { a1.setStorage s with size := (a1.size + 1) % SIZE_MOD }

/-- The loop of `Remove(index)`, `n` iterations from the state `ptr`, `i`:
`for (; i < size; ++i) { ::new (ptr) T(static_cast<T&&>(pointer[i])); ptr++; ptr->~T(); }`
(`ptr` is kept as a slot index). -/
def shiftLeft (s : List (Option T)) (ptr i : Nat) : Nat → Option (List (Option T))
  | 0 => some s
  | n + 1 =>
    match readLive s i with
    | none => none
    | some v =>
      match constructAt s ptr v with
      | none => none
      | some s1 =>
        match readLive s1 (ptr + 1) with
        | none => none
        | some _ => shiftLeft (s1.set (ptr + 1) none) (ptr + 1) (i + 1) n

/-- The member `Remove(size_t index)`. -/
def Remove (a : DynamicArray T I G) (index : Nat) : Option (DynamicArray T I G) :=
  if index < a.size then
    match readLive a.storage index with
    | none => none
    | some _ =>
      match shiftLeft (a.storage.set index none) index (index + 1) (a.size - (index + 1)) with
      | none => none
      | some s => some (a.setStorage s)
  else
    some a

/-- The loop `for (; i < i + n; ++i) pointer[i].~T();`: every destroyed slot has to hold a
live object. -/
def destroyRange (s : List (Option T)) (i : Nat) : Nat → Option (List (Option T))
  | 0 => some s
  | n + 1 =>
    match readLive s i with
    | none => none
    | some _ => destroyRange (s.set i none) (i + 1) n

/-- The member `Clear()`. -/
def Clear (a : DynamicArray T I G) : Option (DynamicArray T I G) :=
  match destroyRange a.storage 0 a.size with
  | none => none
  | some s => some { a.setStorage s with size := 0 }

/-- The member `Purge()`: `Clear(); DeleteContents(); size = 0; capacity = kInplaceStorageSize`. -/
def Purge (a : DynamicArray T I G) : Option (DynamicArray T I G) :=
  match Clear a with
  | none => none
  | some a1 => some { DeleteContents a1 with size := 0, capacity := I }

/-- The member `Reserve(numElements)`. The subtraction is made only when
`numElements > capacity`. -/
def Reserve (a : DynamicArray T I G) (numElements : Nat) : Option (DynamicArray T I G) :=
  if numElements > a.capacity then Grow a (numElements - a.capacity) else some a

/-- The conversion of a `size_t` value to `ptrdiff_t`: values from `2 ^ 63` on wrap to the
negative numbers. -/
def toPtrdiff (n : Nat) : Int :=
  if n % SIZE_MOD < 2 ^ 63 then ((n % SIZE_MOD : Nat) : Int)
  else ((n % SIZE_MOD : Nat) : Int) - ((SIZE_MOD : Nat) : Int)

/-- The conversion of a `ptrdiff_t` value to `size_t`. -/
def toSize (z : Int) : Nat := (z % ((SIZE_MOD : Nat) : Int)).toNat

/-- The loop `for (; i < GetSize(); ++i) if (pointer[i] == e) return i;` of `Find`, `n`
iterations left, followed by `return -1`. The comparison reads the object in slot `i`. -/
def findFrom [BEq T] (s : List (Option T)) (e : T) (i : Nat) : Nat → Option Int
  | 0 => some (-1)
  | n + 1 =>
    match readLive s i with
    | none => none
    | some v => if v == e then some (toPtrdiff i) else findFrom s e (i + 1) n

/-- The member `Find(e)` of `ImmutableArray`; `==` is the `operator==` of `T`. -/
def Find [BEq T] (a : DynamicArray T I G) (e : T) : Option Int :=
  findFrom a.storage e 0 a.size

/-- The member that the call `Remove(index)` inside `Remove(const T& element)` names. Its
argument is the `ptrdiff_t` object `index`; the candidates are `Remove(size_t)`, reached by an
integral conversion, and `Remove(const T&)`. Which one is chosen depends on the element type:
* `toIndex`: no standard conversion leads from `ptrdiff_t` to `T` (a class, a pointer or an
  enumeration type), and `Remove(size_t)` is called;
* `toElement ofPtrdiff`: `T` is the type `ptrdiff_t` itself, `const T&` binds to `index`
  directly, which is the better match, and `Remove(const T&)` is called again, with the
  element `ofPtrdiff index`.
For every other arithmetic `T` both candidates need a conversion of the same rank, the call
is ambiguous and the member is not compiled. -/
inductive RemoveOverload (T : Type) where
  | toIndex
  | toElement (ofPtrdiff : Int → T)

/-- The member `Remove(const T& element)`; `overload` is the member its call `Remove(index)`
names. `depth` bounds the number of calls the member makes of itself: the result is `none`
also when more are needed. -/
def RemoveElement [BEq T] (overload : RemoveOverload T) (depth : Nat) (a : DynamicArray T I G)
    (element : T) : Option (DynamicArray T I G) :=
  match Find a element with
  | none => none
  | some index =>
    if index ≠ -1 then
      match overload with
      | RemoveOverload.toIndex => Remove a (toSize index)
      | RemoveOverload.toElement ofPtrdiff =>
        match depth with
        | 0 => none
        | depth + 1 => RemoveElement overload depth a (ofPtrdiff index)
    else some a

/-- One append of a recorded sequence: `Add(v)` for `(false, v)`, `EmplaceAdd(v)` (the
element built from `v` itself) for `(true, v)`. -/
def append (a : DynamicArray T I G) (op : Bool × T) : Option (DynamicArray T I G) :=
  if op.1 then EmplaceAdd a id op.2 else Add a op.2

/-- A sequence of appends on one array, left to right. -/
def appendAll (a : DynamicArray T I G) : List (Bool × T) → Option (DynamicArray T I G)
  | [] => some a
  | op :: ops =>
    match append a op with
    | none => none
    | some a1 => appendAll a1 ops

/-- The representation invariant of a usable array: `size <= capacity`, the storage in use has
at least `capacity` slots and at least `I` slots, and every slot below `size` holds a live
object. -/
def Valid (a : DynamicArray T I G) : Prop :=
  a.size ≤ a.capacity ∧ a.capacity ≤ a.storage.length ∧ I ≤ a.storage.length ∧
    ∀ i, i < a.size → (a.get i).isSome = true

/-- The array `a` holds exactly the elements `xs`, in this order: `GetSize()` is their number
and `operator[](i)` is the `i`-th of them. -/
def Holds (a : DynamicArray T I G) (xs : List T) : Prop :=
  a.GetSize = xs.length ∧ ∀ i, i < xs.length → a.get i = xs[i]?

/-- The member `IsEmpty()` of `ImmutableArray`: `return size != 0;`. -/
def IsEmpty (a : DynamicArray T I G) : Bool := a.size != 0

/-- The loop `for (; i < i + n; ++i) ::new (&pointer[i]) T();` of `Resize`: `default` is the
value `T()` builds. -/
def constructRange [Inhabited T] (s : List (Option T)) (i : Nat) : Nat → Option (List (Option T))
  | 0 => some s
  | n + 1 =>
    match constructAt s i default with
    | none => none
    | some s1 => constructRange s1 (i + 1) n

/-- The member `Resize(newSize)`. The argument `newSize - size` of `Grow` is a difference of
`size_t` values, taken modulo `2 ^ 64`. -/
def Resize [Inhabited T] (a : DynamicArray T I G) (newSize : Nat) : Option (DynamicArray T I G) :=
  if newSize = a.size then some a
  else
    match (if newSize > a.capacity then Grow a ((newSize + SIZE_MOD - a.size) % SIZE_MOD)
      else some a) with
    | none => none
    | some a1 =>
      match (if newSize < a1.size then destroyRange a1.storage newSize (a1.size - newSize)
        else constructRange a1.storage a1.size (newSize - a1.size)) with
      | none => none
      | some s => some { a1.setStorage s with size := newSize }

/-- The loop `for (; i < i + n; ++i) ::new (&pointer[i]) T(other[i]);` of the copy operations:
`src` is the storage of `other`, `dst` the storage of `this`. As in `moveRange`, the value
read from slot `i` is constructed in slot `i` and the source stays as it is. -/
def copyRange (src : List (Option T)) (dst : List (Option T)) (i : Nat) (n : Nat) :
    Option (List (Option T)) :=
  moveRange src dst i n

/-- The copy assignments `operator=(const DynamicArray&)` and
`operator=(const ImmutableArray<T>&)`, which have the same body; `other` is only read. -/
def assign [Inhabited T] {I2 G2 : Nat} (a : DynamicArray T I G) (other : DynamicArray T I2 G2) :
    Option (DynamicArray T I G) :=
  match Resize a other.GetSize with
  | none => none
  | some a1 =>
    match copyRange other.storage a1.storage 0 a1.size with
    | none => none
    | some s => some (a1.setStorage s)

/-- The copy constructor `DynamicArray(const DynamicArray& other)`: the members are set as in
the default constructor, then the body of the copy assignment runs. -/
def copyConstruct [Inhabited T] (other : DynamicArray T I G) : Option (DynamicArray T I G) :=
  let a0 : DynamicArray T I G :=
    { capacity := I, size := 0, inplaceStorage := List.replicate I none, heap := none,
      allocations := 0, freed := [] }
  match Resize a0 other.GetSize with
  | none => none
  | some a1 =>
    match copyRange other.storage a1.storage 0 a1.size with
    | none => none
    | some s => some (a1.setStorage s)

namespace Sized

/-- The number of elements the block `A::Allocate(newCapacity * sizeof(T))` has room for. The
byte count is a product of `size_t` values, taken modulo `2 ^ 64`, and a block of `b` bytes
holds `b / sizeof(T)` objects. -/
def allocatedSlots (sizeofT newCapacity : Nat) : Nat :=
  ((newCapacity * sizeofT) % SIZE_MOD) / sizeofT

/-- The member `Grow(numElements)` for elements of `sizeofT` bytes. -/
def Grow (sizeofT : Nat) (a : DynamicArray T I G) (numElements : Nat) :
    Option (DynamicArray T I G) :=
  let newCapacity := (a.size + numElements) % SIZE_MOD
  let a1 : DynamicArray T I G := { a with capacity := newCapacity }
  if newCapacity > I then
    match moveRange a1.storage (List.replicate (allocatedSlots sizeofT newCapacity) none) 0
      a1.size with
    | none => none
    | some slots =>
      let a2 : DynamicArray T I G := DeleteContents { a1 with allocations := a1.allocations + 1 }
      some { a2 with heap := some { id := a1.allocations, slots := slots } }
  else
    some a1

/-- The member `Add(element)` for elements of `sizeofT` bytes. -/
def Add (sizeofT : Nat) (a : DynamicArray T I G) (element : T) : Option (DynamicArray T I G) :=
  match (if a.size ≥ a.capacity then Sized.Grow sizeofT a G else some a) with
  | none => none
  | some a1 =>
    match constructAt a1.storage a1.size element with
    | none => none
    | some s => some { a1.setStorage s with size := (a1.size + 1) % SIZE_MOD }

/-- The member `EmplaceAdd(args...)` for elements of `sizeofT` bytes. -/
def EmplaceAdd {Args : Type} (sizeofT : Nat) (a : DynamicArray T I G) (construct : Args → T)
    (args : Args) : Option (DynamicArray T I G) :=
  match (if a.size ≥ a.capacity then Sized.Grow sizeofT a G else some a) with
  | none => none
  | some a1 =>
    match constructAt a1.storage a1.size (construct args) with
    | none => none
    | some s => some { a1.setStorage s with size := (a1.size + 1) % SIZE_MOD }

/-- The member `Reserve(numElements)` for elements of `sizeofT` bytes. -/
def Reserve (sizeofT : Nat) (a : DynamicArray T I G) (numElements : Nat) :
    Option (DynamicArray T I G) :=
  if numElements > a.capacity then Sized.Grow sizeofT a (numElements - a.capacity) else some a

/-- The member `Resize(newSize)` for elements of `sizeofT` bytes. -/
def Resize [Inhabited T] (sizeofT : Nat) (a : DynamicArray T I G) (newSize : Nat) :
    Option (DynamicArray T I G) :=
  if newSize = a.size then some a
  else
    match (if newSize > a.capacity then
        Sized.Grow sizeofT a ((newSize + SIZE_MOD - a.size) % SIZE_MOD)
      else some a) with
    | none => none
    | some a1 =>
      match (if newSize < a1.size then destroyRange a1.storage newSize (a1.size - newSize)
        else constructRange a1.storage a1.size (newSize - a1.size)) with
      | none => none
      | some s => some { a1.setStorage s with size := newSize }

/-- The copy assignments for elements of `sizeofT` bytes. -/
def assign [Inhabited T] {I2 G2 : Nat} (sizeofT : Nat) (a : DynamicArray T I G)
    (other : DynamicArray T I2 G2) : Option (DynamicArray T I G) :=
  match Sized.Resize sizeofT a other.GetSize with
  | none => none
  | some a1 =>
    match copyRange other.storage a1.storage 0 a1.size with
    | none => none
    | some s => some (a1.setStorage s)

end Sized

end DynamicArray

/-- A call of a public member of `DynamicArray<T, I, G>` that changes the array, with its
arguments. `EmplaceAdd` builds the element from the value itself; `assign` is a copy
assignment from `other`. -/
inductive Operation (T : Type) (I G : Nat) where
  | Add (element : T)
  | EmplaceAdd (args : T)
  | Remove (index : Nat)
  | RemoveElement (element : T)
  | Clear
  | Purge
  | Resize (newSize : Nat)
  | Reserve (numElements : Nat)
  | Grow (numElements : Nat)
  | assign (other : DynamicArray T I G)

namespace Operation

variable {T : Type} {I G : Nat}

/-- The call of the member on the array `a`; `overload` and `depth` are those of
`Remove(const T&)`. -/
def apply [BEq T] [Inhabited T] (overload : DynamicArray.RemoveOverload T) (depth : Nat)
    (a : DynamicArray T I G) : Operation T I G → Option (DynamicArray T I G)
  | Add element => a.Add element
  | EmplaceAdd args => a.EmplaceAdd id args
  | Remove index => a.Remove index
  | RemoveElement element => a.RemoveElement overload depth element
  | Clear => a.Clear
  | Purge => a.Purge
  | Resize newSize => a.Resize newSize
  | Reserve numElements => a.Reserve numElements
  | Grow numElements => a.Grow numElements
  | assign other => a.assign other

/-- The arguments are values of the type `size_t`, and so is the size of the array copied
from. -/
def inRange : Operation T I G → Bool
  | Remove index => decide (index < SIZE_MOD)
  | Resize newSize => decide (newSize < SIZE_MOD)
  | Reserve numElements => decide (numElements < SIZE_MOD)
  | Grow numElements => decide (numElements < SIZE_MOD)
  | assign other => decide (other.size < SIZE_MOD)
  | _ => true

/-- The sum `size + numElements` that `Grow` computes when the call is made on `a` does not
wrap `size_t`: for `Grow(numElements)` itself, and for the `Grow(kGrowAmount)` that `Add`
and `EmplaceAdd` make at `size >= capacity`. -/
def noWrap (a : DynamicArray T I G) : Operation T I G → Bool
  | Grow numElements => decide (a.size + numElements < SIZE_MOD)
  | Add _ => decide (a.size < a.capacity ∨ a.size + G < SIZE_MOD)
  | EmplaceAdd _ => decide (a.size < a.capacity ∨ a.size + G < SIZE_MOD)
  | _ => true

/-- The call of the member on the array `a` of elements of `sizeofT` bytes. -/
def applySized [BEq T] [Inhabited T] (sizeofT : Nat) (overload : DynamicArray.RemoveOverload T)
    (depth : Nat) (a : DynamicArray T I G) : Operation T I G → Option (DynamicArray T I G)
  | Add element => DynamicArray.Sized.Add sizeofT a element
  | EmplaceAdd args => DynamicArray.Sized.EmplaceAdd sizeofT a id args
  | Remove index => a.Remove index
  | RemoveElement element => a.RemoveElement overload depth element
  | Clear => a.Clear
  | Purge => a.Purge
  | Resize newSize => DynamicArray.Sized.Resize sizeofT a newSize
  | Reserve numElements => DynamicArray.Sized.Reserve sizeofT a numElements
  | Grow numElements => DynamicArray.Sized.Grow sizeofT a numElements
  | assign other => DynamicArray.Sized.assign sizeofT a other

/-- The argument of the call of `Grow` that the member makes when it is called on `a`, if it
makes one: `kGrowAmount` in `Add` and `EmplaceAdd` at `size >= capacity`, `newSize - size` in
`Resize` and in the copy assignment at `newSize != size` and `newSize > capacity`,
`numElements - capacity` in `Reserve` at `numElements > capacity`, and the argument of a
direct call. -/
def growArgument (a : DynamicArray T I G) : Operation T I G → Option Nat
  | Add _ => if a.size ≥ a.capacity then some G else none
  | EmplaceAdd _ => if a.size ≥ a.capacity then some G else none
  | Resize newSize =>
    if newSize = a.size then none
    else if newSize > a.capacity then some ((newSize + SIZE_MOD - a.size) % SIZE_MOD) else none
  | Reserve numElements =>
    if numElements > a.capacity then some (numElements - a.capacity) else none
  | Grow numElements => some numElements
  | assign other =>
    if other.GetSize = a.size then none
    else if other.GetSize > a.capacity then
      some ((other.GetSize + SIZE_MOD - a.size) % SIZE_MOD)
    else none
  | _ => none

/-- In the call of `Grow` that the member makes on `a`, if it makes one, neither the sum
`size + numElements` wraps `size_t` nor, when a block is allocated, the byte count
`newCapacity * sizeof(T)`. -/
def noWrapSized (sizeofT : Nat) (a : DynamicArray T I G) (op : Operation T I G) : Bool :=
  match op.growArgument a with
  | none => true
  | some numElements =>
    decide (a.size + numElements < SIZE_MOD ∧
      (a.size + numElements > I → (a.size + numElements) * sizeofT < SIZE_MOD))

end Operation

namespace DynamicArray

variable {T : Type} {I G : Nat}

/-- A sequence of member calls on one array, left to right; `none` when one of them has
undefined behaviour. -/
def applyAll [BEq T] [Inhabited T] (overload : RemoveOverload T) (depth : Nat)
    (a : DynamicArray T I G) : List (Operation T I G) → Option (DynamicArray T I G)
  | [] => some a
  | op :: ops =>
    match op.apply overload depth a with
    | none => none
    | some a1 => applyAll overload depth a1 ops

/-- No call of the sequence `ops`, made in turn from the array `a`, wraps the sum
`size + numElements` of `Grow`. -/
def noWrapRun [BEq T] [Inhabited T] (overload : RemoveOverload T) (depth : Nat)
    (a : DynamicArray T I G) : List (Operation T I G) → Bool
  | [] => true
  | op :: ops =>
    op.noWrap a &&
      match op.apply overload depth a with
      | none => true
      | some a1 => noWrapRun overload depth a1 ops

/-- A sequence of member calls on one array of elements of `sizeofT` bytes, left to right;
`none` when one of them has undefined behaviour. -/
def Sized.applyAll [BEq T] [Inhabited T] (sizeofT : Nat) (overload : RemoveOverload T)
    (depth : Nat) (a : DynamicArray T I G) :
    List (Operation T I G) → Option (DynamicArray T I G)
  | [] => some a
  | op :: ops =>
    match op.applySized sizeofT overload depth a with
    | none => none
    | some a1 => Sized.applyAll sizeofT overload depth a1 ops

/-- No call of the sequence `ops`, made in turn from the array `a` of elements of `sizeofT`
bytes, wraps the sum `size + numElements` or the byte count of `Grow`. -/
def Sized.noWrapRun [BEq T] [Inhabited T] (sizeofT : Nat) (overload : RemoveOverload T)
    (depth : Nat) (a : DynamicArray T I G) : List (Operation T I G) → Bool
  | [] => true
  | op :: ops =>
    op.noWrapSized sizeofT a &&
      match op.applySized sizeofT overload depth a with
      | none => true
      | some a1 => Sized.noWrapRun sizeofT overload depth a1 ops

/-- The storage in use covers the capacity: the inline buffer has its `I` slots, and the
storage in use has at least `capacity` slots and at least `I` slots. -/
def Covered (a : DynamicArray T I G) : Prop :=
  a.inplaceStorage.length = I ∧ a.capacity ≤ a.storage.length ∧ I ≤ a.storage.length

end DynamicArray

end internal

/-! ## `sigrlinn_d3d11.cc`: handles, backend objects and the recorded backend calls -/

/-- One byte of a parameter blob. -/
abbrev Byte := Fin 256

/-- A `BufferHandle`: `value` is the address of the `ID3D11Buffer`, `0` the invalid handle. -/
structure BufferHandle where
  value : Nat
  deriving DecidableEq, Repr

/-- Modelled from the spec: the enumeration `PrimitiveTopology` of the absent `sigrlinn.hh`;
its two enumerators are the two rows of the table `MapPrimitiveTopology`. -/
inductive PrimitiveTopology where
  | TriangleList
  | TriangleStrip
  deriving DecidableEq, Repr

/-- The table `MapPrimitiveTopology`, as the values of `D3D11_PRIMITIVE_TOPOLOGY_TRIANGLELIST`
and `D3D11_PRIMITIVE_TOPOLOGY_TRIANGLESTRIP`. -/
def MapPrimitiveTopology : PrimitiveTopology → Nat
  | .TriangleList => 4
  | .TriangleStrip => 5

/-- The struct `VertexFormatImpl`. -/
structure VertexFormatImpl where
  inputLayout : Nat
  stride : Nat
  deriving DecidableEq, Repr

/-- The struct `SurfaceShaderImpl`. -/
structure SurfaceShaderImpl where
  vs : Nat
  hs : Nat
  ds : Nat
  gs : Nat
  ps : Nat
  deriving DecidableEq, Repr

/-- A `SurfaceShaderHandle`: `value` is the object it points to, `none` the invalid handle. -/
structure SurfaceShaderHandle where
  value : Option SurfaceShaderImpl
  deriving DecidableEq, Repr

/-- A `VertexFormatHandle`: `value` is the object it points to, `none` the invalid handle. -/
structure VertexFormatHandle where
  value : Option VertexFormatImpl
  deriving DecidableEq, Repr

/-- An `ID3D11Buffer` the device created: its identity and the `ByteWidth` it was created
with. -/
structure ID3D11Buffer where
  id : Nat
  ByteWidth : Nat
  deriving DecidableEq, Repr

/-- An `ID3D11ShaderResourceView` the device created. -/
structure ID3D11ShaderResourceView where
  id : Nat
  deriving DecidableEq, Repr

/-- Modelled from the spec: the rasterizer part of `PipelineStateDescriptor` (declared in the
absent `sigrlinn.hh`), with the fields `createPipelineState` reads; enumerators are kept as
their `uint64_t` values. -/
structure RasterizerState where
  fillMode : Nat
  cullMode : Nat
  counterDirection : Nat
  deriving DecidableEq, Repr

/-- Modelled from the spec: one blend description of `BlendState`, with the fields
`createPipelineState` reads. -/
structure BlendDesc where
  blendEnabled : Bool
  srcBlend : Nat
  dstBlend : Nat
  blendOp : Nat
  srcBlendAlpha : Nat
  dstBlendAlpha : Nat
  blendOpAlpha : Nat
  deriving DecidableEq, Repr

/-- Modelled from the spec: the blend part of `PipelineStateDescriptor`, with the fields
`createPipelineState` reads. -/
structure BlendState where
  alphaToCoverageEnabled : Bool
  separateBlendEnabled : Bool
  blendDesc : BlendDesc
  renderTargetBlendDesc : List BlendDesc
  deriving DecidableEq, Repr

/-- Modelled from the spec: one face of the stencil configuration. -/
structure StencilDesc where
  stencilFunc : Nat
  failOp : Nat
  depthFailOp : Nat
  passOp : Nat
  deriving DecidableEq, Repr

/-- Modelled from the spec: the depth/stencil part of `PipelineStateDescriptor`, with the
fields `createPipelineState` reads. -/
structure DepthStencilState where
  depthEnabled : Bool
  writeMask : Nat
  depthFunc : Nat
  stencilEnabled : Bool
  stencilReadMask : Nat
  stencilWriteMask : Nat
  frontFaceStencilDesc : StencilDesc
  backFaceStencilDesc : StencilDesc
  stencilRef : Nat
  deriving DecidableEq, Repr

/-- Modelled from the spec: the aggregate `PipelineStateDescriptor` of the absent
`sigrlinn.hh`. -/
structure PipelineStateDescriptor where
  rasterizerState : RasterizerState
  blendState : BlendState
  depthStencilState : DepthStencilState
  shader : SurfaceShaderHandle
  vertexFormat : VertexFormatHandle
  deriving DecidableEq, Repr

/-- A `VertexShaderHandle`: `value` is the address of the `ID3D11VertexShader`, `0` the
invalid handle. -/
structure VertexShaderHandle where
  value : Nat
  deriving DecidableEq, Repr

/-- A `HullShaderHandle`: `value` is the address of the `ID3D11HullShader`, `0` the invalid
handle. -/
structure HullShaderHandle where
  value : Nat
  deriving DecidableEq, Repr

/-- A `DomainShaderHandle`: `value` is the address of the `ID3D11DomainShader`, `0` the
invalid handle. -/
structure DomainShaderHandle where
  value : Nat
  deriving DecidableEq, Repr

/-- A `GeometryShaderHandle`: `value` is the address of the `ID3D11GeometryShader`, `0` the
invalid handle. -/
structure GeometryShaderHandle where
  value : Nat
  deriving DecidableEq, Repr

/-- A `PixelShaderHandle`: `value` is the address of the `ID3D11PixelShader`, `0` the invalid
handle. -/
structure PixelShaderHandle where
  value : Nat
  deriving DecidableEq, Repr

/-- A `ComputeShaderHandle`: `value` is the address of the `ID3D11ComputeShader`, `0` the
invalid handle. -/
structure ComputeShaderHandle where
  value : Nat
  deriving DecidableEq, Repr

/-- A `TransientBufferHandle`: `value` is the address of the `ID3D11Buffer`, `0` the invalid
handle. -/
structure TransientBufferHandle where
  value : Nat
  deriving DecidableEq, Repr

/-- The kinds of implementation object the backend code passes to `delete`. -/
inductive ImplKind where
  | SurfaceShaderImpl
  | VertexFormatImpl
  | PipelineStateImpl
  | DrawQueue
  deriving DecidableEq, Repr

/-- Modelled from the spec: the enumerators of `DataFormat` (absent `sigrlinn.hh`) that the
`switch` of `dxFormatStride` names; `other` stands for every enumerator it does not name,
`value` being its number. -/
inductive DataFormat where
  | R8
  | R16
  | R16F
  | R32
  | R32F
  | RG8
  | RG16
  | RG16F
  | RG32
  | RG32F
  | RGB32
  | RGB32F
  | RGBA8
  | RGBA16
  | RGBA16F
  | RGBA32
  | RGBA32F
  | other (value : Nat)
  deriving DecidableEq, Repr

/-- The function `dxFormatStride(format)`. -/
def dxFormatStride : DataFormat → Nat
  | .R8 => 1
  | .R16 => 2
  | .R16F => 2
  | .R32 => 4
  | .R32F => 4
  | .RG8 => 2
  | .RG16 => 4
  | .RG16F => 4
  | .RG32 => 8
  | .RG32F => 8
  | .RGB32 => 12
  | .RGB32F => 12
  | .RGBA8 => 4
  | .RGBA16 => 8
  | .RGBA16F => 8
  | .RGBA32 => 16
  | .RGBA32F => 16
  | .other _ => 0

/-- Modelled from the spec: the enumeration `VertexElementType` of the absent `sigrlinn.hh`;
its two enumerators are the two rows of the table `MapVertexElementType`. -/
inductive VertexElementType where
  | PerVertex
  | PerInstance
  deriving DecidableEq, Repr

/-- Modelled from the spec: the struct `VertexElementDescriptor` of the absent `sigrlinn.hh`,
with the members `createVertexFormat` reads; `semanticName` is kept as the address of the
string. -/
structure VertexElementDescriptor where
  semanticName : Nat
  semanticIndex : Nat
  format : DataFormat
  slot : Nat
  offset : Nat
  type : VertexElementType
  deriving DecidableEq, Repr

/-- Modelled from the spec: the struct `ShaderCompileMacro` of the absent `sigrlinn.hh`, with
the members `compileShader` reads, kept as the addresses of the two strings. -/
structure ShaderCompileMacro where
  name : Nat
  value : Nat
  deriving DecidableEq, Repr

/-- A call the backend code makes on the Direct3D 11 device, on the immediate context or on a
COM object, a `delete` of an implementation object (`Delete`), or a call of the caller's error
callback (`ErrorReport`). Objects are named by their identity; a null pointer argument is
`none`. The descriptor a `Create*State` call receives is filled from the matching part of the
`PipelineStateDescriptor` without branching on the backend, and is recorded as that part; in
the same way the array `CreateInputLayout` receives is recorded as the elements it was filled
from, and `output` tells whether the call passes a pointer to receive the layout. -/
inductive Call where
  | RSSetState (state : Nat)
  | OMSetBlendState (state : Nat)
  | OMSetDepthStencilState (state : Nat) (stencilRef : Nat)
  | IASetInputLayout (layout : Nat)
  | VSSetShader (shader : Nat)
  | HSSetShader (shader : Nat)
  | DSSetShader (shader : Nat)
  | GSSetShader (shader : Nat)
  | PSSetShader (shader : Nat)
  | Release (object : Nat)
  | CreateBuffer (ByteWidth : Nat) (StructureByteStride : Nat)
  | CreateShaderResourceView (buffer : Nat) (ElementWidth : Nat)
  | Map (buffer : Option Nat)
  | Unmap (buffer : Option Nat)
  | IASetPrimitiveTopology (topology : Nat)
  | IASetVertexBuffers (vb : Nat) (stride : Nat) (offset : Nat)
  | IASetIndexBuffer (ib : Nat)
  | VSSetShaderResources (view : Option Nat)
  | HSSetShaderResources (view : Option Nat)
  | DSSetShaderResources (view : Option Nat)
  | GSSetShaderResources (view : Option Nat)
  | PSSetShaderResources (view : Option Nat)
  | DrawInstanced (count : Nat) (instances : Nat) (startVertex : Nat) (startInstance : Nat)
  | DrawIndexedInstanced (count : Nat) (instances : Nat) (startIndex : Nat)
      (startVertex : Nat) (startInstance : Nat)
  | Draw (count : Nat) (startVertex : Nat)
  | DrawIndexed (count : Nat) (startIndex : Nat) (startVertex : Nat)
  | CreateRasterizerState (desc : RasterizerState)
  | CreateBlendState (desc : BlendState)
  | CreateDepthStencilState (desc : DepthStencilState)
  | CSSetShader (shader : Nat)
  | Dispatch (x : Nat) (y : Nat) (z : Nat)
  | UpdateSubresource (buffer : Nat) (box : Option (Nat × Nat)) (mem : Nat)
  | Delete (kind : ImplKind)
  | CreateInputLayout (elements : List VertexElementDescriptor) (NumElements : Nat)
      (bytecode : Nat) (BytecodeLength : Nat) (output : Bool)
  | ErrorReport (callback : Nat) (message : String)
  deriving DecidableEq, Repr

namespace Call

/-- The calls that submit geometry: `Draw`, `DrawIndexed` and their instanced forms. -/
def isDraw : Call → Bool
  | DrawInstanced _ _ _ _ => true
  | DrawIndexedInstanced _ _ _ _ _ => true
  | Draw _ _ => true
  | DrawIndexed _ _ _ => true
  | _ => false

/-- The instanced draws: `DrawInstanced` and `DrawIndexedInstanced`. -/
def isInstancedDraw : Call → Bool
  | DrawInstanced _ _ _ _ => true
  | DrawIndexedInstanced _ _ _ _ _ => true
  | _ => false

/-- The input-assembler bindings of geometry: topology, vertex buffer, index buffer. -/
def isGeometryBinding : Call → Bool
  | IASetPrimitiveTopology _ => true
  | IASetVertexBuffers _ _ _ => true
  | IASetIndexBuffer _ => true
  | _ => false

/-- The calls that map or unmap a buffer. -/
def isMapping : Call → Bool
  | Map _ => true
  | Unmap _ => true
  | _ => false

end Call

/-- What the Direct3D 11 device answers during one call of the backend code: the identity of
the object a creation returns (`none` when the `HRESULT` is a failure) and whether `Map`
succeeds. The device is an external collaborator; every answer is possible. -/
structure Backend where
  createBuffer : Option Nat
  createShaderResourceView : Option Nat
  mapOk : Bool
  deriving DecidableEq, Repr

/-- The struct `DXSharedConstantBuffer`; `none` is the null pointer. -/
structure DXSharedConstantBuffer where
  dataBuffer : Option ID3D11Buffer
  dataView : Option ID3D11ShaderResourceView
  dataBufferSize : Nat
  deriving DecidableEq, Repr

namespace DXSharedConstantBuffer

/-- The state the member initialisers give: no buffer, no view, size `0`. -/
def new : DXSharedConstantBuffer :=
  { dataBuffer := none, dataView := none, dataBufferSize := 0 }

/-- The `Release` calls `if (p != nullptr) p->Release();` makes on a pointer. -/
def releaseIfSet (p : Option Nat) : List Call :=
  match p with
  | some object => [Call.Release object]
  | none => []

/-- The member `setSize(newSize, numInstances)`, with the calls it makes. `ConstantBufferSize`
is `internal::DrawCall::ConstantBufferSize`. The `UINT` fields of the two descriptors receive
`size_t` values. A failed creation leaves the pointer it was to fill as it was. -/
def setSize (ConstantBufferSize : Nat) (cb : DXSharedConstantBuffer) (newSize numInstances : Nat)
    (dev : Backend) : DXSharedConstantBuffer × List Call :=
  if newSize > cb.dataBufferSize then
    let cb1 : DXSharedConstantBuffer := { cb with dataBufferSize := newSize }
    let released := releaseIfSet (cb1.dataBuffer.map (·.id)) ++ releaseIfSet (cb1.dataView.map (·.id))
    let create := Call.CreateBuffer (cb1.dataBufferSize % UINT_MOD) (ConstantBufferSize % UINT_MOD)
    match dev.createBuffer with
    | none => (cb1, released ++ [create])
    | some bufferId =>
      let cb2 : DXSharedConstantBuffer :=
        { cb1 with dataBuffer := some { id := bufferId, ByteWidth := cb1.dataBufferSize % UINT_MOD } }
      let createView := Call.CreateShaderResourceView bufferId (numInstances % UINT_MOD)
      match dev.createShaderResourceView with
      | none => (cb2, released ++ [create, createView])
      | some viewId =>
        ({ cb2 with dataView := some { id := viewId } }, released ++ [create, createView])
  else
    (cb, [])

/-- The buffer and the recorded size agree: the buffer was created with `dataBufferSize`
bytes, or there is no buffer and the size is `0`. -/
def Backed (cb : DXSharedConstantBuffer) : Prop :=
  match cb.dataBuffer with
  | some b => b.ByteWidth = cb.dataBufferSize
  | none => cb.dataBufferSize = 0

end DXSharedConstantBuffer

/-- The struct `PipelineStateImpl`; `shader` and `vertexFormat` are pointers and may be
null. -/
structure PipelineStateImpl where
  rasterizerState : Nat
  blendState : Nat
  depthStencilState : Nat
  shader : Option SurfaceShaderImpl
  vertexFormat : Option VertexFormatImpl
  stencilRef : Nat
  constantBuffer : DXSharedConstantBuffer
  deriving DecidableEq, Repr

/-- A `PipelineStateHandle`: `value` is the object it points to, `none` the invalid handle. -/
structure PipelineStateHandle where
  value : Option PipelineStateImpl
  deriving DecidableEq, Repr

/-- The handle `PipelineStateHandle::invalidHandle()`. -/
def PipelineStateHandle.invalidHandle : PipelineStateHandle := { value := none }

/-- The ways the backend code leaves defined behaviour. -/
inductive Fault where
  | nullDereference
  | readOutsideLifetime (index : Nat)
  | destroyOutsideLifetime
  | wildWrite
  deriving DecidableEq, Repr

/-- What a run of backend code leaves behind: the backend calls made, oldest first, and the
bytes of the shared parameter buffer as seen through the pointer `Map` returned (`none` while
that pointer addresses no mapped memory; a byte is `none` until it is written). -/
structure World where
  calls : List Call
  sharedBytes : Option (List (Option Byte))
  deriving DecidableEq, Repr

/-- The world before any backend call. -/
def World.initial : World := { calls := [], sharedBytes := none }

/-- A piece of backend code: from a world to the world it leaves and either its result or
the fault that ended it. -/
def Run (α : Type) : Type := World → World × Except Fault α

namespace Run

/-- A finished computation. -/
def ret {α : Type} (a : α) : Run α := fun w => (w, Except.ok a)

/-- Sequencing; a fault ends the run and keeps the world reached. -/
def andThen {α β : Type} (x : Run α) (f : α → Run β) : Run β := fun w =>
  match x w with
  | (w1, Except.ok a) => f a w1
  | (w1, Except.error e) => (w1, Except.error e)

instance : Monad Run where
  pure := ret
  bind := andThen

/-- Undefined behaviour is reached. -/
def fault {α : Type} (e : Fault) : Run α := fun w => (w, Except.error e)

/-- One backend call is made. -/
def emit (c : Call) : Run Unit := fun w => ({ w with calls := w.calls ++ [c] }, Except.ok ())

/-- Several backend calls are made, in order. -/
def emitAll (cs : List Call) : Run Unit := fun w => ({ w with calls := w.calls ++ cs }, Except.ok ())

/-- Access through a pointer: a fault when it is null. -/
def deref {α : Type} (p : Option α) : Run α :=
  match p with
  | some a => ret a
  | none => fault Fault.nullDereference

end Run

namespace internal

/-- Modelled from the spec: the parameter bytes of a draw call, the array
`constantBufferData` of exactly `ConstantBufferSize = S` bytes. -/
abbrev ConstantBlock (S : Nat) : Type := { bytes : List Byte // bytes.length = S }

/-- Modelled from the spec: the kinds of `DrawCall`, `DrawCall::Draw` and
`DrawCall::DrawIndexed`. -/
inductive DrawCallType where
  | Draw
  | DrawIndexed
  deriving DecidableEq, Repr

/-- Modelled from the spec: the record `internal::DrawCall` of the absent
`private/drawqueue.hh`, with the members `dxProcessDrawQueue` reads. `S` is
`DrawCall::ConstantBufferSize`; `count`, `startIndex` and `startVertex` are `uint32_t`. -/
structure DrawCall (S : Nat) where
  type : DrawCallType
  primitiveTopology : PrimitiveTopology
  vertexBuffer : BufferHandle
  indexBuffer : BufferHandle
  count : Nat
  startIndex : Nat
  startVertex : Nat
  constantBufferData : ConstantBlock S
  deriving DecidableEq, Repr

/-- Modelled from the spec: the class `internal::DrawQueue` of the absent
`private/drawqueue.hh`: the pipeline state it is bound to, the recorded draw calls, and the
cursor state (topology, vertex buffer, index buffer, parameter bytes) the next draw call
snapshots. `I` and `G` are the template arguments of its `DynamicArray`. -/
structure DrawQueue (S I G : Nat) where
  state : PipelineStateHandle
  drawCalls : DynamicArray (DrawCall S) I G
  currentTopology : PrimitiveTopology
  currentVertexBuffer : BufferHandle
  currentIndexBuffer : BufferHandle
  currentConstants : ConstantBlock S

namespace DrawQueue

variable {S I G : Nat}

/-- Modelled from the spec: the member `getState()`. -/
def getState (queue : DrawQueue S I G) : PipelineStateHandle := queue.state

/-- Modelled from the spec: the member `getDrawCalls()`. -/
def getDrawCalls (queue : DrawQueue S I G) : DynamicArray (DrawCall S) I G := queue.drawCalls

/-- Modelled from the spec: the member `clear()`, which resets the length of the recorded
sequence to zero and retains its capacity: `Clear()` of the `DynamicArray`. -/
def clear (queue : DrawQueue S I G) : Option (DrawQueue S I G) :=
  match queue.drawCalls.Clear with
  | none => none
  | some calls => some { queue with drawCalls := calls }

/-- Modelled from the spec: the member `setPrimitiveTopology(topology)`, which updates the
cursor's topology. -/
def setPrimitiveTopology (queue : DrawQueue S I G) (topology : PrimitiveTopology) :
    DrawQueue S I G :=
  { queue with currentTopology := topology }

/-- Modelled from the spec: the member `setVertexBuffer(vb)`, which updates the cursor's
vertex buffer. -/
def setVertexBuffer (queue : DrawQueue S I G) (vb : BufferHandle) : DrawQueue S I G :=
  { queue with currentVertexBuffer := vb }

/-- Modelled from the spec: the member `setIndexBuffer(ib)`, which updates the cursor's index
buffer. -/
def setIndexBuffer (queue : DrawQueue S I G) (ib : BufferHandle) : DrawQueue S I G :=
  { queue with currentIndexBuffer := ib }

/-- Modelled from the spec: the member `setConstants(idx, constantsData, constantsSize)`,
which updates the cursor's parameter bytes: `constantsSize` bytes of `constantsData` are copied
to the start of the block. `none` when the copy leaves the source or the block. -/
def setConstants (queue : DrawQueue S I G) (_idx : Nat) (constantsData : List Byte)
    (constantsSize : Nat) : Option (DrawQueue S I G) :=
  if h : constantsSize ≤ constantsData.length ∧ constantsSize ≤ S then
    some { queue with currentConstants :=
      ⟨constantsData.take constantsSize ++ queue.currentConstants.val.drop constantsSize, by
        have hS : queue.currentConstants.val.length = S := queue.currentConstants.property
        rw [List.length_append, List.length_take, List.length_drop, hS]
        omega⟩ }
  else
    none

/-- Modelled from the spec: the record a `draw*` call appends, a snapshot of the cursor with
the given kind, count and offsets. -/
def snapshot (queue : DrawQueue S I G) (type : DrawCallType) (count startIndex startVertex : Nat) :
    DrawCall S :=
  { type := type, primitiveTopology := queue.currentTopology,
    vertexBuffer := queue.currentVertexBuffer, indexBuffer := queue.currentIndexBuffer,
    count := count, startIndex := startIndex, startVertex := startVertex,
    constantBufferData := queue.currentConstants }

/-- Modelled from the spec: the member `draw(count, startVertex)`, which appends a `Draw`
record snapshotting the cursor; its `startIndex` is `0`. -/
def draw (queue : DrawQueue S I G) (count startVertex : Nat) : Option (DrawQueue S I G) :=
  match queue.drawCalls.Add (queue.snapshot DrawCallType.Draw count 0 startVertex) with
  | none => none
  | some calls => some { queue with drawCalls := calls }

/-- Modelled from the spec: the member `drawIndexed(count, startIndex, startVertex)`, which
appends a `DrawIndexed` record snapshotting the cursor. -/
def drawIndexed (queue : DrawQueue S I G) (count startIndex startVertex : Nat) :
    Option (DrawQueue S I G) :=
  match queue.drawCalls.Add (queue.snapshot DrawCallType.DrawIndexed count startIndex
    startVertex) with
  | none => none
  | some calls => some { queue with drawCalls := calls }

end DrawQueue

end internal

/-- A `DrawQueueHandle`: `value` is the queue it points to, `none` the invalid handle. -/
structure DrawQueueHandle (S I G : Nat) where
  value : Option (internal.DrawQueue S I G)

/-- The function `dxSetPipelineState(handle)`. -/
def dxSetPipelineState (handle : PipelineStateHandle) : Run Unit :=
  match handle.value with
  | none => Run.ret ()
  | some impl => do
    Run.emit (Call.RSSetState impl.rasterizerState)
    Run.emit (Call.OMSetBlendState impl.blendState)
    Run.emit (Call.OMSetDepthStencilState impl.depthStencilState impl.stencilRef)
    let vertexFormat ← Run.deref impl.vertexFormat
    Run.emit (Call.IASetInputLayout vertexFormat.inputLayout)
    let shader ← Run.deref impl.shader
    Run.emit (Call.VSSetShader shader.vs)
    Run.emit (Call.HSSetShader shader.hs)
    Run.emit (Call.DSSetShader shader.ds)
    Run.emit (Call.GSSetShader shader.gs)
    Run.emit (Call.PSSetShader shader.ps)

/-- The call `Map(buffer, 0, D3D11_MAP_WRITE_DISCARD, 0, &mappedData)` followed by
`dataPtr = mappedData.pData`: when the device reports success on an existing buffer, `dataPtr`
addresses `ByteWidth` bytes of unspecified content; otherwise (the failure is ignored by the
caller) it addresses nothing. -/
def mapWriteDiscard (buffer : Option ID3D11Buffer) (dev : Backend) : Run Unit := fun w =>
  let w1 : World := { w with calls := w.calls ++ [Call.Map (buffer.map (·.id))] }
  match buffer, dev.mapOk with
  | some b, true => ({ w1 with sharedBytes := some (List.replicate b.ByteWidth none) }, Except.ok ())
  | _, _ => ({ w1 with sharedBytes := none }, Except.ok ())

/-- The call `std::memcpy(dataPtr + offset, data, data.length)`: a fault unless `dataPtr`
addresses mapped memory that contains the whole destination range. -/
def memcpyShared (offset : Nat) (data : List Byte) : Run Unit := fun w =>
  match w.sharedBytes with
  | none => (w, Except.error Fault.wildWrite)
  | some mem =>
    if offset + data.length ≤ mem.length then
      let written := mem.take offset ++ data.map some ++ mem.drop (offset + data.length)
      ({ w with sharedBytes := some written }, Except.ok ())
    else
      (w, Except.error Fault.wildWrite)

/-- Reading the record `queue->getDrawCalls()[index]`: a fault when no live record is
there. -/
def readDrawCall {S I G : Nat} (calls : internal.DynamicArray (internal.DrawCall S) I G)
    (index : Nat) : Run (internal.DrawCall S) :=
  match calls.get index with
  | some call => Run.ret call
  | none => Run.fault (Fault.readOutsideLifetime index)

/-- The loop `for (i = i0; i < GetSize(); ++i) { offset = i * ConstantBufferSize;
memcpy(dataPtr + offset, getDrawCalls()[i].constantBufferData, ConstantBufferSize); }` of
`dxProcessDrawQueue`, with `n` iterations left. -/
def copyConstants {S I G : Nat} (calls : internal.DynamicArray (internal.DrawCall S) I G)
    (i : Nat) : Nat → Run Unit
  | 0 => Run.ret ()
  | n + 1 => do
    let offset := (i * S) % SIZE_MOD
    let call ← readDrawCall calls i
    memcpyShared offset call.constantBufferData.val
    copyConstants calls (i + 1) n

/-- The function `dxProcessDrawQueue(queue)`, the branch `#if 1` the file compiles. The
result is the queue with the pipeline state as `setSize` left it. -/
def dxProcessDrawQueue {S I G : Nat} (queue : internal.DrawQueue S I G) (dev : Backend) :
    Run (internal.DrawQueue S I G) := do
  dxSetPipelineState queue.getState
  let numInstances := queue.getDrawCalls.GetSize
  let psimpl0 ← Run.deref queue.getState.value
  let resized :=
    DXSharedConstantBuffer.setSize S psimpl0.constantBuffer ((S * numInstances) % SIZE_MOD)
      numInstances dev
  Run.emitAll resized.2
  let psimpl : PipelineStateImpl := { psimpl0 with constantBuffer := resized.1 }
  mapWriteDiscard psimpl.constantBuffer.dataBuffer dev
  copyConstants queue.getDrawCalls 0 queue.getDrawCalls.GetSize
  Run.emit (Call.Unmap (psimpl.constantBuffer.dataBuffer.map (·.id)))
  let call ← readDrawCall queue.getDrawCalls 0
  let vb := call.vertexBuffer.value
  let ib := call.indexBuffer.value
  Run.emit (Call.IASetPrimitiveTopology (MapPrimitiveTopology call.primitiveTopology))
  let vertexFormat ← Run.deref psimpl.vertexFormat
  Run.emit (Call.IASetVertexBuffers vb vertexFormat.stride 0)
  Run.emit (Call.IASetIndexBuffer ib)
  let view := psimpl.constantBuffer.dataView.map (·.id)
  Run.emit (Call.VSSetShaderResources view)
  Run.emit (Call.HSSetShaderResources view)
  Run.emit (Call.DSSetShaderResources view)
  Run.emit (Call.GSSetShaderResources view)
  Run.emit (Call.PSSetShaderResources view)
  match call.type with
  | internal.DrawCallType.Draw =>
    Run.emit (Call.DrawInstanced call.count (numInstances % UINT_MOD) call.startVertex 0)
  | internal.DrawCallType.DrawIndexed =>
    Run.emit (Call.DrawIndexedInstanced call.count (numInstances % UINT_MOD) call.startIndex
      call.startVertex 0)
  Run.ret { queue with state := { value := some psimpl } }

/-- The function `submit(handle)`. -/
def submit {S I G : Nat} (handle : DrawQueueHandle S I G) (dev : Backend) :
    Run (DrawQueueHandle S I G) :=
  match handle.value with
  | none => Run.ret handle
  | some queue => do
    let processed ← dxProcessDrawQueue queue dev
    match processed.clear with
    | none => Run.fault Fault.destroyOutsideLifetime
    | some cleared => Run.ret { value := some cleared }

/-- What the device answers to the three state creations of `createPipelineState`: the
identity of the created object, `none` when the `HRESULT` is a failure. -/
structure StateBackend where
  createRasterizerState : Option Nat
  createBlendState : Option Nat
  createDepthStencilState : Option Nat
  deriving DecidableEq, Repr

/-- The function `createPipelineState(desc)`. -/
def createPipelineState (desc : PipelineStateDescriptor) (dev : StateBackend) :
    Run PipelineStateHandle := do
  Run.emit (Call.CreateRasterizerState desc.rasterizerState)
  match dev.createRasterizerState with
  | none => Run.ret PipelineStateHandle.invalidHandle
  | some rasterizerState =>
    Run.emit (Call.CreateBlendState desc.blendState)
    match dev.createBlendState with
    | none =>
      Run.emit (Call.Release rasterizerState)
      Run.ret PipelineStateHandle.invalidHandle
    | some blendState =>
      Run.emit (Call.CreateDepthStencilState desc.depthStencilState)
      match dev.createDepthStencilState with
      | none =>
        Run.emit (Call.Release rasterizerState)
        Run.emit (Call.Release blendState)
        Run.ret PipelineStateHandle.invalidHandle
      | some depthStencilState =>
        Run.ret
          { value := some
              { rasterizerState := rasterizerState,
                blendState := blendState,
                depthStencilState := depthStencilState,
                shader := desc.shader.value,
                vertexFormat := desc.vertexFormat.value,
                stencilRef := desc.depthStencilState.stencilRef,
                constantBuffer := DXSharedConstantBuffer.new } }

/-- The handle `DrawQueueHandle::invalidHandle()`. -/
def DrawQueueHandle.invalidHandle {S I G : Nat} : DrawQueueHandle S I G := { value := none }

/-- The function `releaseVertexShader(handle)`. -/
def releaseVertexShader (handle : VertexShaderHandle) : Run Unit :=
  if handle.value ≠ 0 then Run.emit (Call.Release handle.value) else Run.ret ()

/-- The function `releaseHullShader(handle)`. -/
def releaseHullShader (handle : HullShaderHandle) : Run Unit :=
  if handle.value ≠ 0 then Run.emit (Call.Release handle.value) else Run.ret ()

/-- The function `releaseDomainShader(handle)`. -/
def releaseDomainShader (handle : DomainShaderHandle) : Run Unit :=
  if handle.value ≠ 0 then Run.emit (Call.Release handle.value) else Run.ret ()

/-- The function `releaseGeometryShader(handle)`. -/
def releaseGeometryShader (handle : GeometryShaderHandle) : Run Unit :=
  if handle.value ≠ 0 then Run.emit (Call.Release handle.value) else Run.ret ()

/-- The function `releasePixelShader(handle)`. -/
def releasePixelShader (handle : PixelShaderHandle) : Run Unit :=
  if handle.value ≠ 0 then Run.emit (Call.Release handle.value) else Run.ret ()

/-- The function `releaseSurfaceShader(handle)`. -/
def releaseSurfaceShader (handle : SurfaceShaderHandle) : Run Unit :=
  match handle.value with
  | none => Run.ret ()
  | some _ => Run.emit (Call.Delete ImplKind.SurfaceShaderImpl)

/-- The function `releaseComputeShader(handle)`. -/
def releaseComputeShader (handle : ComputeShaderHandle) : Run Unit :=
  if handle.value ≠ 0 then Run.emit (Call.Release handle.value) else Run.ret ()

/-- The function `dispatchComputeShader(handle, x, y, z)`. -/
def dispatchComputeShader (handle : ComputeShaderHandle) (x y z : Nat) : Run Unit :=
  if handle.value ≠ 0 then do
    Run.emit (Call.CSSetShader handle.value)
    Run.emit (Call.Dispatch x y z)
  else
    Run.ret ()

/-- The function `releaseVertexFormat(handle)`. -/
def releaseVertexFormat (handle : VertexFormatHandle) : Run Unit :=
  match handle.value with
  | none => Run.ret ()
  | some impl => do
    Run.emit (Call.Release impl.inputLayout)
    Run.emit (Call.Delete ImplKind.VertexFormatImpl)

/-- The function `releasePipelineState(handle)`. The `delete` runs the destructor of the
member `constantBuffer`, which releases the buffer and the view that are set. -/
def releasePipelineState (handle : PipelineStateHandle) : Run Unit :=
  match handle.value with
  | none => Run.ret ()
  | some impl => do
    Run.emit (Call.Release impl.rasterizerState)
    Run.emit (Call.Release impl.blendState)
    Run.emit (Call.Release impl.depthStencilState)
    Run.emitAll (DXSharedConstantBuffer.releaseIfSet (impl.constantBuffer.dataBuffer.map (·.id)))
    Run.emitAll (DXSharedConstantBuffer.releaseIfSet (impl.constantBuffer.dataView.map (·.id)))
    Run.emit (Call.Delete ImplKind.PipelineStateImpl)

/-- The function `releaseBuffer(handle)`. -/
def releaseBuffer (handle : BufferHandle) : Run Unit :=
  if handle.value ≠ 0 then Run.emit (Call.Release handle.value) else Run.ret ()

/-- The function `updateTransientBuffer(handle, mem, size, offset)`; `mem` is kept as an
address. The `UINT` fields `left` and `right` of the box receive `size_t` values. -/
def updateTransientBuffer (handle : TransientBufferHandle) (mem size offset : Nat) : Run Unit :=
  if handle.value ≠ 0 then
    Run.emit (Call.UpdateSubresource handle.value
      (if offset = 0 then none
        else some (offset % UINT_MOD, ((offset + size) % SIZE_MOD) % UINT_MOD)) mem)
  else
    Run.ret ()

/-- The function `releaseDrawQueue(handle)`. -/
def releaseDrawQueue {S I G : Nat} (handle : DrawQueueHandle S I G) : Run Unit :=
  match handle.value with
  | none => Run.ret ()
  | some _ => Run.emit (Call.Delete ImplKind.DrawQueue)

/-- The function `setPrimitiveTopology(handle, topology)`; the result is the handle with the
queue as the call left it. -/
def setPrimitiveTopology {S I G : Nat} (handle : DrawQueueHandle S I G)
    (topology : PrimitiveTopology) : Run (DrawQueueHandle S I G) :=
  match handle.value with
  | none => Run.ret handle
  | some queue => Run.ret { value := some (queue.setPrimitiveTopology topology) }

/-- The function `setVertexBuffer(handle, vb)`. -/
def setVertexBuffer {S I G : Nat} (handle : DrawQueueHandle S I G) (vb : BufferHandle) :
    Run (DrawQueueHandle S I G) :=
  match handle.value with
  | none => Run.ret handle
  | some queue => Run.ret { value := some (queue.setVertexBuffer vb) }

/-- The function `setIndexBuffer(handle, ib)`. -/
def setIndexBuffer {S I G : Nat} (handle : DrawQueueHandle S I G) (ib : BufferHandle) :
    Run (DrawQueueHandle S I G) :=
  match handle.value with
  | none => Run.ret handle
  | some queue => Run.ret { value := some (queue.setIndexBuffer ib) }

/-- The function `setConstants(handle, idx, constantsData, constantsSize)`. -/
def setConstants {S I G : Nat} (handle : DrawQueueHandle S I G) (idx : Nat)
    (constantsData : List Byte) (constantsSize : Nat) : Run (DrawQueueHandle S I G) :=
  match handle.value with
  | none => Run.ret handle
  | some queue =>
    match queue.setConstants idx constantsData constantsSize with
    | none => Run.fault Fault.wildWrite
    | some updated => Run.ret { value := some updated }

/-- The function `draw(handle, count, startVertex)`. -/
def draw {S I G : Nat} (handle : DrawQueueHandle S I G) (count startVertex : Nat) :
    Run (DrawQueueHandle S I G) :=
  match handle.value with
  | none => Run.ret handle
  | some queue =>
    match queue.draw count startVertex with
    | none => Run.fault Fault.wildWrite
    | some updated => Run.ret { value := some updated }

/-- The function `drawIndexed(handle, count, startIndex, startVertex)`. -/
def drawIndexed {S I G : Nat} (handle : DrawQueueHandle S I G)
    (count startIndex startVertex : Nat) : Run (DrawQueueHandle S I G) :=
  match handle.value with
  | none => Run.ret handle
  | some queue =>
    match queue.drawIndexed count startIndex startVertex with
    | none => Run.fault Fault.wildWrite
    | some updated => Run.ret { value := some updated }

/-- A public operation together with the arguments it takes besides the handle. -/
inductive HandleOperation where
  | releaseVertexShader
  | releaseHullShader
  | releaseDomainShader
  | releaseGeometryShader
  | releasePixelShader
  | releaseSurfaceShader
  | releaseComputeShader
  | releaseVertexFormat
  | releasePipelineState
  | releaseBuffer
  | releaseDrawQueue
  | dispatchComputeShader (x y z : Nat)
  | updateTransientBuffer (mem size offset : Nat)
  | setPrimitiveTopology (topology : PrimitiveTopology)
  | setVertexBuffer (vb : BufferHandle)
  | setIndexBuffer (ib : BufferHandle)
  | setConstants (idx : Nat) (constantsData : List Byte) (constantsSize : Nat)
  | draw (count startVertex : Nat)
  | drawIndexed (count startIndex startVertex : Nat)
  | submit (dev : Backend)

/-- The call of a public operation with the invalid handle of its resource kind; the handle
a queue operation gives back is dropped. `S`, `I` and `G` fix the type of the queue handle. -/
def HandleOperation.callInvalid (S I G : Nat) : HandleOperation → Run Unit
  | .releaseVertexShader => sgfx.releaseVertexShader { value := 0 }
  | .releaseHullShader => sgfx.releaseHullShader { value := 0 }
  | .releaseDomainShader => sgfx.releaseDomainShader { value := 0 }
  | .releaseGeometryShader => sgfx.releaseGeometryShader { value := 0 }
  | .releasePixelShader => sgfx.releasePixelShader { value := 0 }
  | .releaseSurfaceShader => sgfx.releaseSurfaceShader { value := none }
  | .releaseComputeShader => sgfx.releaseComputeShader { value := 0 }
  | .releaseVertexFormat => sgfx.releaseVertexFormat { value := none }
  | .releasePipelineState => sgfx.releasePipelineState PipelineStateHandle.invalidHandle
  | .releaseBuffer => sgfx.releaseBuffer { value := 0 }
  | .releaseDrawQueue => sgfx.releaseDrawQueue (DrawQueueHandle.invalidHandle : DrawQueueHandle S I G)
  | .dispatchComputeShader x y z => sgfx.dispatchComputeShader { value := 0 } x y z
  | .updateTransientBuffer mem size offset =>
    sgfx.updateTransientBuffer { value := 0 } mem size offset
  | .setPrimitiveTopology topology => do
    let _ ← sgfx.setPrimitiveTopology (DrawQueueHandle.invalidHandle : DrawQueueHandle S I G) topology
    Run.ret ()
  | .setVertexBuffer vb => do
    let _ ← sgfx.setVertexBuffer (DrawQueueHandle.invalidHandle : DrawQueueHandle S I G) vb
    Run.ret ()
  | .setIndexBuffer ib => do
    let _ ← sgfx.setIndexBuffer (DrawQueueHandle.invalidHandle : DrawQueueHandle S I G) ib
    Run.ret ()
  | .setConstants idx constantsData constantsSize => do
    let _ ← sgfx.setConstants (DrawQueueHandle.invalidHandle : DrawQueueHandle S I G) idx
      constantsData constantsSize
    Run.ret ()
  | .draw count startVertex => do
    let _ ← sgfx.draw (DrawQueueHandle.invalidHandle : DrawQueueHandle S I G) count startVertex
    Run.ret ()
  | .drawIndexed count startIndex startVertex => do
    let _ ← sgfx.drawIndexed (DrawQueueHandle.invalidHandle : DrawQueueHandle S I G) count
      startIndex startVertex
    Run.ret ()
  | .submit dev => do
    let _ ← sgfx.submit (DrawQueueHandle.invalidHandle : DrawQueueHandle S I G) dev
    Run.ret ()

/-- A piece of backend code run `n` times in a row. -/
def Run.times (x : Run Unit) : Nat → Run Unit
  | 0 => Run.ret ()
  | n + 1 => x >>= fun _ => Run.times x n

/-- The handle `VertexFormatHandle::invalidHandle()`. -/
def VertexFormatHandle.invalidHandle : VertexFormatHandle := { value := none }

/-- What the device answers to the two `CreateInputLayout` calls of `createVertexFormat`:
whether the validating call (null output pointer) succeeds, and the identity of the layout the
creating call returns (`none` when the `HRESULT` is a failure). -/
structure LayoutBackend where
  validateInputLayout : Bool
  createInputLayout : Option Nat
  deriving DecidableEq, Repr

/-- The statement `if (errorReport != nullptr) errorReport(message);`; `errorReport` is the
address of the callback, `none` the null pointer. -/
def reportError (errorReport : Option Nat) (message : String) : Run Unit :=
  match errorReport with
  | some callback => Run.emit (Call.ErrorReport callback message)
  | none => Run.ret ()

/-- The loop `for (i = i0; i < i0 + n; ++i) { inputData[i] = ...elements[i]...;
stride += dxFormatStride(elements[i].format); }` of `createVertexFormat`, `n` iterations left.
`inputData` addresses `totalSize` bytes and one `D3D11_INPUT_ELEMENT_DESC` takes `sizeofDesc`
bytes: a fault when `elements[i]` is outside the array or `inputData[i]` outside the buffer.
The result is the `UINT` value `stride`. -/
def fillInputData (elements : List VertexElementDescriptor) (totalSize sizeofDesc : Nat)
    (i stride : Nat) : Nat → Run Nat
  | 0 => Run.ret stride
  | n + 1 =>
    match elements[i]? with
    | none => Run.fault (Fault.readOutsideLifetime i)
    | some element =>
      if (i + 1) * sizeofDesc ≤ totalSize then
        fillInputData elements totalSize sizeofDesc (i + 1)
          ((stride + dxFormatStride element.format) % UINT_MOD) n
      else
        Run.fault Fault.wildWrite

/-- The function `createVertexFormat(elements, size, shaderBytecode, shaderBytecodeSize,
errorReport)`. `sizeofDesc` is `sizeof(D3D11_INPUT_ELEMENT_DESC)`; `elements` is the array the
pointer addresses and `shaderBytecode` the address of the bytecode, `none` a null pointer. The
`UINT` parameter `NumElements` receives the `size_t` value `size`. -/
def createVertexFormat (sizeofDesc : Nat) (elements : Option (List VertexElementDescriptor))
    (size : Nat) (shaderBytecode : Option Nat) (shaderBytecodeSize : Nat)
    (errorReport : Option Nat) (dev : LayoutBackend) : Run VertexFormatHandle :=
  match elements, shaderBytecode with
  | some array, some bytecode =>
    if size = 0 ∨ shaderBytecodeSize = 0 then
      Run.ret VertexFormatHandle.invalidHandle
    else do
      let totalSize := (size * sizeofDesc) % SIZE_MOD
      let stride ← fillInputData array totalSize sizeofDesc 0 0 size
      Run.emit (Call.CreateInputLayout (array.take size) (size % UINT_MOD) bytecode
        shaderBytecodeSize false)
      if dev.validateInputLayout = false then
        reportError errorReport "Warning: VertexFormat validation failed!"
      Run.emit (Call.CreateInputLayout (array.take size) (size % UINT_MOD) bytecode
        shaderBytecodeSize true)
      match dev.createInputLayout with
      | none =>
        reportError errorReport "Failed to create vertex format!"
        Run.ret VertexFormatHandle.invalidHandle
      | some layout => Run.ret { value := some { inputLayout := layout, stride := stride } }
  | _, _ => Run.ret VertexFormatHandle.invalidHandle

/-- The loop `for (i = i0; i < i0 + n; ++i) { d3dmacros[i].Name = macros[i].name;
d3dmacros[i].Definition = macros[i].value; }` of `compileShader`, `n` iterations left.
`d3dmacros` addresses `totalSize` bytes and one `D3D_SHADER_MACRO` takes `sizeofMacro` bytes:
a fault when `macros[i]` is outside the array or `d3dmacros[i]` outside the buffer. -/
def fillMacros (macros : List ShaderCompileMacro) (totalSize sizeofMacro : Nat) (i : Nat) :
    Nat → Run Unit
  | 0 => Run.ret ()
  | n + 1 =>
    match macros[i]? with
    | none => Run.fault (Fault.readOutsideLifetime i)
    | some _ =>
      if (i + 1) * sizeofMacro ≤ totalSize then
        fillMacros macros totalSize sizeofMacro (i + 1) n
      else
        Run.fault Fault.wildWrite

/-- The first block of `compileShader(..., macros, macrosSize, ...)`, the conversion of the
macro array into the scratch buffer `d3dmacros`. `sizeofMacro` is `sizeof(D3D_SHADER_MACRO)`
and `macros` the array the pointer addresses, `none` the null pointer. The result is the byte
size `totalSize` of the scratch buffer, `none` when `d3dmacros` stays null. -/
def compileShader.convertMacros (sizeofMacro : Nat) (macros : Option (List ShaderCompileMacro))
    (macrosSize : Nat) : Run (Option Nat) :=
  match macros with
  | none => Run.ret none
  | some array => do
    let totalSize := (macrosSize + sizeofMacro) % SIZE_MOD
    fillMacros array totalSize sizeofMacro 0 macrosSize
    Run.ret (some totalSize)

/-- A call of one of the four public functions that set the cursor of a draw queue, with the
arguments it takes besides the handle. -/
inductive CursorOperation where
  | setPrimitiveTopology (topology : PrimitiveTopology)
  | setVertexBuffer (vb : BufferHandle)
  | setIndexBuffer (ib : BufferHandle)
  | setConstants (idx : Nat) (constantsData : List Byte) (constantsSize : Nat)

/-- The call of the public function on `handle`; the result is the handle with the queue as
the call left it. -/
def CursorOperation.call {S I G : Nat} (handle : DrawQueueHandle S I G) :
    CursorOperation → Run (DrawQueueHandle S I G)
  | .setPrimitiveTopology topology => sgfx.setPrimitiveTopology handle topology
  | .setVertexBuffer vb => sgfx.setVertexBuffer handle vb
  | .setIndexBuffer ib => sgfx.setIndexBuffer handle ib
  | .setConstants idx constantsData constantsSize =>
    sgfx.setConstants handle idx constantsData constantsSize

/-- A sequence of cursor calls on one queue, left to right. -/
def CursorOperation.callAll {S I G : Nat} (handle : DrawQueueHandle S I G) :
    List CursorOperation → Run (DrawQueueHandle S I G)
  | [] => Run.ret handle
  | op :: ops => op.call handle >>= fun h => CursorOperation.callAll h ops

end sgfx

/-! ## `demo/common/app.hh`: the ownership wrapper `iGfxObject` -/

/-- The struct `iGfxObject<T>`. -/
structure iGfxObject (T : Type) where
  gfxObject : T

namespace iGfxObject

variable {T : Type}

/-- The constructor `explicit iGfxObject(T newObject)`. -/
def create (newObject : T) : iGfxObject T := { gfxObject := newObject }

/-- The member `operator=(T newObject)`: the wrapper afterwards and the handles passed to
`GfxUtils::Release` by it. -/
def assign (self : iGfxObject T) (newObject : T) : iGfxObject T × List T :=
  ({ self with gfxObject := newObject }, [self.gfxObject])

/-- The destructor `~iGfxObject()`: the handles passed to `GfxUtils::Release` by it. -/
def destroy (self : iGfxObject T) : List T := [self.gfxObject]

/-- A run of assignments on one wrapper, after `released` was already released: the wrapper
afterwards and all handles passed to `GfxUtils::Release` so far, oldest first. -/
def assignAll (self : iGfxObject T) (released : List T) : List T → iGfxObject T × List T
  | [] => (self, released)
  | h :: hs => assignAll (self.assign h).1 (released ++ (self.assign h).2) hs

/-- The life of one wrapper: constructed holding `h0`, assigned the handles `hs` in order,
then destroyed. The result lists the handles passed to `GfxUtils::Release`, oldest first. -/
def lifetime (h0 : T) (hs : List T) : List T :=
  ((create h0).assignAll [] hs).2 ++ ((create h0).assignAll [] hs).1.destroy

end iGfxObject

/-! ## Vocabulary of the statements -/

namespace sgfx

/-- The concatenation `b0 || b1 || ...` of the parameter bytes of a sequence of draw calls. -/
def packedConstants {S : Nat} (calls : List (internal.DrawCall S)) : List Byte :=
  calls.flatMap (fun c => c.constantBufferData.val)

/-- The calls `dxSetPipelineState` makes for a pipeline state whose shader set and vertex
format exist. -/
def pipelineStateCalls (impl : PipelineStateImpl) (vertexFormat : VertexFormatImpl)
    (shader : SurfaceShaderImpl) : List Call :=
  [Call.RSSetState impl.rasterizerState, Call.OMSetBlendState impl.blendState,
    Call.OMSetDepthStencilState impl.depthStencilState impl.stencilRef,
    Call.IASetInputLayout vertexFormat.inputLayout, Call.VSSetShader shader.vs,
    Call.HSSetShader shader.hs, Call.DSSetShader shader.ds, Call.GSSetShader shader.gs,
    Call.PSSetShader shader.ps]

/-- The instanced draw of `instances` instances with the count and offsets of `call`:
`DrawInstanced` for a `Draw`, `DrawIndexedInstanced` for a `DrawIndexed`. -/
def instancedDrawOf {S : Nat} (call : internal.DrawCall S) (instances : Nat) : Call :=
  match call.type with
  | internal.DrawCallType.Draw => Call.DrawInstanced call.count instances call.startVertex 0
  | internal.DrawCallType.DrawIndexed =>
    Call.DrawIndexedInstanced call.count instances call.startIndex call.startVertex 0

/-- The geometry bindings of one draw call: its topology, its vertex buffer (with the stride
of the vertex format) and its index buffer. -/
def geometryOf {S : Nat} (call : internal.DrawCall S) (stride : Nat) : List Call :=
  [Call.IASetPrimitiveTopology (MapPrimitiveTopology call.primitiveTopology),
    Call.IASetVertexBuffers call.vertexBuffer.value stride 0,
    Call.IASetIndexBuffer call.indexBuffer.value]

/-- The independent draw of one draw call: `Draw` or `DrawIndexed` with its own count and
offsets. -/
def independentDrawOf {S : Nat} (call : internal.DrawCall S) : Call :=
  match call.type with
  | internal.DrawCallType.Draw => Call.Draw call.count call.startVertex
  | internal.DrawCallType.DrawIndexed =>
    Call.DrawIndexed call.count call.startIndex call.startVertex

/-- The conditions under which a submission of `N` draw calls meets no failure of its
collaborators: the pipeline state has its shader set and its vertex format, the shared buffer
agrees with its recorded size, the device creates the buffer when asked and maps it, the byte
count `S * N` fits the `UINT` field `ByteWidth`, and a buffer exists already or has to be
created (`0 < S * N`). -/
def BackendReady (S : Nat) (impl : PipelineStateImpl) (dev : Backend) (N : Nat) : Prop :=
  impl.shader.isSome = true ∧ impl.vertexFormat.isSome = true ∧ impl.constantBuffer.Backed ∧
    dev.createBuffer.isSome = true ∧ dev.mapOk = true ∧ S * N < UINT_MOD ∧
    (impl.constantBuffer.dataBuffer.isSome = true ∨ 0 < S * N)

/-- The five `*SSetShaderResources(0, 1, &dataView)` calls of `dxProcessDrawQueue`. -/
def shaderResourceCalls (view : Option Nat) : List Call :=
  [Call.VSSetShaderResources view, Call.HSSetShaderResources view,
    Call.DSSetShaderResources view, Call.GSSetShaderResources view,
    Call.PSSetShaderResources view]

/-- The constant buffer after the `setSize` call `dxProcessDrawQueue` makes for `N` recorded
draw calls, and the backend calls of that `setSize`. -/
def resizedFor (S : Nat) (impl : PipelineStateImpl) (N : Nat) (dev : Backend) :
    DXSharedConstantBuffer × List Call :=
  DXSharedConstantBuffer.setSize S impl.constantBuffer ((S * N) % SIZE_MOD) N dev

/-- The queue after `dxProcessDrawQueue`: its pipeline state holds the constant buffer `cb`. -/
def processedQueue {S I G : Nat} (queue : internal.DrawQueue S I G) (impl : PipelineStateImpl)
    (cb : DXSharedConstantBuffer) : internal.DrawQueue S I G :=
  { queue with state := { value := some { impl with constantBuffer := cb } } }

/-- The calls `reportError` makes: one call of the callback when it is set, none when it is
null. -/
def reportCalls (errorReport : Option Nat) (message : String) : List Call :=
  match errorReport with
  | some callback => [Call.ErrorReport callback message]
  | none => []

/-- Every normal end of the run `x` gives a result that satisfies `P`. -/
def Run.Returns {α : Type} (x : Run α) (P : α → Prop) : Prop :=
  ∀ w w2 b, x w = (w2, Except.ok b) → P b

/-- The fault that ended a run, `none` for a normal end. -/
def faultOf {α : Type} (r : Except Fault α) : Option Fault :=
  match r with
  | Except.ok _ => none
  | Except.error e => some e

/-- Two runs have the same effect: from every world they leave the same world (the same
backend calls with the same arguments, the same bytes in the shared buffer) and end the same
way (normally, or with the same fault). -/
def SameEffect {α β : Type} (x : Run α) (y : Run β) : Prop :=
  ∀ w, (x w).1 = (y w).1 ∧ faultOf (x w).2 = faultOf (y w).2

end sgfx

/-! ## Concrete inputs used by witnesses and counterexamples -/

namespace sgfx.Example

open sgfx.internal

/-- A two-byte parameter block. -/
def block (b0 b1 : Byte) : ConstantBlock 2 := ⟨[b0, b1], rfl⟩

/-- A pipeline state with shader set and vertex format (stride 32), fresh constant buffer. -/
def pipelineState : PipelineStateImpl :=
  { rasterizerState := 1, blendState := 2, depthStencilState := 3,
    shader := some { vs := 11, hs := 12, ds := 13, gs := 14, ps := 15 },
    vertexFormat := some { inputLayout := 20, stride := 32 }, stencilRef := 0,
    constantBuffer := DXSharedConstantBuffer.new }

/-- A device on which every creation and `Map` succeed. -/
def device : Backend := { createBuffer := some 50, createShaderResourceView := some 51, mapOk := true }

/-- A `Draw` of 3 vertices from vertex buffer 1 and index buffer 101. -/
def callA : DrawCall 2 :=
  { type := DrawCallType.Draw, primitiveTopology := PrimitiveTopology.TriangleList,
    vertexBuffer := { value := 1 }, indexBuffer := { value := 101 }, count := 3,
    startIndex := 0, startVertex := 0, constantBufferData := block 7 8 }

/-- A `Draw` of 6 vertices from vertex buffer 2 and index buffer 102, as a triangle strip. -/
def callB : DrawCall 2 :=
  { type := DrawCallType.Draw, primitiveTopology := PrimitiveTopology.TriangleStrip,
    vertexBuffer := { value := 2 }, indexBuffer := { value := 102 }, count := 6,
    startIndex := 0, startVertex := 4, constantBufferData := block 9 10 }

/-- The array `DynamicArray<DrawCall, 2, 1>` after `Add(callA); Add(callB)`. -/
def twoCalls : DynamicArray (DrawCall 2) 2 1 :=
  { capacity := 2, size := 2, inplaceStorage := [some callA, some callB], heap := none,
    allocations := 0, freed := [] }

/-- A queue bound to `pipelineState` that holds `callA` and `callB`. -/
def queue : DrawQueue 2 2 1 :=
  { state := { value := some pipelineState }, drawCalls := twoCalls,
    currentTopology := PrimitiveTopology.TriangleStrip, currentVertexBuffer := { value := 2 },
    currentIndexBuffer := { value := 102 }, currentConstants := block 9 10 }

/-- A queue bound to `pipelineState` on which nothing was recorded. -/
def emptyQueue : DrawQueue 2 2 1 :=
  { state := { value := some pipelineState }, drawCalls := DynamicArray.new,
    currentTopology := PrimitiveTopology.TriangleList, currentVertexBuffer := { value := 0 },
    currentIndexBuffer := { value := 0 }, currentConstants := block 0 0 }

/-- The array `DynamicArray<Nat, 3, 1>` holding 5, 6, 7 in its inline storage. -/
def threeNumbers : DynamicArray Nat 3 1 :=
  { capacity := 3, size := 3, inplaceStorage := [some 5, some 6, some 7], heap := none,
    allocations := 0, freed := [] }

/-- The array `DynamicArray<ptrdiff_t, 3, 1>` holding 5, 6, 7 in its inline storage. -/
def threeOffsets : DynamicArray Int 3 1 :=
  { capacity := 3, size := 3, inplaceStorage := [some 5, some 6, some 7], heap := none,
    allocations := 0, freed := [] }

/-- The array `DynamicArray<ptrdiff_t, 3, 1>` holding the one element 0. -/
def zeroOffset : DynamicArray Int 3 1 :=
  { capacity := 3, size := 1, inplaceStorage := [some 0, none, none], heap := none,
    allocations := 0, freed := [] }

/-- A device that fails `CreateBuffer`. -/
def deviceWithoutBuffer : Backend :=
  { createBuffer := none, createShaderResourceView := some 51, mapOk := true }

/-- A device that creates the buffer and fails `CreateShaderResourceView`. -/
def deviceWithoutView : Backend :=
  { createBuffer := some 50, createShaderResourceView := none, mapOk := true }

/-- A `DrawIndexed` of 9 indices from vertex buffer 3 and index buffer 103, with the parameter
bytes of `callB`. -/
def callC : DrawCall 2 :=
  { type := DrawCallType.DrawIndexed, primitiveTopology := PrimitiveTopology.TriangleList,
    vertexBuffer := { value := 3 }, indexBuffer := { value := 103 }, count := 9,
    startIndex := 5, startVertex := 1, constantBufferData := block 9 10 }

/-- A queue bound to `pipelineState` that holds `callA` and `callC`. -/
def queueC : DrawQueue 2 2 1 :=
  { state := { value := some pipelineState },
    drawCalls :=
      { capacity := 2, size := 2, inplaceStorage := [some callA, some callC], heap := none,
        allocations := 0, freed := [] },
    currentTopology := PrimitiveTopology.TriangleList, currentVertexBuffer := { value := 3 },
    currentIndexBuffer := { value := 103 }, currentConstants := block 9 10 }

/-- The array `DynamicArray<Nat, 2, 3>` after `Add(1); Add(2); Add(3)`: it lives in the first
heap block, of 5 slots. -/
def heapNumbers : DynamicArray Nat 2 3 :=
  { capacity := 5, size := 3, inplaceStorage := [some 1, some 2],
    heap := some { id := 0, slots := [some 1, some 2, some 3, none, none] },
    allocations := 1, freed := [] }

/-- A device that creates the three state objects of a pipeline state, as objects 1, 2, 3. -/
def stateDevice : StateBackend :=
  { createRasterizerState := some 1, createBlendState := some 2,
    createDepthStencilState := some 3 }

/-- A pipeline-state descriptor with the given shader set and vertex format. -/
def descriptor (shader : SurfaceShaderHandle) (vertexFormat : VertexFormatHandle) :
    PipelineStateDescriptor :=
  { rasterizerState := { fillMode := 0, cullMode := 0, counterDirection := 0 },
    blendState :=
      { alphaToCoverageEnabled := false, separateBlendEnabled := false,
        blendDesc :=
          { blendEnabled := false, srcBlend := 1, dstBlend := 0, blendOp := 0,
            srcBlendAlpha := 1, dstBlendAlpha := 0, blendOpAlpha := 0 },
        renderTargetBlendDesc := [] },
    depthStencilState :=
      { depthEnabled := true, writeMask := 1, depthFunc := 2, stencilEnabled := false,
        stencilReadMask := 0, stencilWriteMask := 0,
        frontFaceStencilDesc := { stencilFunc := 0, failOp := 0, depthFailOp := 0, passOp := 0 },
        backFaceStencilDesc := { stencilFunc := 0, failOp := 0, depthFailOp := 0, passOp := 0 },
        stencilRef := 0 },
    shader := shader, vertexFormat := vertexFormat }

/-- The queue holding `callA` and `callB`, bound to the pipeline state `state`. -/
def queueOn (state : PipelineStateHandle) : DrawQueue 2 2 1 :=
  { queue with state := state }

/-- Two vertex elements: a position (`RGB32F`, 12 bytes) and a colour (`RGBA8`, 4 bytes). -/
def elements : List VertexElementDescriptor :=
  [{ semanticName := 1000, semanticIndex := 0, format := DataFormat.RGB32F, slot := 0,
      offset := 0, type := VertexElementType.PerVertex },
    { semanticName := 1010, semanticIndex := 0, format := DataFormat.RGBA8, slot := 0,
      offset := 12, type := VertexElementType.PerVertex }]

/-- A device on which the validation of an input layout fails and its creation succeeds. -/
def layoutDevice : LayoutBackend := { validateInputLayout := false, createInputLayout := some 20 }

/-- Two shader macros. -/
def macros : List ShaderCompileMacro :=
  [{ name := 2000, value := 2010 }, { name := 2020, value := 2030 }]

/-- The pipeline state `createPipelineState` returns on `stateDevice` for a descriptor whose
shader handle is invalid and whose vertex format is the one of `pipelineState`. -/
def stateWithoutShader : PipelineStateHandle :=
  { value := some { pipelineState with shader := none } }

/-- The pipeline state `createPipelineState` returns on `stateDevice` for a descriptor whose
vertex-format handle is invalid and whose shader set is the one of `pipelineState`. -/
def stateWithoutVertexFormat : PipelineStateHandle :=
  { value := some { pipelineState with vertexFormat := none } }

/-- The array `DynamicArray<Nat, 2, 3>` holding 8, 9 in its inline storage. -/
def twoNumbers : DynamicArray Nat 2 3 :=
  { capacity := 2, size := 2, inplaceStorage := [some 8, some 9], heap := none,
    allocations := 0, freed := [] }

/-- The array `DynamicArray<Nat, 2, 3>` after `Add(1); Add(2); Add(3); Resize(2); Reserve(7)`:
it lives in the second heap block, of 4 slots, and the first block was freed. -/
def reserved : DynamicArray Nat 2 3 :=
  { capacity := 4, size := 2, inplaceStorage := [some 1, some 2],
    heap := some { id := 1, slots := [some 1, some 2, none, none] },
    allocations := 2, freed := [0] }

/-- The array `DynamicArray<Nat, 4, 1>` after `Add(1); Add(2); Grow(SIZE_MAX)`: two elements
in the inline storage and capacity 1. -/
def wrapped : DynamicArray Nat 4 1 :=
  { capacity := 1, size := 2, inplaceStorage := [some 1, some 2, none, none], heap := none,
    allocations := 0, freed := [] }

end sgfx.Example

/-! ## Lemmas -/

namespace sgfx.internal.DynamicArray
variable {T : Type} {I G : Nat}

theorem readLive_of_getElem? {s : List (Option T)} {i : Nat} {v : T}
    (h : s[i]? = some (some v)) : readLive s i = some v := by
  simp [readLive, h]

theorem readLive_eq_some {s : List (Option T)} {i : Nat} {v : T} :
    readLive s i = some v ↔ s[i]? = some (some v) := by
  unfold readLive
  split
  · rename_i w hw
    simp [hw]
  · rename_i hne
    constructor
    · intro h; cases h
    · intro h; exact absurd h (hne v)

theorem moveRange_spec (src : List (Option T)) :
    ∀ (n i : Nat) (dst : List (Option T)),
      (∀ j, i ≤ j → j < i + n → ∃ v, src[j]? = some (some v)) →
      i + n ≤ dst.length →
      ∃ d, moveRange src dst i n = some d ∧ d.length = dst.length ∧
        (∀ j, i ≤ j → j < i + n → d[j]? = src[j]?) ∧
        (∀ j, (j < i ∨ i + n ≤ j) → d[j]? = dst[j]?) := by
  intro n
  induction n with
  | zero =>
    intro i dst _ _
    refine ⟨dst, rfl, rfl, ?_, ?_⟩
    · intro j h1 h2; omega
    · intro j _; rfl
  | succ n ih =>
    intro i dst hlive hlen
    obtain ⟨v, hv⟩ := hlive i (Nat.le_refl i) (by omega)
    have hi : i < dst.length := by omega
    obtain ⟨d, hd, hdl, hmoved, hkept⟩ :=
      ih (i + 1) (dst.set i (some v))
        (fun j h1 h2 => hlive j (by omega) (by omega))
        (by rw [List.length_set]; omega)
    refine ⟨d, ?_, ?_, ?_, ?_⟩
    · simp [moveRange, readLive_of_getElem? hv, constructAt, hi, hd]
    · rw [hdl, List.length_set]
    · intro j h1 h2
      by_cases hj : j = i
      · subst hj
        rw [hkept j (Or.inl (by omega)), hv, List.getElem?_set]
        simp [hi]
      · exact hmoved j (by omega) (by omega)
    · intro j hj
      rw [hkept j (by omega), List.getElem?_set]
      have : i ≠ j := by omega
      simp [this]

@[simp] theorem storage_setStorage (a : DynamicArray T I G) (s : List (Option T)) :
    (a.setStorage s).storage = s := by
  unfold setStorage storage
  cases h : a.heap <;> simp

@[simp] theorem size_setStorage (a : DynamicArray T I G) (s : List (Option T)) :
    (a.setStorage s).size = a.size := by
  unfold setStorage
  cases h : a.heap <;> simp

@[simp] theorem capacity_setStorage (a : DynamicArray T I G) (s : List (Option T)) :
    (a.setStorage s).capacity = a.capacity := by
  unfold setStorage
  cases h : a.heap <;> simp

@[simp] theorem size_DeleteContents (a : DynamicArray T I G) :
    a.DeleteContents.size = a.size := by
  unfold DeleteContents
  cases h : a.heap <;> simp

@[simp] theorem capacity_DeleteContents (a : DynamicArray T I G) :
    a.DeleteContents.capacity = a.capacity := by
  unfold DeleteContents
  cases h : a.heap <;> simp

theorem readLive_set_self {s : List (Option T)} {i : Nat} (h : i < s.length) (v : T) :
    readLive (s.set i (some v)) i = some v := by
  apply readLive_of_getElem?
  rw [List.getElem?_set]; simp [h]

theorem readLive_set_ne {s : List (Option T)} {i j : Nat} (h : i ≠ j) (o : Option T) :
    readLive (s.set i o) j = readLive s j := by
  unfold readLive
  rw [List.getElem?_set_ne h]

theorem readLive_congr {s t : List (Option T)} {i j : Nat} (h : s[i]? = t[j]?) :
    readLive s i = readLive t j := by
  unfold readLive
  rw [h]

theorem Grow_alloc {a : DynamicArray T I G} {n nc : Nat} {d : List (Option T)}
    (hmod : (a.size + n) % SIZE_MOD = nc) (hI : nc > I)
    (hd : moveRange a.storage (List.replicate nc none) 0 a.size = some d) :
    ∃ a1, Grow a n = some a1 ∧ a1.size = a.size ∧ a1.capacity = nc ∧ a1.storage = d := by
  unfold Grow
  simp only [storage] at hd
  simp only [hmod, hI, if_true, storage, hd]
  exact ⟨_, rfl, by simp, by simp, by simp⟩

theorem Grow_keep {a : DynamicArray T I G} {n nc : Nat}
    (hmod : (a.size + n) % SIZE_MOD = nc) (hI : ¬ nc > I) :
    ∃ a1, Grow a n = some a1 ∧ a1.size = a.size ∧ a1.capacity = nc ∧
      a1.storage = a.storage := by
  unfold Grow
  simp only [hmod, hI, if_false]
  exact ⟨_, rfl, rfl, rfl, rfl⟩

/-- Growth at `size == capacity` keeps the elements and leaves room for one more. -/
theorem Grow_at_capacity {a : DynamicArray T I G} {xs : List T} (hv : Valid a)
    (hh : Holds a xs) (hfull : a.size ≥ a.capacity) (hG : 1 ≤ G)
    (hfit : a.size + G < SIZE_MOD) :
    ∃ a1, Grow a G = some a1 ∧ Valid a1 ∧ Holds a1 xs ∧ a1.size < a1.capacity := by
  obtain ⟨hsc, hcl, hIl, hlive⟩ := hv
  obtain ⟨hsz, hget⟩ := hh
  have hmod : (a.size + G) % SIZE_MOD = a.size + G := Nat.mod_eq_of_lt hfit
  by_cases hI : a.size + G > I
  · have hsrc : ∀ j, 0 ≤ j → j < 0 + a.size → ∃ v, a.storage[j]? = some (some v) := by
      intro j _ hj
      have h := hlive j (by omega)
      obtain ⟨v, hv⟩ := Option.isSome_iff_exists.mp h
      exact ⟨v, readLive_eq_some.mp hv⟩
    obtain ⟨d, hd, hdl, hmoved, _⟩ :=
      moveRange_spec a.storage a.size 0 (List.replicate (a.size + G) none) hsrc
        (by rw [List.length_replicate]; omega)
    rw [List.length_replicate] at hdl
    obtain ⟨a1, ha1, hs1, hc1, hst1⟩ := Grow_alloc hmod hI hd
    have hsame : ∀ i, i < a.size → a1.get i = a.get i := by
      intro i hi
      unfold get
      rw [hst1]
      exact readLive_congr (hmoved i (Nat.zero_le i) (by omega))
    refine ⟨a1, ha1, ⟨by omega, by rw [hst1]; omega, by rw [hst1]; omega, ?_⟩, ⟨?_, ?_⟩, by omega⟩
    · intro i hi
      rw [hsame i (by omega)]
      exact hlive i (by omega)
    · rw [GetSize, hs1]; exact hsz
    · intro i hi
      rw [GetSize] at hsz
      rw [hsame i (by omega)]
      exact hget i hi
  · obtain ⟨a1, ha1, hs1, hc1, hst1⟩ := Grow_keep hmod hI
    have hsame : ∀ i, a1.get i = a.get i := by
      intro i
      unfold get
      rw [hst1]
    refine ⟨a1, ha1, ⟨by omega, by rw [hst1]; omega, by rw [hst1]; omega, ?_⟩, ⟨?_, ?_⟩, by omega⟩
    · intro i hi
      rw [hsame i]
      exact hlive i (by omega)
    · rw [GetSize, hs1]; exact hsz
    · intro i hi
      rw [hsame i]
      exact hget i hi

/-- Constructing one more element behind the live ones. -/
theorem construct_back {a1 : DynamicArray T I G} {xs : List T} (hv : Valid a1)
    (hh : Holds a1 xs) (hroom : a1.size < a1.capacity) (hfit : a1.size + 1 < SIZE_MOD)
    (v : T) :
    ∃ s, constructAt a1.storage a1.size v = some s ∧
      Valid ({ a1.setStorage s with size := (a1.size + 1) % SIZE_MOD } : DynamicArray T I G) ∧
      Holds ({ a1.setStorage s with size := (a1.size + 1) % SIZE_MOD } : DynamicArray T I G)
        (xs ++ [v]) := by
  obtain ⟨hsc, hcl, hIl, hlive⟩ := hv
  obtain ⟨hsz, hget⟩ := hh
  rw [GetSize] at hsz
  have hlt : a1.size < a1.storage.length := by omega
  have hmod : (a1.size + 1) % SIZE_MOD = a1.size + 1 := Nat.mod_eq_of_lt hfit
  have hst : storage ({ a1.setStorage (a1.storage.set a1.size (some v)) with
      size := (a1.size + 1) % SIZE_MOD } : DynamicArray T I G)
        = a1.storage.set a1.size (some v) := by
    have := storage_setStorage a1 (a1.storage.set a1.size (some v))
    simpa [storage] using this
  have hgetnew : ∀ i, get ({ a1.setStorage (a1.storage.set a1.size (some v)) with
      size := (a1.size + 1) % SIZE_MOD } : DynamicArray T I G) i
        = if i = a1.size then some v else a1.get i := by
    intro i
    unfold get
    rw [hst]
    by_cases hi : i = a1.size
    · subst hi; simp [readLive_set_self hlt]
    · simp only [hi, if_false]
      exact readLive_set_ne (Ne.symm hi) _
  refine ⟨a1.storage.set a1.size (some v), by simp [constructAt, hlt], ?_, ?_⟩
  · refine ⟨?_, ?_, ?_, ?_⟩
    · simp [hmod]; omega
    · rw [hst, List.length_set]; simpa using hcl
    · rw [hst, List.length_set]; exact hIl
    · intro i hi
      rw [hgetnew]
      have hi1 : i < a1.size + 1 := by simpa [hmod] using hi
      by_cases h : i = a1.size
      · simp [h]
      · simp only [h, if_false]; exact hlive i (by omega)
  · refine ⟨by rw [GetSize]; show (a1.size + 1) % SIZE_MOD = _; rw [hmod]; simp only [GetSize, List.length_append, List.length_singleton, hsz], ?_⟩
    intro i hi
    rw [hgetnew]
    rw [List.length_append, List.length_singleton] at hi
    by_cases h : i = a1.size
    · simp only [h, if_true]
      rw [hsz, List.getElem?_append_right (Nat.le_refl _)]
      simp
    · simp only [h, if_false]
      rw [hget i (by omega), List.getElem?_append_left (by omega)]

/-- One `Add` on a valid array holding `xs` succeeds and yields a valid array holding
`xs ++ [v]`. -/
theorem Add_step {a : DynamicArray T I G} {xs : List T} (hv : Valid a) (hh : Holds a xs)
    (hG : 1 ≤ G) (hfit : a.size + G < SIZE_MOD) (v : T) :
    ∃ a2, Add a v = some a2 ∧ Valid a2 ∧ Holds a2 (xs ++ [v]) := by
  by_cases hfull : a.size ≥ a.capacity
  · obtain ⟨a1, ha1, hv1, hh1, hroom⟩ := Grow_at_capacity hv hh hfull hG hfit
    have hs1 : a1.size = a.size := by
      have h1 := hh1.1; have h2 := hh.1
      rw [GetSize] at h1 h2; omega
    obtain ⟨s, hs, hv2, hh2⟩ := construct_back hv1 hh1 hroom (by omega) v
    exact ⟨_, by simp only [Add, hfull, if_true, ha1, hs], hv2, hh2⟩
  · obtain ⟨s, hs, hv2, hh2⟩ := construct_back hv hh (by omega) (by omega) v
    exact ⟨_, by simp only [Add, hfull, if_false, hs], hv2, hh2⟩

theorem Valid_new : Valid (new : DynamicArray T I G) := by
  refine ⟨by simp [new], by simp [new, storage], by simp [new, storage], ?_⟩
  intro i hi
  simp [new] at hi

theorem shiftLeft_spec :
    ∀ (n ptr : Nat) (s : List (Option T)),
      ptr + 1 + n ≤ s.length →
      (∀ j, ptr + 1 ≤ j → j < ptr + 1 + n → ∃ v, s[j]? = some (some v)) →
      ∃ s2, shiftLeft s ptr (ptr + 1) n = some s2 ∧ s2.length = s.length ∧
        (∀ j, j < ptr → s2[j]? = s[j]?) ∧
        (∀ j, ptr ≤ j → j < ptr + n → s2[j]? = s[j + 1]?) ∧
        (∀ j, ptr + n < j → s2[j]? = s[j]?) := by
  intro n
  induction n with
  | zero =>
    intro ptr s _ _
    refine ⟨s, rfl, rfl, fun _ _ => rfl, ?_, fun _ _ => rfl⟩
    intro j h1 h2; omega
  | succ n ih =>
    intro ptr s hlen hlive
    obtain ⟨v, hv⟩ := hlive (ptr + 1) (Nat.le_refl _) (by omega)
    have hptr : ptr < s.length := by omega
    have hnext : readLive (s.set ptr (some v)) (ptr + 1) = some v := by
      rw [readLive_set_ne (by omega)]
      exact readLive_of_getElem? hv
    obtain ⟨s2, hs2, hl2, hlow, hmid, hhigh⟩ :=
      ih (ptr + 1) (((s.set ptr (some v)).set (ptr + 1) none))
        (by rw [List.length_set, List.length_set]; omega)
        (fun j h1 h2 => by
          obtain ⟨u, hu⟩ := hlive j (by omega) (by omega)
          refine ⟨u, ?_⟩
          rw [List.getElem?_set_ne (by omega), List.getElem?_set_ne (by omega)]
          exact hu)
    refine ⟨s2, ?_, ?_, ?_, ?_, ?_⟩
    · simp only [shiftLeft, readLive_of_getElem? hv, constructAt, hptr, if_true, hnext]
      exact hs2
    · rw [hl2, List.length_set, List.length_set]
    · intro j hj
      rw [hlow j (by omega), List.getElem?_set_ne (by omega), List.getElem?_set_ne (by omega)]
    · intro j h1 h2
      by_cases hj : j = ptr
      · subst hj
        rw [hlow j (by omega), List.getElem?_set_ne (by omega), List.getElem?_set]
        simp [hptr, hv]
      · rw [hmid j (by omega) (by omega), List.getElem?_set_ne (by omega),
          List.getElem?_set_ne (by omega)]
    · intro j hj
      rw [hhigh j (by omega), List.getElem?_set_ne (by omega), List.getElem?_set_ne (by omega)]

end sgfx.internal.DynamicArray

namespace sgfx

open internal

namespace Run

theorem bind_apply {α β : Type} (x : Run α) (f : α → Run β) (w : World) :
    (x >>= f) w = (match x w with
      | (w1, Except.ok a) => f a w1
      | (w1, Except.error e) => (w1, Except.error e)) := rfl

theorem bind_ok {α β : Type} {x : Run α} {f : α → Run β} {w w1 : World} {a : α}
    (h : x w = (w1, Except.ok a)) : (x >>= f) w = f a w1 := by
  rw [bind_apply, h]

theorem bind_error {α β : Type} {x : Run α} {f : α → Run β} {w w1 : World} {e : Fault}
    (h : x w = (w1, Except.error e)) : (x >>= f) w = (w1, Except.error e) := by
  rw [bind_apply, h]

theorem pure_apply {α : Type} (a : α) (w : World) : (pure a : Run α) w = (w, Except.ok a) := rfl

theorem ret_apply {α : Type} (a : α) (w : World) : ret a w = (w, Except.ok a) := rfl

theorem emit_apply (c : Call) (w : World) :
    emit c w = ({ w with calls := w.calls ++ [c] }, Except.ok ()) := rfl

theorem emitAll_apply (cs : List Call) (w : World) :
    emitAll cs w = ({ w with calls := w.calls ++ cs }, Except.ok ()) := rfl

theorem deref_some {α : Type} (a : α) (w : World) : deref (some a) w = (w, Except.ok a) := rfl

theorem deref_none {α : Type} (w : World) :
    deref (none : Option α) w = (w, Except.error Fault.nullDereference) := rfl

end Run

theorem dxSetPipelineState_ok (impl : PipelineStateImpl) (vf : VertexFormatImpl)
    (sh : SurfaceShaderImpl) (hvf : impl.vertexFormat = some vf) (hsh : impl.shader = some sh)
    (w : World) :
    dxSetPipelineState { value := some impl } w =
      ({ w with calls := w.calls ++ pipelineStateCalls impl vf sh }, Except.ok ()) := by
  simp [dxSetPipelineState, hvf, hsh, Run.bind_apply, Run.emit_apply, Run.deref_some,
    pipelineStateCalls]

theorem packedConstants_length {S : Nat} (ys : List (DrawCall S)) :
    (packedConstants ys).length = ys.length * S := by
  induction ys with
  | nil => simp [packedConstants]
  | cons y ys ih =>
    have hy : y.constantBufferData.val.length = S := y.constantBufferData.property
    simp only [packedConstants, List.flatMap_cons, List.length_append, List.length_cons] at ih ⊢
    rw [ih, hy, Nat.succ_mul]; omega

theorem copyConstants_ok {S I G : Nat} (calls : DynamicArray (DrawCall S) I G) :
    ∀ (ys : List (DrawCall S)) (i : Nat) (w : World) (m : List (Option Byte)),
      w.sharedBytes = some m →
      (∀ j, j < ys.length → calls.get (i + j) = ys[j]?) →
      (i + ys.length) * S ≤ m.length → (i + ys.length) * S < SIZE_MOD →
      copyConstants calls i ys.length w =
        ({ w with sharedBytes := some (m.take (i * S) ++ (packedConstants ys).map some ++
            m.drop ((i + ys.length) * S)) }, Except.ok ()) := by
  intro ys
  induction ys with
  | nil =>
    intro i w m hw _ _ _
    simp only [List.length_nil, copyConstants, Run.ret_apply, packedConstants, List.flatMap_nil,
      List.map_nil, List.append_nil, Nat.add_zero, List.take_append_drop]
    rw [← hw]
  | cons y ys ih =>
    intro i w m hw hget hlen hfit
    have hyl : y.constantBufferData.val.length = S := y.constantBufferData.property
    rw [List.length_cons] at hlen hfit hget ⊢
    have h0 : calls.get i = some y := by simpa using hget 0 (by omega)
    have hmul : (i + (ys.length + 1)) * S = i * S + S + ys.length * S := by
      rw [Nat.add_mul, Nat.succ_mul]; omega
    have hoff : (i * S) % SIZE_MOD = i * S := Nat.mod_eq_of_lt (by omega)
    have hread : readDrawCall calls i w = (w, Except.ok y) := by
      simp [readDrawCall, h0, Run.ret_apply]
    have hcpy : memcpyShared (i * S) y.constantBufferData.val w =
        ({ w with sharedBytes := some (m.take (i * S) ++ y.constantBufferData.val.map some ++
            m.drop (i * S + S)) }, Except.ok ()) := by
      have : i * S + S ≤ m.length := by omega
      simp [memcpyShared, hw, hyl, this]
    have hm1 : (m.take (i * S) ++ y.constantBufferData.val.map some ++
        m.drop (i * S + S)).length = m.length := by
      simp [hyl]; omega
    have hstep := ih (i + 1)
      { w with sharedBytes := some (m.take (i * S) ++ y.constantBufferData.val.map some ++
            m.drop (i * S + S)) }
      (m.take (i * S) ++ y.constantBufferData.val.map some ++ m.drop (i * S + S)) rfl
      (fun j hj => by
        have := hget (j + 1) (by omega)
        simpa [Nat.add_assoc, Nat.add_comm 1 j] using this)
      (by rw [hm1]; have : i + 1 + ys.length = i + (ys.length + 1) := by omega
          rw [this]; exact hlen)
      (by have : i + 1 + ys.length = i + (ys.length + 1) := by omega
          rw [this]; exact hfit)
    unfold copyConstants
    simp only [hoff]
    rw [Run.bind_ok hread, Run.bind_ok hcpy, hstep]
    have hpre : (m.take (i * S) ++ y.constantBufferData.val.map some).length = (i + 1) * S := by
      simp [hyl, Nat.succ_mul]; omega
    have htake : List.take ((i + 1) * S) (m.take (i * S) ++ y.constantBufferData.val.map some ++
        m.drop (i * S + S)) = m.take (i * S) ++ y.constantBufferData.val.map some :=
      List.take_left' hpre
    have hdrop : List.drop ((i + 1 + ys.length) * S) (m.take (i * S) ++
        y.constantBufferData.val.map some ++ m.drop (i * S + S)) =
          m.drop ((i + (ys.length + 1)) * S) := by
      have e : (i + 1 + ys.length) * S =
          (m.take (i * S) ++ y.constantBufferData.val.map some).length + ys.length * S := by
        rw [hpre, Nat.add_mul]
      rw [e, List.drop_append, List.drop_drop, hmul]
    rw [htake, hdrop]
    simp [packedConstants, List.append_assoc]

theorem UINT_MOD_lt_SIZE_MOD : UINT_MOD < SIZE_MOD := by decide

theorem resizedFor_buffer {S N : Nat} {impl : PipelineStateImpl} {dev : Backend}
    (h : BackendReady S impl dev N) :
    ∃ b, (resizedFor S impl N dev).1.dataBuffer = some b ∧ S * N ≤ b.ByteWidth := by
  obtain ⟨_, _, hback, hcreate, _, hfit, hex⟩ := h
  have hlt := UINT_MOD_lt_SIZE_MOD
  have hmod : (S * N) % SIZE_MOD = S * N := Nat.mod_eq_of_lt (by omega)
  have hmod2 : (S * N) % UINT_MOD = S * N := Nat.mod_eq_of_lt hfit
  obtain ⟨bufferId, hid⟩ := Option.isSome_iff_exists.mp hcreate
  unfold resizedFor DXSharedConstantBuffer.setSize
  rw [hmod]
  by_cases hgrow : S * N > impl.constantBuffer.dataBufferSize
  · simp only [hgrow, if_true, hid]
    cases dev.createShaderResourceView with
    | none => exact ⟨_, rfl, by simp [hmod2]⟩
    | some viewId => exact ⟨_, rfl, by simp [hmod2]⟩
  · simp only [hgrow, if_false]
    unfold DXSharedConstantBuffer.Backed at hback
    cases hb : impl.constantBuffer.dataBuffer with
    | none =>
      rw [hb] at hback hex
      rcases hex with h | h
      · cases h
      · have h0 : impl.constantBuffer.dataBufferSize = 0 := hback
        omega
    | some b =>
      rw [hb] at hback
      exact ⟨b, rfl, by simp at hback; omega⟩

/-- The run of `dxProcessDrawQueue` on a queue bound to a usable pipeline state and holding
the draw calls `xs`, on a device that creates and maps the shared buffer. -/
theorem dxProcessDrawQueue_run {S I G : Nat} (queue : DrawQueue S I G) (dev : Backend)
    (impl : PipelineStateImpl) (xs : List (DrawCall S))
    (hstate : queue.state.value = some impl) (hready : BackendReady S impl dev xs.length)
    (hholds : queue.drawCalls.Holds xs) :
    ∃ b vf sh, (resizedFor S impl xs.length dev).1.dataBuffer = some b ∧
      S * xs.length ≤ b.ByteWidth ∧ impl.vertexFormat = some vf ∧ impl.shader = some sh ∧
      dxProcessDrawQueue queue dev World.initial =
        (match queue.drawCalls.get 0 with
          | none =>
            ({ calls := pipelineStateCalls impl vf sh ++ (resizedFor S impl xs.length dev).2 ++
                  [Call.Map (some b.id), Call.Unmap (some b.id)],
                sharedBytes := some ((packedConstants xs).map some ++
                  List.replicate (b.ByteWidth - S * xs.length) none) },
              Except.error (Fault.readOutsideLifetime 0))
          | some call =>
            ({ calls := pipelineStateCalls impl vf sh ++ (resizedFor S impl xs.length dev).2 ++
                  [Call.Map (some b.id), Call.Unmap (some b.id)] ++ geometryOf call vf.stride ++
                  shaderResourceCalls ((resizedFor S impl xs.length dev).1.dataView.map (·.id)) ++
                  [instancedDrawOf call (xs.length % UINT_MOD)],
                sharedBytes := some ((packedConstants xs).map some ++
                  List.replicate (b.ByteWidth - S * xs.length) none) },
              Except.ok (processedQueue queue impl (resizedFor S impl xs.length dev).1))) := by
  obtain ⟨b, hb, hbw⟩ := resizedFor_buffer hready
  obtain ⟨hsh, hvf, _, _, hmap, hfit, _⟩ := hready
  obtain ⟨vf, hvf⟩ := Option.isSome_iff_exists.mp hvf
  obtain ⟨sh, hsh⟩ := Option.isSome_iff_exists.mp hsh
  refine ⟨b, vf, sh, hb, hbw, hvf, hsh, ?_⟩
  have hsize : queue.drawCalls.GetSize = xs.length := hholds.1
  have hq : queue.state = { value := some impl } := by
    cases hs : queue.state with
    | mk v => rw [hs] at hstate; simp at hstate; rw [hstate]
  have hlt := UINT_MOD_lt_SIZE_MOD
  have hcopy : ∀ w : World, w.sharedBytes = some (List.replicate b.ByteWidth none) →
      copyConstants queue.drawCalls 0 xs.length w =
        ({ w with sharedBytes := some ((packedConstants xs).map some ++
            List.replicate (b.ByteWidth - S * xs.length) none) }, Except.ok ()) := by
    intro w hw
    have h := copyConstants_ok queue.drawCalls xs 0 w (List.replicate b.ByteWidth none) hw
      (fun j hj => by rw [Nat.zero_add]; exact hholds.2 j hj)
      (by rw [List.length_replicate, Nat.zero_add, Nat.mul_comm]; exact hbw)
      (by rw [Nat.zero_add, Nat.mul_comm]; omega)
    rw [h]
    simp [Nat.mul_comm]
  have hmapped : ∀ w : World, mapWriteDiscard (some b) dev w =
      ({ calls := w.calls ++ [Call.Map (some b.id)],
         sharedBytes := some (List.replicate b.ByteWidth none) }, Except.ok ()) := by
    intro w
    simp [mapWriteDiscard, hmap]
  unfold dxProcessDrawQueue
  simp only [DrawQueue.getState, DrawQueue.getDrawCalls, hq, hsize]
  rw [Run.bind_ok (dxSetPipelineState_ok impl vf sh hvf hsh World.initial)]
  rw [Run.bind_ok (Run.deref_some impl _)]
  rw [show DXSharedConstantBuffer.setSize S impl.constantBuffer (S * xs.length % SIZE_MOD)
    xs.length dev = resizedFor S impl xs.length dev from rfl]
  rw [Run.bind_ok (Run.emitAll_apply _ _), hb, Run.bind_ok (hmapped _),
    Run.bind_ok (hcopy _ rfl), Run.bind_ok (Run.emit_apply _ _)]
  cases hget : queue.drawCalls.get 0 with
  | none =>
    have hread : ∀ w : World, readDrawCall queue.drawCalls 0 w =
        (w, Except.error (Fault.readOutsideLifetime 0)) := by
      intro w; simp [readDrawCall, hget, Run.fault]
    rw [Run.bind_error (hread _)]
    simp [World.initial]
  | some call =>
    have hread : ∀ w : World, readDrawCall queue.drawCalls 0 w = (w, Except.ok call) := by
      intro w; simp [readDrawCall, hget, Run.ret_apply]
    rw [Run.bind_ok (hread _), Run.bind_ok (Run.emit_apply _ _), hvf,
      Run.bind_ok (Run.deref_some vf _)]
    simp only [Run.bind_ok (Run.emit_apply _ _)]
    cases htype : call.type <;>
      simp [Run.bind_apply, Run.emit_apply, Run.ret_apply, World.initial, geometryOf,
        shaderResourceCalls, instancedDrawOf, htype, processedQueue, hvf]

namespace DXSharedConstantBuffer

end DXSharedConstantBuffer

end sgfx

namespace iGfxObject

variable {T : Type}

theorem assignAll_spec (hs : List T) :
    ∀ (w : iGfxObject T) (released : List T),
      (w.assignAll released hs).2 ++ (w.assignAll released hs).1.destroy =
        released ++ w.gfxObject :: hs := by
  induction hs with
  | nil => intro w released; simp [assignAll, destroy]
  | cons h hs ih =>
    intro w released
    simp only [assignAll]
    rw [ih]
    simp [assign]

end iGfxObject

namespace sgfx

open internal

theorem setSize_calls_plain (S : Nat) (cb : DXSharedConstantBuffer) (newSize n : Nat)
    (dev : Backend) :
    ∀ c ∈ (DXSharedConstantBuffer.setSize S cb newSize n dev).2,
      c.isDraw = false ∧ c.isGeometryBinding = false := by
  have hrel : ∀ p : Option Nat, ∀ c ∈ DXSharedConstantBuffer.releaseIfSet p,
      c.isDraw = false ∧ c.isGeometryBinding = false := by
    intro p c hc
    cases p with
    | none => simp [DXSharedConstantBuffer.releaseIfSet] at hc
    | some o =>
      simp [DXSharedConstantBuffer.releaseIfSet] at hc
      subst hc
      exact ⟨rfl, rfl⟩
  intro c hc
  unfold DXSharedConstantBuffer.setSize at hc
  by_cases h : newSize > cb.dataBufferSize
  · simp only [h, if_true] at hc
    cases hb : dev.createBuffer with
    | none =>
      rw [hb] at hc
      simp only [List.mem_append, List.mem_singleton] at hc
      rcases hc with (hc | hc) | hc
      · exact hrel _ c hc
      · exact hrel _ c hc
      · subst hc; exact ⟨rfl, rfl⟩
    | some bufferId =>
      rw [hb] at hc
      cases hvw : dev.createShaderResourceView with
      | none =>
        rw [hvw] at hc
        simp only [List.mem_append, List.mem_cons, List.mem_singleton, List.not_mem_nil,
          or_false] at hc
        rcases hc with (hc | hc) | hc | hc
        · exact hrel _ c hc
        · exact hrel _ c hc
        · subst hc; exact ⟨rfl, rfl⟩
        · subst hc; exact ⟨rfl, rfl⟩
      | some viewId =>
        rw [hvw] at hc
        simp only [List.mem_append, List.mem_cons, List.mem_singleton, List.not_mem_nil,
          or_false] at hc
        rcases hc with (hc | hc) | hc | hc
        · exact hrel _ c hc
        · exact hrel _ c hc
        · subst hc; exact ⟨rfl, rfl⟩
        · subst hc; exact ⟨rfl, rfl⟩
  · simp only [h, if_false] at hc
    simp at hc

theorem resizedFor_filter_isDraw (S : Nat) (impl : PipelineStateImpl) (N : Nat) (dev : Backend) :
    (resizedFor S impl N dev).2.filter Call.isDraw = [] := by
  rw [List.filter_eq_nil_iff]
  intro c hc
  simp [(setSize_calls_plain S _ _ _ dev c hc).1]

theorem resizedFor_filter_isGeometryBinding (S : Nat) (impl : PipelineStateImpl) (N : Nat)
    (dev : Backend) :
    (resizedFor S impl N dev).2.filter Call.isGeometryBinding = [] := by
  rw [List.filter_eq_nil_iff]
  intro c hc
  simp [(setSize_calls_plain S _ _ _ dev c hc).2]

theorem instancedDrawOf_isDraw {S : Nat} (c : DrawCall S) (n : Nat) :
    (instancedDrawOf c n).isDraw = true ∧ (instancedDrawOf c n).isGeometryBinding = false ∧
      (instancedDrawOf c n).isInstancedDraw = true := by
  unfold instancedDrawOf
  cases c.type <;> exact ⟨rfl, rfl, rfl⟩

/-- The run of `dxProcessDrawQueue` on a non-empty batch: it ends normally, its only draw is
the instanced draw of call 0 and its only geometry bindings are those of call 0. -/
theorem dxProcessDrawQueue_nonempty {S I G : Nat} (queue : DrawQueue S I G) (dev : Backend)
    (impl : PipelineStateImpl) (c0 : DrawCall S) (rest : List (DrawCall S))
    (hstate : queue.state.value = some impl)
    (hready : BackendReady S impl dev (c0 :: rest).length)
    (hholds : queue.drawCalls.Holds (c0 :: rest)) :
    ∃ w vf, dxProcessDrawQueue queue dev World.initial =
        (w, Except.ok (processedQueue queue impl (resizedFor S impl (c0 :: rest).length dev).1)) ∧
      impl.vertexFormat = some vf ∧
      w.calls.filter Call.isDraw = [instancedDrawOf c0 ((c0 :: rest).length % UINT_MOD)] ∧
      w.calls.filter Call.isGeometryBinding = geometryOf c0 vf.stride ∧
      w.sharedBytes.map (List.take (S * (c0 :: rest).length)) =
        some ((packedConstants (c0 :: rest)).map some) ∧
      ∃ sh b, impl.shader = some sh ∧
        (resizedFor S impl (c0 :: rest).length dev).1.dataBuffer = some b ∧
        w.calls = pipelineStateCalls impl vf sh ++
          (resizedFor S impl (c0 :: rest).length dev).2 ++
          [Call.Map (some b.id), Call.Unmap (some b.id)] ++ geometryOf c0 vf.stride ++
          shaderResourceCalls ((resizedFor S impl (c0 :: rest).length dev).1.dataView.map
            (·.id)) ++
          [instancedDrawOf c0 ((c0 :: rest).length % UINT_MOD)] := by
  obtain ⟨b, vf, sh, hb, hbw, hvf, hsh, hrun⟩ :=
    dxProcessDrawQueue_run queue dev impl (c0 :: rest) hstate hready hholds
  have h0 : queue.drawCalls.get 0 = some c0 := by
    simpa using hholds.2 0 (by simp)
  rw [h0] at hrun
  refine ⟨_, vf, hrun, hvf, ?_, ?_, ?_, sh, b, hsh, hb, rfl⟩
  · have e1 : [instancedDrawOf c0 ((c0 :: rest).length % UINT_MOD)].filter Call.isDraw =
        [instancedDrawOf c0 ((c0 :: rest).length % UINT_MOD)] := by
      simp [List.filter_cons, (instancedDrawOf_isDraw c0 _).1]
    simp only [List.filter_append, resizedFor_filter_isDraw, e1]
    rfl
  · have e1 : [instancedDrawOf c0 ((c0 :: rest).length % UINT_MOD)].filter
        Call.isGeometryBinding = [] := by
      simp [List.filter_cons, (instancedDrawOf_isDraw c0 _).2.1]
    simp only [List.filter_append, resizedFor_filter_isGeometryBinding, e1]
    rfl
  · have hl : ((packedConstants (c0 :: rest)).map some).length = S * (c0 :: rest).length := by
      rw [List.length_map, packedConstants_length, Nat.mul_comm]
    simp only [Option.map_some']
    rw [List.take_left' hl]

namespace internal.DynamicArray

variable {T : Type} {I G : Nat}

theorem destroyRange_ok :
    ∀ (n i : Nat) (s : List (Option T)),
      (∀ j, i ≤ j → j < i + n → (readLive s j).isSome = true) →
      ∃ s2, destroyRange s i n = some s2 := by
  intro n
  induction n with
  | zero => intro i s _; exact ⟨s, rfl⟩
  | succ n ih =>
    intro i s hlive
    obtain ⟨v, hv⟩ := Option.isSome_iff_exists.mp (hlive i (Nat.le_refl i) (by omega))
    obtain ⟨s2, hs2⟩ := ih (i + 1) (s.set i none) (fun j h1 h2 => by
      rw [readLive_set_ne (by omega)]
      exact hlive j (by omega) (by omega))
    exact ⟨s2, by simp only [destroyRange, hv]; exact hs2⟩

theorem Clear_ok {a : DynamicArray T I G} (hv : Valid a) : ∃ a2, Clear a = some a2 := by
  obtain ⟨s2, hs2⟩ := destroyRange_ok a.size 0 a.storage
    (fun j _ h2 => hv.2.2.2 j (by omega))
  exact ⟨{ a.setStorage s2 with size := 0 }, by simp only [Clear, hs2]⟩

end internal.DynamicArray

theorem packedConstants_slice {S : Nat} :
    ∀ (xs : List (DrawCall S)) (i : Nat) (c : DrawCall S), xs[i]? = some c →
      ((packedConstants xs).drop (i * S)).take S = c.constantBufferData.val := by
  intro xs
  induction xs with
  | nil => intro i c h; simp at h
  | cons y ys ih =>
    intro i c h
    have hyl : y.constantBufferData.val.length = S := y.constantBufferData.property
    cases i with
    | zero =>
      simp only [List.getElem?_cons_zero, Option.some.injEq] at h
      subst h
      simp only [Nat.zero_mul, List.drop_zero, packedConstants, List.flatMap_cons]
      exact List.take_left' hyl
    | succ i =>
      simp only [List.getElem?_cons_succ] at h
      have e : (i + 1) * S = y.constantBufferData.val.length + i * S := by
        rw [hyl, Nat.succ_mul]; omega
      have hcons : packedConstants (y :: ys) = y.constantBufferData.val ++ packedConstants ys := by
        simp [packedConstants]
      rw [hcons, e, List.drop_append]
      exact ih i c h

end sgfx

namespace sgfx.internal.DynamicArray
variable {T : Type} {I G : Nat}

theorem heap_setStorage (a : DynamicArray T I G) (s : List (Option T)) :
    (a.setStorage s).heap.map (·.id) = a.heap.map (·.id) ∧
      (a.setStorage s).allocations = a.allocations ∧ (a.setStorage s).freed = a.freed := by
  unfold setStorage
  cases h : a.heap <;> simp

theorem Grow_capacity_eq {a a1 : DynamicArray T I G} {n : Nat} (h : Grow a n = some a1) :
    a1.capacity = (a.size + n) % SIZE_MOD ∧ a1.size = a.size := by
  unfold Grow at h
  by_cases hI : (a.size + n) % SIZE_MOD > I
  · simp only [hI, if_true] at h
    split at h
    · cases h
    · simp only [Option.some.injEq] at h
      subst h
      simp
  · simp only [hI, if_false, Option.some.injEq] at h
    subst h
    exact ⟨rfl, rfl⟩

theorem Add_capacity_eq {a a2 : DynamicArray T I G} {v : T} (h : Add a v = some a2) :
    a2.capacity = (if a.size ≥ a.capacity then (a.size + G) % SIZE_MOD else a.capacity) := by
  unfold Add at h
  by_cases hfull : a.size ≥ a.capacity
  · simp only [hfull, if_true] at h ⊢
    cases hg : Grow a G with
    | none => rw [hg] at h; cases h
    | some a1 =>
      rw [hg] at h
      simp only [] at h
      split at h
      · cases h
      · simp only [Option.some.injEq] at h
        subst h
        simp [(Grow_capacity_eq hg).1]
  · simp only [hfull, if_false] at h ⊢
    split at h
    · cases h
    · simp only [Option.some.injEq] at h
      subst h
      simp

theorem toSize_toPtrdiff (i : Nat) (h : i < SIZE_MOD) : toSize (toPtrdiff i) = i := by
  unfold toSize toPtrdiff
  unfold SIZE_MOD at h ⊢
  split <;> omega

theorem toPtrdiff_ne_minus_one (i : Nat) (h : i + 1 < SIZE_MOD) : toPtrdiff i ≠ -1 := by
  unfold toPtrdiff
  unfold SIZE_MOD at h ⊢
  split <;> omega

theorem findFrom_absent [BEq T] (s : List (Option T)) (e : T) :
    ∀ (n i : Nat),
      (∀ j, i ≤ j → j < i + n → ∃ v, readLive s j = some v ∧ (v == e) = false) →
      findFrom s e i n = some (-1) := by
  intro n
  induction n with
  | zero => intro i _; rfl
  | succ n ih =>
    intro i h
    obtain ⟨v, hv, hne⟩ := h i (Nat.le_refl i) (by omega)
    simp only [findFrom, hv, hne]
    exact ih (i + 1) (fun j h1 h2 => h j (by omega) (by omega))

theorem findFrom_first [BEq T] (s : List (Option T)) (e : T) :
    ∀ (n i k : Nat), i ≤ k → k < i + n →
      (∃ v, readLive s k = some v ∧ (v == e) = true) →
      (∀ j, i ≤ j → j < k → ∃ v, readLive s j = some v ∧ (v == e) = false) →
      findFrom s e i n = some (toPtrdiff k) := by
  intro n
  induction n with
  | zero => intro i k h1 h2; omega
  | succ n ih =>
    intro i k h1 h2 hk hbefore
    by_cases hik : i = k
    · subst hik
      obtain ⟨v, hv, heq⟩ := hk
      simp [findFrom, hv, heq]
    · obtain ⟨v, hv, hne⟩ := hbefore i (Nat.le_refl i) (by omega)
      simp only [findFrom, hv, hne]
      exact ih (i + 1) k (by omega) (by omega) hk
        (fun j h3 h4 => hbefore j (by omega) h4)

end sgfx.internal.DynamicArray

namespace sgfx
open internal

theorem Run.times_of_unchanged (x : Run Unit) (w : World) (h : x w = (w, Except.ok ())) :
    ∀ n, Run.times x n w = (w, Except.ok ()) := by
  intro n
  induction n with
  | zero => rfl
  | succ n ih =>
    unfold Run.times
    rw [Run.bind_ok h]
    exact ih

theorem Run.ret_bind {α β : Type} (a : α) (f : α → Run β) : (Run.ret a >>= f) = f a := by
  funext w
  rfl

theorem Run.ok_bind_inv {α β : Type} {x : Run α} {f : α → Run β} {w w2 : World} {b : β}
    (h : (x >>= f) w = (w2, Except.ok b)) :
    ∃ a w1, x w = (w1, Except.ok a) ∧ f a w1 = (w2, Except.ok b) := by
  rw [Run.bind_apply] at h
  cases hx : x w with
  | mk w1 r =>
    rw [hx] at h
    cases r with
    | error e => simp at h
    | ok a => exact ⟨a, w1, rfl, h⟩

theorem Run.Returns_ret {α : Type} {a : α} {P : α → Prop} (h : P a) :
    Run.Returns (Run.ret a) P := by
  intro w w2 b hb
  rw [Run.ret_apply] at hb
  cases hb
  exact h

theorem Run.Returns_bind {α β : Type} {x : Run α} {f : α → Run β} {P : β → Prop}
    (h : ∀ a, Run.Returns (f a) P) : Run.Returns (x >>= f) P := by
  intro w w2 b hb
  obtain ⟨a, w1, _, hf⟩ := Run.ok_bind_inv hb
  exact h a w1 w2 b hf

theorem SameEffect_bind {α β γ : Type} (x : Run α) {f : α → Run β} {g : α → Run γ}
    (h : ∀ a, SameEffect (f a) (g a)) : SameEffect (x >>= f) (x >>= g) := by
  intro w
  rw [Run.bind_apply, Run.bind_apply]
  cases hx : x w with
  | mk w1 r =>
    cases r with
    | error e => exact ⟨rfl, rfl⟩
    | ok a => exact h a w1

theorem SameEffect_ret {α β : Type} (a : α) (b : β) : SameEffect (Run.ret a) (Run.ret b) :=
  fun _ => ⟨rfl, rfl⟩

theorem copyConstants_congr {S I G I2 G2 : Nat} (a1 : DynamicArray (DrawCall S) I G)
    (a2 : DynamicArray (DrawCall S) I2 G2) :
    ∀ (n i : Nat),
      (∀ j, i ≤ j → j < i + n → ∃ c1 c2, a1.get j = some c1 ∧ a2.get j = some c2 ∧
        c1.constantBufferData = c2.constantBufferData) →
      copyConstants a1 i n = copyConstants a2 i n := by
  intro n
  induction n with
  | zero => intro i _; rfl
  | succ n ih =>
    intro i h
    obtain ⟨c1, c2, h1, h2, hc⟩ := h i (Nat.le_refl i) (by omega)
    have hr1 : readDrawCall a1 i = Run.ret c1 := by simp [readDrawCall, h1]
    have hr2 : readDrawCall a2 i = Run.ret c2 := by simp [readDrawCall, h2]
    unfold copyConstants
    simp only [hr1, hr2, Run.ret_bind, hc]
    rw [ih (i + 1) (fun j h3 h4 => h j (by omega) (by omega))]

theorem dxProcessDrawQueue_keeps_drawCalls {S I G : Nat} (queue : DrawQueue S I G)
    (dev : Backend) :
    Run.Returns (dxProcessDrawQueue queue dev) (fun q => q.drawCalls = queue.drawCalls) := by
  unfold dxProcessDrawQueue
  repeat (with_reducible apply Run.Returns_bind; intro _)
  split <;> (repeat (with_reducible apply Run.Returns_bind; intro _)) <;>
    exact Run.Returns_ret rfl

theorem Clear_result {T : Type} {I G : Nat} {a a2 : DynamicArray T I G}
    (h : a.Clear = some a2) : a2.size = 0 ∧ a2.capacity = a.capacity := by
  unfold DynamicArray.Clear at h
  split at h
  · cases h
  · simp only [Option.some.injEq] at h
    subst h
    exact ⟨rfl, by simp⟩

end sgfx

namespace sgfx.internal.DynamicArray
variable {T : Type} {I G : Nat}

theorem constructAt_length {s s2 : List (Option T)} {i : Nat} {v : T}
    (h : constructAt s i v = some s2) : s2.length = s.length := by
  unfold constructAt at h
  split at h
  · simp only [Option.some.injEq] at h
    rw [← h, List.length_set]
  · cases h

theorem moveRange_length (src : List (Option T)) :
    ∀ (n i : Nat) (dst d : List (Option T)), moveRange src dst i n = some d →
      d.length = dst.length := by
  intro n
  induction n with
  | zero =>
    intro i dst d h
    simp only [moveRange, Option.some.injEq] at h
    rw [h]
  | succ n ih =>
    intro i dst d h
    unfold moveRange at h
    split at h
    · cases h
    · split at h
      · cases h
      · rename_i d1 hc
        rw [ih (i + 1) d1 d h, constructAt_length hc]

theorem shiftLeft_length :
    ∀ (n ptr i : Nat) (s s2 : List (Option T)), shiftLeft s ptr i n = some s2 →
      s2.length = s.length := by
  intro n
  induction n with
  | zero =>
    intro ptr i s s2 h
    simp only [shiftLeft, Option.some.injEq] at h
    rw [h]
  | succ n ih =>
    intro ptr i s s2 h
    unfold shiftLeft at h
    split at h
    · cases h
    · split at h
      · cases h
      · rename_i s1 hc
        split at h
        · cases h
        · rw [ih (ptr + 1) (i + 1) _ s2 h, List.length_set, constructAt_length hc]

theorem destroyRange_length :
    ∀ (n i : Nat) (s s2 : List (Option T)), destroyRange s i n = some s2 →
      s2.length = s.length := by
  intro n
  induction n with
  | zero =>
    intro i s s2 h
    simp only [destroyRange, Option.some.injEq] at h
    rw [h]
  | succ n ih =>
    intro i s s2 h
    unfold destroyRange at h
    split at h
    · cases h
    · rw [ih (i + 1) _ s2 h, List.length_set]

theorem constructRange_length [Inhabited T] :
    ∀ (n i : Nat) (s s2 : List (Option T)), constructRange s i n = some s2 →
      s2.length = s.length := by
  intro n
  induction n with
  | zero =>
    intro i s s2 h
    simp only [constructRange, Option.some.injEq] at h
    rw [h]
  | succ n ih =>
    intro i s s2 h
    unfold constructRange at h
    split at h
    · cases h
    · rename_i s1 hc
      rw [ih (i + 1) s1 s2 h, constructAt_length hc]

theorem constructRange_ok [Inhabited T] :
    ∀ (n i : Nat) (s : List (Option T)), i + n ≤ s.length →
      ∃ s2, constructRange s i n = some s2 := by
  intro n
  induction n with
  | zero => intro i s _; exact ⟨s, rfl⟩
  | succ n ih =>
    intro i s h
    unfold constructRange
    have hi : i < s.length := by omega
    simp only [constructAt, hi, if_true]
    exact ih (i + 1) _ (by rw [List.length_set]; omega)

theorem Covered.setStorage {a : DynamicArray T I G} (h : a.Covered) {s : List (Option T)}
    (hs : s.length = a.storage.length) (n : Nat) :
    Covered ({ a.setStorage s with size := n } : DynamicArray T I G) := by
  obtain ⟨h1, h2, h3⟩ := h
  unfold Covered
  have hst : ({ a.setStorage s with size := n } : DynamicArray T I G).storage = s :=
    storage_setStorage a s
  rw [hst]
  refine ⟨?_, by simp only [capacity_setStorage]; omega, by omega⟩
  unfold DynamicArray.setStorage
  cases hh : a.heap with
  | none =>
    simp only []
    have : a.storage = a.inplaceStorage := by simp [storage, hh]
    rw [hs, this]; exact h1
  | some b => exact h1

theorem Add_inv {a a2 : DynamicArray T I G} {v : T} (h : Add a v = some a2) :
    ∃ a1 s, (if a.size ≥ a.capacity then Grow a G else some a) = some a1 ∧
      constructAt a1.storage a1.size v = some s ∧
      a2 = { a1.setStorage s with size := (a1.size + 1) % SIZE_MOD } := by
  unfold Add at h
  split at h
  · cases h
  · rename_i a1 h1
    split at h
    · cases h
    · rename_i s hs
      simp only [Option.some.injEq] at h
      exact ⟨a1, s, h1, hs, h.symm⟩

theorem Resize_inv [Inhabited T] {a a2 : DynamicArray T I G} {n : Nat}
    (h : Resize a n = some a2) :
    (n = a.size ∧ a2 = a) ∨
    (n ≠ a.size ∧ ∃ a1 s,
      (if n > a.capacity then Grow a ((n + SIZE_MOD - a.size) % SIZE_MOD) else some a) =
        some a1 ∧
      (if n < a1.size then destroyRange a1.storage n (a1.size - n)
        else constructRange a1.storage a1.size (n - a1.size)) = some s ∧
      a2 = { a1.setStorage s with size := n }) := by
  unfold Resize at h
  by_cases hn : n = a.size
  · simp only [hn, if_true, Option.some.injEq] at h
    exact Or.inl ⟨hn, h.symm⟩
  · simp only [hn, if_false] at h
    right
    refine ⟨hn, ?_⟩
    split at h
    · cases h
    · rename_i a1 h1
      split at h
      · cases h
      · rename_i s hs
        simp only [Option.some.injEq] at h
        exact ⟨a1, s, h1, hs, h.symm⟩

theorem Add_size {a a2 : DynamicArray T I G} {v : T} (h : Add a v = some a2) :
    a2.size = (a.size + 1) % SIZE_MOD := by
  obtain ⟨a1, s, h1, hs, rfl⟩ := Add_inv h
  have : a1.size = a.size := by
    split at h1
    · exact (Grow_capacity_eq h1).2
    · cases h1; rfl
  simp [this]

theorem Remove_inv {a a2 : DynamicArray T I G} {index : Nat} (h : Remove a index = some a2) :
    a2 = a ∨ ∃ s, s.length = a.storage.length ∧ a2 = a.setStorage s := by
  unfold Remove at h
  split at h
  · split at h
    · cases h
    · split at h
      · cases h
      · rename_i s hs
        simp only [Option.some.injEq] at h
        have hl := shiftLeft_length _ _ _ _ _ hs
        rw [List.length_set] at hl
        exact Or.inr ⟨s, hl, h.symm⟩
  · simp only [Option.some.injEq] at h
    exact Or.inl h.symm

theorem Remove_result {a a2 : DynamicArray T I G} {index : Nat}
    (h : Remove a index = some a2) : a2.size = a.size ∧ a2.capacity = a.capacity := by
  rcases Remove_inv h with rfl | ⟨s, _, rfl⟩
  · exact ⟨rfl, rfl⟩
  · exact ⟨size_setStorage _ _, capacity_setStorage _ _⟩

theorem RemoveElement_inv [BEq T] (overload : RemoveOverload T) :
    ∀ (depth : Nat) {a a2 : DynamicArray T I G} {e : T},
      RemoveElement overload depth a e = some a2 →
      a2 = a ∨ ∃ index, Remove a index = some a2 := by
  intro depth
  induction depth with
  | zero =>
    intro a a2 e h
    unfold RemoveElement at h
    split at h
    · cases h
    · split at h
      · split at h
        · exact Or.inr ⟨_, h⟩
        · cases h
      · simp only [Option.some.injEq] at h
        exact Or.inl h.symm
  | succ depth ih =>
    intro a a2 e h
    unfold RemoveElement at h
    split at h
    · cases h
    · split at h
      · split at h
        · exact Or.inr ⟨_, h⟩
        · exact ih h
      · simp only [Option.some.injEq] at h
        exact Or.inl h.symm

/-- `Remove(const T&)` for an element type whose inner call names `Remove(size_t)`, on an
array whose size is a `size_t` value. If every element below `size` is live and differs from
`e`, `Find(e)` returns -1 and the array is left as it is. If `i` is the smallest index whose
element equals `e`, `Find(e)` returns `i` and the call is `Remove(i)`. -/
theorem RemoveElement_toIndex [BEq T] (depth : Nat) (a : DynamicArray T I G) (e : T)
    (hsize : a.size < SIZE_MOD) :
    ((∀ i, i < a.size → ∃ v, a.get i = some v ∧ (v == e) = false) →
      a.Find e = some (-1) ∧ a.RemoveElement RemoveOverload.toIndex depth e = some a) ∧
    (∀ i, i < a.size → (∃ v, a.get i = some v ∧ (v == e) = true) →
      (∀ j, j < i → ∃ v, a.get j = some v ∧ (v == e) = false) →
      a.Find e = some (toPtrdiff i) ∧ toSize (toPtrdiff i) = i ∧
        a.RemoveElement RemoveOverload.toIndex depth e = a.Remove i) := by
  constructor
  · intro habsent
    have hf : a.Find e = some (-1) :=
      findFrom_absent a.storage e a.size 0 (fun j _ h2 => habsent j (by omega))
    exact ⟨hf, by simp [RemoveElement, hf]⟩
  · intro i hi hmatch hbefore
    have hf : a.Find e = some (toPtrdiff i) :=
      findFrom_first a.storage e a.size 0 i (Nat.zero_le i) (by omega) hmatch
        (fun j _ h2 => hbefore j h2)
    have hback := toSize_toPtrdiff i (by omega)
    have hne := toPtrdiff_ne_minus_one i (by omega)
    exact ⟨hf, hback, by simp [RemoveElement, hf, hne, hback]⟩

theorem Purge_result {a a2 : DynamicArray T I G} (h : Purge a = some a2) :
    a2.size = 0 ∧ a2.capacity = I := by
  unfold Purge at h
  split at h
  · cases h
  · simp only [Option.some.injEq] at h
    subst h
    exact ⟨rfl, rfl⟩

theorem Resize_result [Inhabited T] {a a2 : DynamicArray T I G} {n : Nat}
    (h : Resize a n = some a2) :
    a2.size = n ∧ ((a2.capacity = a.capacity ∧ (n = a.size ∨ n ≤ a.capacity)) ∨
      (n > a.capacity ∧
        a2.capacity = (a.size + (n + SIZE_MOD - a.size) % SIZE_MOD) % SIZE_MOD)) := by
  rcases Resize_inv h with ⟨hn, rfl⟩ | ⟨_, a1, s, h1, hs, rfl⟩
  · exact ⟨hn.symm, Or.inl ⟨rfl, Or.inl hn⟩⟩
  · refine ⟨rfl, ?_⟩
    split at h1
    · rename_i hgt
      exact Or.inr ⟨hgt, by simp [(Grow_capacity_eq h1).1]⟩
    · rename_i hle
      cases h1
      exact Or.inl ⟨by simp, Or.inr (by omega)⟩

theorem Reserve_result {a a2 : DynamicArray T I G} {n : Nat} (h : Reserve a n = some a2) :
    a2.size = a.size ∧ (a2.capacity = a.capacity ∨ (n > a.capacity ∧
      a2.capacity = (a.size + (n - a.capacity)) % SIZE_MOD)) := by
  unfold Reserve at h
  split at h
  · rename_i hgt
    exact ⟨(Grow_capacity_eq h).2, Or.inr ⟨hgt, (Grow_capacity_eq h).1⟩⟩
  · cases h; exact ⟨rfl, Or.inl rfl⟩

theorem assign_inv [Inhabited T] {I2 G2 : Nat} {a a2 : DynamicArray T I G}
    {other : DynamicArray T I2 G2} (h : assign a other = some a2) :
    ∃ a1 s, Resize a other.GetSize = some a1 ∧ s.length = a1.storage.length ∧
      a2 = a1.setStorage s := by
  unfold assign at h
  split at h
  · cases h
  · rename_i a1 h1
    split at h
    · cases h
    · rename_i s hs
      simp only [Option.some.injEq] at h
      exact ⟨a1, s, h1, moveRange_length _ _ _ _ _ hs, h.symm⟩


theorem resize_wrap (size n : Nat) (hs : size < SIZE_MOD) (hn : n < SIZE_MOD) :
    (size + (n + SIZE_MOD - size) % SIZE_MOD) % SIZE_MOD = n := by
  unfold SIZE_MOD at hs hn ⊢
  omega

/-- The sizes stay `size_t` values and below the capacity along a run that does not wrap. -/
theorem apply_fits [BEq T] [Inhabited T] (hG : 1 ≤ G) {overload : RemoveOverload T}
    {depth : Nat} {a a2 : DynamicArray T I G}
    (op : Operation T I G) (hle : a.size ≤ a.capacity) (hlt : a.size < SIZE_MOD)
    (hrange : op.inRange = true) (hwrap : op.noWrap a = true)
    (h : op.apply overload depth a = some a2) :
    a2.size ≤ a2.capacity ∧ a2.size < SIZE_MOD := by
  have hpos : 0 < SIZE_MOD := by unfold SIZE_MOD; omega
  have hadd : ∀ v, (a.size < a.capacity ∨ a.size + G < SIZE_MOD) → Add a v = some a2 →
      a2.size ≤ a2.capacity ∧ a2.size < SIZE_MOD := by
    intro v hw hv
    have hs := Add_size hv
    have hcap := Add_capacity_eq hv
    have hmod : (a.size + 1) % SIZE_MOD ≤ a.size + 1 := Nat.mod_le _ _
    refine ⟨?_, by rw [hs]; exact Nat.mod_lt _ hpos⟩
    by_cases hfull : a.size ≥ a.capacity
    · simp only [hfull, if_true] at hcap
      have hfit : a.size + G < SIZE_MOD := by omega
      rw [Nat.mod_eq_of_lt hfit] at hcap
      omega
    · simp only [hfull, if_false] at hcap
      omega
  cases op with
  | Add element =>
    simp only [Operation.noWrap, decide_eq_true_eq] at hwrap
    exact hadd element hwrap h
  | EmplaceAdd args =>
    simp only [Operation.noWrap, decide_eq_true_eq] at hwrap
    exact hadd args hwrap h
  | Remove index =>
    obtain ⟨e1, e2⟩ := Remove_result h
    omega
  | RemoveElement element =>
    rcases RemoveElement_inv overload depth h with rfl | ⟨index, hr⟩
    · exact ⟨hle, hlt⟩
    · obtain ⟨e1, e2⟩ := Remove_result hr
      omega
  | Clear =>
    obtain ⟨e1, e2⟩ := Clear_result h
    omega
  | Purge =>
    obtain ⟨e1, e2⟩ := Purge_result h
    omega
  | Resize newSize =>
    simp only [Operation.inRange, decide_eq_true_eq] at hrange
    obtain ⟨e1, e2⟩ := Resize_result h
    rcases e2 with ⟨e2, e3⟩ | ⟨hgt, e2⟩
    · omega
    · rw [resize_wrap _ _ hlt hrange] at e2
      omega
  | Reserve numElements =>
    simp only [Operation.inRange, decide_eq_true_eq] at hrange
    obtain ⟨e1, e2⟩ := Reserve_result h
    rcases e2 with e2 | ⟨hgt, e2⟩
    · omega
    · rw [Nat.mod_eq_of_lt (by omega)] at e2
      omega
  | Grow numElements =>
    simp only [Operation.noWrap, decide_eq_true_eq] at hwrap
    obtain ⟨e1, e2⟩ := Grow_capacity_eq h
    rw [Nat.mod_eq_of_lt hwrap] at e1
    omega
  | assign other =>
    simp only [Operation.inRange, decide_eq_true_eq] at hrange
    obtain ⟨a1, s, h1, _, rfl⟩ := assign_inv h
    have hrange2 : other.GetSize < SIZE_MOD := hrange
    obtain ⟨e1, e2⟩ := Resize_result h1
    simp only [size_setStorage, capacity_setStorage]
    rcases e2 with ⟨e2, e3⟩ | ⟨hgt, e2⟩
    · omega
    · rw [resize_wrap _ _ hlt hrange2] at e2
      omega

theorem applyAll_fits [BEq T] [Inhabited T] (hG : 1 ≤ G) (overload : RemoveOverload T)
    (depth : Nat) :
    ∀ (ops : List (Operation T I G)) (a a2 : DynamicArray T I G), a.size ≤ a.capacity →
      a.size < SIZE_MOD → (∀ op ∈ ops, op.inRange = true) →
      noWrapRun overload depth a ops = true →
      applyAll overload depth a ops = some a2 → a2.size ≤ a2.capacity ∧ a2.size < SIZE_MOD := by
  intro ops
  induction ops with
  | nil =>
    intro a a2 hle hlt _ _ h
    simp only [applyAll, Option.some.injEq] at h
    rw [← h]; exact ⟨hle, hlt⟩
  | cons op ops ih =>
    intro a a2 hle hlt hrange hwrap h
    unfold applyAll at h
    unfold noWrapRun at hwrap
    split at h
    · cases h
    · rename_i a1 h1
      simp only [h1, Bool.and_eq_true] at hwrap
      obtain ⟨hle1, hlt1⟩ := apply_fits hG op hle hlt (hrange op (List.mem_cons_self _ _))
        hwrap.1 h1
      exact ih a1 a2 hle1 hlt1 (fun o ho => hrange o (List.mem_cons_of_mem _ ho)) hwrap.2 h

/-- `Grow` on an array whose elements are live ends normally when the new capacity holds
them; the storage afterwards has at least the new capacity and `I` slots. -/
theorem Grow_some {a : DynamicArray T I G} {n : Nat}
    (hlive : ∀ i, i < a.size → (a.get i).isSome = true) (hI : I ≤ a.storage.length)
    (hroom : a.size ≤ (a.size + n) % SIZE_MOD) :
    ∃ a1, Grow a n = some a1 ∧ a1.size = a.size ∧ a1.capacity = (a.size + n) % SIZE_MOD ∧
      (a.size + n) % SIZE_MOD ≤ a1.storage.length := by
  by_cases hgt : (a.size + n) % SIZE_MOD > I
  · obtain ⟨d, hd, hl, _, _⟩ := moveRange_spec a.storage a.size 0
      (List.replicate ((a.size + n) % SIZE_MOD) none)
      (fun j _ hj => by
        obtain ⟨v, hv⟩ := Option.isSome_iff_exists.mp (hlive j (by omega))
        exact ⟨v, readLive_eq_some.mp hv⟩)
      (by rw [List.length_replicate]; omega)
    obtain ⟨a1, h1, h2, h3, h4⟩ := Grow_alloc rfl hgt hd
    refine ⟨a1, h1, h2, h3, ?_⟩
    rw [h4, hl, List.length_replicate]
  · obtain ⟨a1, h1, h2, h3, h4⟩ := Grow_keep (a := a) (n := n) rfl hgt
    refine ⟨a1, h1, h2, h3, ?_⟩
    rw [h4]; omega

/-- `Resize` on a valid array ends normally; afterwards the size is `newSize` and the
storage in use has at least `newSize` slots. -/
theorem Resize_some [Inhabited T] {a : DynamicArray T I G} (hv : a.Valid) {n : Nat}
    (hn : n < SIZE_MOD) :
    ∃ a2, Resize a n = some a2 ∧ a2.size = n ∧ n ≤ a2.storage.length := by
  obtain ⟨hsc, hcl, hIl, hlive⟩ := hv
  by_cases heq : n = a.size
  · exact ⟨a, by simp only [Resize, heq, if_true], heq.symm, by omega⟩
  · by_cases hgt : n > a.capacity
    · have hw := resize_wrap a.size n (by omega) hn
      obtain ⟨a1, h1, h2, h3, h4⟩ := Grow_some (n := (n + SIZE_MOD - a.size) % SIZE_MOD)
        hlive hIl (by rw [hw]; omega)
      rw [hw] at h3 h4
      obtain ⟨s, hs⟩ := constructRange_ok (n - a1.size) a1.size a1.storage (by omega)
      have hnl : ¬ n < a1.size := by omega
      refine ⟨{ a1.setStorage s with size := n }, ?_, rfl, ?_⟩
      · simp only [Resize, heq, if_false, hgt, if_true, h1, hnl, hs]
      · have hst : ({ a1.setStorage s with size := n } : DynamicArray T I G).storage = s :=
          storage_setStorage a1 s
        rw [hst, constructRange_length _ _ _ _ hs]
        exact h4
    · by_cases hlt : n < a.size
      · obtain ⟨s, hs⟩ := destroyRange_ok (a.size - n) n a.storage
          (fun j _ hj => hlive j (by omega))
        refine ⟨{ a.setStorage s with size := n }, ?_, rfl, ?_⟩
        · simp only [Resize, heq, if_false, hgt, hlt, if_true, hs]
        · have hst : ({ a.setStorage s with size := n } : DynamicArray T I G).storage = s :=
            storage_setStorage a s
          rw [hst, destroyRange_length _ _ _ _ hs]
          omega
      · obtain ⟨s, hs⟩ := constructRange_ok (n - a.size) a.size a.storage (by omega)
        refine ⟨{ a.setStorage s with size := n }, ?_, rfl, ?_⟩
        · simp only [Resize, heq, if_false, hgt, hlt, hs]
        · have hst : ({ a.setStorage s with size := n } : DynamicArray T I G).storage = s :=
            storage_setStorage a s
          rw [hst, constructRange_length _ _ _ _ hs]
          omega

/-- The copy assignment from an array whose elements are live, on a valid array. -/
theorem assign_spec [Inhabited T] {I2 G2 : Nat} {a : DynamicArray T I G}
    {b : DynamicArray T I2 G2} (hv : a.Valid)
    (hlive : ∀ i, i < b.size → (b.get i).isSome = true) (hsize : b.size < SIZE_MOD) :
    ∃ a2, assign a b = some a2 ∧ a2.GetSize = b.GetSize ∧
      ∀ i, i < b.GetSize → a2.get i = b.get i := by
  obtain ⟨a1, h1, h2, h3⟩ := Resize_some hv (n := b.GetSize) hsize
  have h2b : a1.size = b.size := h2
  obtain ⟨d, hd, _, hcopy, _⟩ := moveRange_spec b.storage a1.size 0 a1.storage
    (fun j _ hj => by
      obtain ⟨v, hv⟩ := Option.isSome_iff_exists.mp (hlive j (by omega))
      exact ⟨v, readLive_eq_some.mp hv⟩)
    (by rw [h2]; omega)
  refine ⟨a1.setStorage d, ?_, ?_, ?_⟩
  · simp only [assign, h1, copyRange, hd]
  · simp only [GetSize, size_setStorage]; exact h2b
  · intro i hi
    unfold get
    rw [storage_setStorage]
    exact readLive_congr (hcopy i (Nat.zero_le _) (by rw [h2, Nat.zero_add]; exact hi))

/-- The block asked for has the slots of the new capacity when the byte count does not
wrap. -/
theorem allocatedSlots_eq {sizeofT n : Nat} (hT : 1 ≤ sizeofT)
    (h : n * sizeofT < SIZE_MOD) : Sized.allocatedSlots sizeofT n = n := by
  unfold Sized.allocatedSlots
  rw [Nat.mod_eq_of_lt h]
  exact Nat.mul_div_cancel n hT

/-- `Sized.Grow` is `Grow` when the byte count of the block it allocates does not wrap. -/
theorem sizedGrow_eq {sizeofT : Nat} (hT : 1 ≤ sizeofT) (a : DynamicArray T I G) (n : Nat)
    (hbytes : (a.size + n) % SIZE_MOD > I → (a.size + n) % SIZE_MOD * sizeofT < SIZE_MOD) :
    Sized.Grow sizeofT a n = DynamicArray.Grow a n := by
  unfold Sized.Grow DynamicArray.Grow
  by_cases hgt : (a.size + n) % SIZE_MOD > I
  · simp only [allocatedSlots_eq hT (hbytes hgt)]
  · simp only [hgt, if_false]

/-- For elements of one byte `Sized.Grow` is `Grow`. -/
theorem sizedGrow_one (a : DynamicArray T I G) (n : Nat) :
    Sized.Grow 1 a n = DynamicArray.Grow a n :=
  sizedGrow_eq (Nat.le_refl 1) a n (fun _ => by
    rw [Nat.mul_one]
    exact Nat.mod_lt _ (Nat.two_pow_pos 64))

end sgfx.internal.DynamicArray

namespace sgfx

open internal

theorem reportError_apply (errorReport : Option Nat) (message : String) (w : World) :
    reportError errorReport message w =
      ({ w with calls := w.calls ++ reportCalls errorReport message }, Except.ok ()) := by
  cases errorReport with
  | none => simp [reportError, reportCalls, Run.ret_apply]
  | some cb => simp [reportError, reportCalls, Run.emit_apply]

theorem fillInputData_ok (elements : List VertexElementDescriptor) (totalSize E : Nat) :
    ∀ (n i stride : Nat) (w : World), i + n ≤ elements.length → (i + n) * E ≤ totalSize →
      ∃ t, fillInputData elements totalSize E i stride n w = (w, Except.ok t) := by
  intro n
  induction n with
  | zero => intro i stride w _ _; exact ⟨stride, rfl⟩
  | succ n ih =>
    intro i stride w hlen hfit
    have hi : i < elements.length := by omega
    have hw : (i + 1) * E ≤ totalSize :=
      Nat.le_trans (Nat.mul_le_mul_right E (by omega)) hfit
    unfold fillInputData
    rw [List.getElem?_eq_getElem hi]
    simp only [hw, if_true]
    exact ih (i + 1) _ w (by omega) (by rw [show i + 1 + n = i + (n + 1) by omega]; exact hfit)

theorem Run.Returns_fault {α : Type} {e : Fault} {P : α → Prop} :
    Run.Returns (Run.fault e : Run α) P := by
  intro w w2 b hb
  simp [Run.fault] at hb

theorem Run.Returns_bind_of {α β : Type} {x : Run α} {f : α → Run β} {Q : α → Prop}
    {P : β → Prop} (hx : Run.Returns x Q) (h : ∀ a, Q a → Run.Returns (f a) P) :
    Run.Returns (x >>= f) P := by
  intro w w2 b hb
  obtain ⟨a, w1, ha, hf⟩ := Run.ok_bind_inv hb
  exact h a (hx w w1 a ha) w1 w2 b hf

theorem cursorCall_keeps_drawCalls {S I G : Nat} (handle : DrawQueueHandle S I G)
    (queue : DrawQueue S I G) (hhandle : handle.value = some queue) (op : CursorOperation) :
    Run.Returns (op.call handle)
      (fun h => ∃ q, h.value = some q ∧ q.drawCalls = queue.drawCalls) := by
  cases op with
  | setPrimitiveTopology topology =>
    simp only [CursorOperation.call, setPrimitiveTopology, hhandle]
    exact Run.Returns_ret ⟨_, rfl, rfl⟩
  | setVertexBuffer vb =>
    simp only [CursorOperation.call, setVertexBuffer, hhandle]
    exact Run.Returns_ret ⟨_, rfl, rfl⟩
  | setIndexBuffer ib =>
    simp only [CursorOperation.call, setIndexBuffer, hhandle]
    exact Run.Returns_ret ⟨_, rfl, rfl⟩
  | setConstants idx constantsData constantsSize =>
    simp only [CursorOperation.call, setConstants, hhandle]
    cases hs : queue.setConstants idx constantsData constantsSize with
    | none => exact Run.Returns_fault
    | some updated =>
      refine Run.Returns_ret ⟨_, rfl, ?_⟩
      unfold DrawQueue.setConstants at hs
      split at hs
      · simp only [Option.some.injEq] at hs
        rw [← hs]
      · cases hs

theorem cursorCallAll_keeps_drawCalls {S I G : Nat} :
    ∀ (ops : List CursorOperation) (handle : DrawQueueHandle S I G) (queue : DrawQueue S I G),
      handle.value = some queue →
      Run.Returns (CursorOperation.callAll handle ops)
        (fun h => ∃ q, h.value = some q ∧ q.drawCalls = queue.drawCalls) := by
  intro ops
  induction ops with
  | nil =>
    intro handle queue hhandle
    exact Run.Returns_ret ⟨queue, hhandle, rfl⟩
  | cons op ops ih =>
    intro handle queue hhandle
    unfold CursorOperation.callAll
    refine Run.Returns_bind_of (cursorCall_keeps_drawCalls handle queue hhandle op) ?_
    intro h ⟨q, hq, hsame⟩
    rw [← hsame]
    exact ih h q hq

end sgfx

/-! ## The claims -/

namespace sgfx

open internal

theorem Example.ready (N : Nat) (h1 : 0 < 2 * N) (h2 : 2 * N < UINT_MOD) :
    BackendReady 2 Example.pipelineState Example.device N :=
  ⟨rfl, rfl, rfl, rfl, rfl, h2, Or.inr h1⟩

theorem Example.twoCalls_recorded :
    DynamicArray.appendAll (DynamicArray.new : DynamicArray (DrawCall 2) 2 1)
      [(false, Example.callA), (false, Example.callB)] = some Example.twoCalls := rfl

theorem Example.twoCalls_holds :
    Example.twoCalls.Holds [Example.callA, Example.callB] := by
  refine ⟨rfl, ?_⟩
  intro i hi
  match i, hi with
  | 0, _ => rfl
  | 1, _ => rfl

theorem Example.twoCalls_valid : Example.twoCalls.Valid := by
  refine ⟨by decide, by decide, by decide, ?_⟩
  intro i hi
  match i, hi with
  | 0, _ => rfl
  | 1, _ => rfl

theorem Example.threeNumbers_valid : Example.threeNumbers.Valid := by
  refine ⟨by decide, by decide, by decide, ?_⟩
  intro i hi
  match i, hi with
  | 0, _ => rfl
  | 1, _ => rfl
  | 2, _ => rfl

/-- C2. Instancing path of `dxProcessDrawQueue`: for a queue bound to a usable pipeline state
that holds `N = rest.length + 1 >= 1` recorded draw calls `c0 :: rest`, on a device that
creates and maps the shared buffer (`BackendReady`), with a non-empty parameter block
(`0 < S`), the run ends normally and issues exactly one backend draw. That draw is
`DrawInstanced(c0.count, N, c0.startVertex, 0)` when call 0 is a `Draw` and
`DrawIndexedInstanced(c0.count, N, c0.startIndex, c0.startVertex, 0)` when it is a `DrawIndexed`,
and the only geometry bound is the topology, vertex buffer and index buffer of call 0. The
calls are made in this order: the pipeline state, the calls of `setSize`, `Map` and `Unmap`,
then the topology, the vertex buffer and the index buffer of call 0, the five shader-resource
bindings, and last the draw; so the draw is issued with the geometry of call 0 bound. -/
theorem dxProcessDrawQueue_issues_one_instanced_draw {S I G : Nat} (queue : DrawQueue S I G)
    (dev : Backend) (impl : PipelineStateImpl) (c0 : DrawCall S) (rest : List (DrawCall S))
    (hS : 0 < S) (hstate : queue.state.value = some impl)
    (hready : BackendReady S impl dev (rest.length + 1))
    (hholds : queue.drawCalls.Holds (c0 :: rest)) :
    ∃ w q vf, dxProcessDrawQueue queue dev World.initial = (w, Except.ok q) ∧
      impl.vertexFormat = some vf ∧
      w.calls.filter Call.isDraw =
        [match c0.type with
          | DrawCallType.Draw =>
            Call.DrawInstanced c0.count (rest.length + 1) c0.startVertex 0
          | DrawCallType.DrawIndexed =>
            Call.DrawIndexedInstanced c0.count (rest.length + 1) c0.startIndex c0.startVertex 0] ∧
      w.calls.filter Call.isGeometryBinding =
        [Call.IASetPrimitiveTopology (MapPrimitiveTopology c0.primitiveTopology),
          Call.IASetVertexBuffers c0.vertexBuffer.value vf.stride 0,
          Call.IASetIndexBuffer c0.indexBuffer.value] ∧
      ∃ sh b, impl.shader = some sh ∧
        (resizedFor S impl (rest.length + 1) dev).1.dataBuffer = some b ∧
        w.calls = pipelineStateCalls impl vf sh ++ (resizedFor S impl (rest.length + 1) dev).2 ++
          [Call.Map (some b.id), Call.Unmap (some b.id)] ++
          [Call.IASetPrimitiveTopology (MapPrimitiveTopology c0.primitiveTopology),
            Call.IASetVertexBuffers c0.vertexBuffer.value vf.stride 0,
            Call.IASetIndexBuffer c0.indexBuffer.value] ++
          shaderResourceCalls ((resizedFor S impl (rest.length + 1) dev).1.dataView.map
            (·.id)) ++
          [match c0.type with
            | DrawCallType.Draw =>
              Call.DrawInstanced c0.count (rest.length + 1) c0.startVertex 0
            | DrawCallType.DrawIndexed =>
              Call.DrawIndexedInstanced c0.count (rest.length + 1) c0.startIndex
                c0.startVertex 0] := by
  obtain ⟨w, vf, hrun, hvf, hdraw, hgeo, _, sh, b, hsh, hb, hcalls⟩ :=
    dxProcessDrawQueue_nonempty queue dev impl c0 rest hstate hready hholds
  have hfit : S * (rest.length + 1) < UINT_MOD := hready.2.2.2.2.2.1
  have hN : (c0 :: rest).length % UINT_MOD = rest.length + 1 := by
    rw [List.length_cons]
    apply Nat.mod_eq_of_lt
    calc rest.length + 1 = 1 * (rest.length + 1) := (Nat.one_mul _).symm
      _ ≤ S * (rest.length + 1) := Nat.mul_le_mul_right _ hS
      _ < UINT_MOD := hfit
  rw [hN] at hdraw hcalls
  exact ⟨w, _, vf, hrun, hvf, hdraw, hgeo, sh, b, hsh, hb, hcalls⟩

/-- Witness of C2: the queue holding `callA` and `callB`. -/
theorem dxProcessDrawQueue_issues_one_instanced_draw_witness :
    ∃ w q vf, dxProcessDrawQueue Example.queue Example.device World.initial = (w, Except.ok q) ∧
      Example.pipelineState.vertexFormat = some vf ∧
      w.calls.filter Call.isDraw = [Call.DrawInstanced 3 2 0 0] ∧
      w.calls.filter Call.isGeometryBinding =
        [Call.IASetPrimitiveTopology 4, Call.IASetVertexBuffers 1 vf.stride 0,
          Call.IASetIndexBuffer 101] ∧
      ∃ sh b, Example.pipelineState.shader = some sh ∧
        (resizedFor 2 Example.pipelineState 2 Example.device).1.dataBuffer = some b ∧
        w.calls = pipelineStateCalls Example.pipelineState vf sh ++
          (resizedFor 2 Example.pipelineState 2 Example.device).2 ++
          [Call.Map (some b.id), Call.Unmap (some b.id)] ++
          [Call.IASetPrimitiveTopology 4, Call.IASetVertexBuffers 1 vf.stride 0,
            Call.IASetIndexBuffer 101] ++
          shaderResourceCalls ((resizedFor 2 Example.pipelineState 2 Example.device).1.dataView.map
            (·.id)) ++
          [Call.DrawInstanced 3 2 0 0] :=
  dxProcessDrawQueue_issues_one_instanced_draw Example.queue Example.device
    Example.pipelineState Example.callA [Example.callB] (by decide) rfl
    (Example.ready 2 (by decide) (by decide)) Example.twoCalls_holds

/-- C3. Packing of the parameter blobs: for a queue bound to a usable pipeline state that
holds the `N` draw calls `xs`, on a device that creates and maps the shared buffer
(`BackendReady`), the bytes `dxProcessDrawQueue` leaves in the mapped shared buffer begin with
`b0 || b1 || ... || b(N-1)`: the first `N * S` bytes are the concatenation of the parameter
bytes in recording order, and for every `i < N` the `S` bytes from offset `i * S` are those of
draw call `i`. -/
theorem dxProcessDrawQueue_packs_constants_in_order {S I G : Nat} (queue : DrawQueue S I G)
    (dev : Backend) (impl : PipelineStateImpl) (xs : List (DrawCall S))
    (hstate : queue.state.value = some impl) (hready : BackendReady S impl dev xs.length)
    (hholds : queue.drawCalls.Holds xs) :
    ∃ mem, (dxProcessDrawQueue queue dev World.initial).1.sharedBytes = some mem ∧
      mem.take (S * xs.length) = (packedConstants xs).map some ∧
      ∀ i c, xs[i]? = some c →
        (mem.drop (i * S)).take S = c.constantBufferData.val.map some := by
  obtain ⟨b, vf, sh, _, hbw, _, _, hrun⟩ :=
    dxProcessDrawQueue_run queue dev impl xs hstate hready hholds
  have hl : ((packedConstants xs).map some).length = S * xs.length := by
    rw [List.length_map, packedConstants_length, Nat.mul_comm]
  refine ⟨(packedConstants xs).map some ++ List.replicate (b.ByteWidth - S * xs.length) none,
    ?_, List.take_left' hl, ?_⟩
  · rw [hrun]
    cases queue.drawCalls.get 0 <;> rfl
  · intro i c hc
    have hi : i < xs.length := by
      rcases Nat.lt_or_ge i xs.length with h | h
      · exact h
      · rw [List.getElem?_eq_none h] at hc; cases hc
    have hbound : i * S + S ≤ ((packedConstants xs).map some).length := by
      rw [hl]
      calc i * S + S = S * (i + 1) := by rw [Nat.mul_add, Nat.mul_comm S i, Nat.mul_one]
        _ ≤ S * xs.length := Nat.mul_le_mul_left _ hi
    rw [List.drop_append_of_le_length (by omega),
      List.take_append_of_le_length (by rw [List.length_drop]; omega),
      ← List.map_drop, ← List.map_take, packedConstants_slice xs i c hc]

/-- Witness of C3: the queue holding `callA` (bytes 7, 8) and `callB` (bytes 9, 10). -/
theorem dxProcessDrawQueue_packs_constants_in_order_witness :
    ∃ mem, (dxProcessDrawQueue Example.queue Example.device World.initial).1.sharedBytes =
        some mem ∧
      mem.take (2 * 2) = (packedConstants [Example.callA, Example.callB]).map some ∧
      ∀ i c, [Example.callA, Example.callB][i]? = some c →
        (mem.drop (i * 2)).take 2 = c.constantBufferData.val.map some :=
  dxProcessDrawQueue_packs_constants_in_order Example.queue Example.device
    Example.pipelineState [Example.callA, Example.callB] rfl
    (Example.ready 2 (by decide) (by decide)) Example.twoCalls_holds

/-- Counterexample to C4: a batch of two `Draw` calls with different vertex buffers (1 and 2).
`submit` issues one draw, `DrawInstanced(3, 2, 0, 0)`, not the two independent draws
`Draw(3, 0)` and `Draw(6, 4)`, and binds only the topology, vertex buffer and index buffer of
call 0. -/
theorem submit_heterogeneous_batch_counterexample :
    (submit { value := some Example.queue } Example.device World.initial).1.calls.filter
        Call.isDraw = [Call.DrawInstanced 3 2 0 0] ∧
      [Example.callA, Example.callB].map independentDrawOf = [Call.Draw 3 0, Call.Draw 6 4] ∧
      (submit { value := some Example.queue } Example.device World.initial).1.calls.filter
        Call.isGeometryBinding =
          [Call.IASetPrimitiveTopology 4, Call.IASetVertexBuffers 1 32 0,
            Call.IASetIndexBuffer 101] ∧
      Example.callA.vertexBuffer.value = 1 ∧ Example.callB.vertexBuffer.value = 2 ∧
      (submit { value := some Example.queue } Example.device World.initial).1.calls.filter
        Call.isDraw ≠ [Example.callA, Example.callB].map independentDrawOf := by
  decide

/-- C4, as amended. For every batch of `N = rest.length + 1 >= 1` recorded draw calls, whether
or not their vertex buffers differ, `submit` on a valid queue (usable pipeline state, device
that creates and maps the shared buffer, `0 < S`) ends normally and issues exactly one backend
draw, the instanced draw of call 0 with instance count `N`; the only geometry bound is the
topology, vertex buffer and index buffer of call 0, and the vertex buffer of a later call
that differs from call 0's is never bound. The calls are made in this order: the pipeline
state, the calls of `setSize`, `Map` and `Unmap`, then the topology, the vertex buffer and the
index buffer of call 0, the five shader-resource bindings, and last the draw; so the draw is
issued bound to the vertex buffer, index buffer and topology of call 0. -/
theorem submit_issues_one_instanced_draw_for_any_batch {S I G : Nat}
    (handle : DrawQueueHandle S I G) (queue : DrawQueue S I G) (dev : Backend)
    (impl : PipelineStateImpl) (c0 : DrawCall S) (rest : List (DrawCall S)) (hS : 0 < S)
    (hhandle : handle.value = some queue) (hstate : queue.state.value = some impl)
    (hready : BackendReady S impl dev (rest.length + 1)) (hvalid : queue.drawCalls.Valid)
    (hholds : queue.drawCalls.Holds (c0 :: rest)) :
    ∃ w h vf, submit handle dev World.initial = (w, Except.ok h) ∧
      impl.vertexFormat = some vf ∧
      w.calls.filter Call.isDraw =
        [match c0.type with
          | DrawCallType.Draw =>
            Call.DrawInstanced c0.count (rest.length + 1) c0.startVertex 0
          | DrawCallType.DrawIndexed =>
            Call.DrawIndexedInstanced c0.count (rest.length + 1) c0.startIndex c0.startVertex 0] ∧
      w.calls.filter Call.isGeometryBinding =
        [Call.IASetPrimitiveTopology (MapPrimitiveTopology c0.primitiveTopology),
          Call.IASetVertexBuffers c0.vertexBuffer.value vf.stride 0,
          Call.IASetIndexBuffer c0.indexBuffer.value] ∧
      (∀ c ∈ rest, c.vertexBuffer.value ≠ c0.vertexBuffer.value →
        Call.IASetVertexBuffers c.vertexBuffer.value vf.stride 0 ∉ w.calls) ∧
      ∃ sh b, impl.shader = some sh ∧
        (resizedFor S impl (rest.length + 1) dev).1.dataBuffer = some b ∧
        w.calls = pipelineStateCalls impl vf sh ++ (resizedFor S impl (rest.length + 1) dev).2 ++
          [Call.Map (some b.id), Call.Unmap (some b.id)] ++
          [Call.IASetPrimitiveTopology (MapPrimitiveTopology c0.primitiveTopology),
            Call.IASetVertexBuffers c0.vertexBuffer.value vf.stride 0,
            Call.IASetIndexBuffer c0.indexBuffer.value] ++
          shaderResourceCalls ((resizedFor S impl (rest.length + 1) dev).1.dataView.map
            (·.id)) ++
          [match c0.type with
            | DrawCallType.Draw =>
              Call.DrawInstanced c0.count (rest.length + 1) c0.startVertex 0
            | DrawCallType.DrawIndexed =>
              Call.DrawIndexedInstanced c0.count (rest.length + 1) c0.startIndex
                c0.startVertex 0] := by
  obtain ⟨w, vf, hrun, hvf, hdraw, hgeo, _, sh, b, hsh, hb, hcalls⟩ :=
    dxProcessDrawQueue_nonempty queue dev impl c0 rest hstate hready hholds
  have hfit : S * (rest.length + 1) < UINT_MOD := hready.2.2.2.2.2.1
  have hN : (c0 :: rest).length % UINT_MOD = rest.length + 1 := by
    rw [List.length_cons]
    apply Nat.mod_eq_of_lt
    calc rest.length + 1 = 1 * (rest.length + 1) := (Nat.one_mul _).symm
      _ ≤ S * (rest.length + 1) := Nat.mul_le_mul_right _ hS
      _ < UINT_MOD := hfit
  rw [hN] at hdraw hcalls
  obtain ⟨cleared, hcleared⟩ := DynamicArray.Clear_ok hvalid
  have hclear : ∃ q2, (processedQueue queue impl
      (resizedFor S impl (c0 :: rest).length dev).1).clear = some q2 := by
    simp only [DrawQueue.clear, processedQueue, hcleared]
    exact ⟨_, rfl⟩
  obtain ⟨q2, hq2⟩ := hclear
  have hsubmit : submit handle dev World.initial = (w, Except.ok { value := some q2 }) := by
    unfold submit
    rw [hhandle]
    simp only []
    rw [Run.bind_ok hrun, hq2]
    rfl
  refine ⟨w, _, vf, hsubmit, hvf, hdraw, hgeo, ?_, sh, b, hsh, hb, hcalls⟩
  intro c _ hne hmem
  have hin : Call.IASetVertexBuffers c.vertexBuffer.value vf.stride 0 ∈
      w.calls.filter Call.isGeometryBinding := by
    rw [List.mem_filter]
    exact ⟨hmem, rfl⟩
  rw [hgeo] at hin
  simp only [geometryOf, List.mem_cons, List.mem_singleton, List.not_mem_nil, or_false] at hin
  rcases hin with h | h | h
  · cases h
  · injection h with h1 _ _
    exact hne h1
  · cases h

/-- Witness of the amended C4: the queue holding `callA` (vertex buffer 1) and `callB` (vertex
buffer 2). -/
theorem submit_issues_one_instanced_draw_for_any_batch_witness :
    ∃ w h vf, submit { value := some Example.queue } Example.device World.initial =
        (w, Except.ok h) ∧
      Example.pipelineState.vertexFormat = some vf ∧
      w.calls.filter Call.isDraw = [Call.DrawInstanced 3 2 0 0] ∧
      w.calls.filter Call.isGeometryBinding =
        [Call.IASetPrimitiveTopology 4, Call.IASetVertexBuffers 1 vf.stride 0,
          Call.IASetIndexBuffer 101] ∧
      (∀ c ∈ [Example.callB], c.vertexBuffer.value ≠ Example.callA.vertexBuffer.value →
        Call.IASetVertexBuffers c.vertexBuffer.value vf.stride 0 ∉ w.calls) ∧
      ∃ sh b, Example.pipelineState.shader = some sh ∧
        (resizedFor 2 Example.pipelineState 2 Example.device).1.dataBuffer = some b ∧
        w.calls = pipelineStateCalls Example.pipelineState vf sh ++
          (resizedFor 2 Example.pipelineState 2 Example.device).2 ++
          [Call.Map (some b.id), Call.Unmap (some b.id)] ++
          [Call.IASetPrimitiveTopology 4, Call.IASetVertexBuffers 1 vf.stride 0,
            Call.IASetIndexBuffer 101] ++
          shaderResourceCalls ((resizedFor 2 Example.pipelineState 2 Example.device).1.dataView.map
            (·.id)) ++
          [Call.DrawInstanced 3 2 0 0] :=
  submit_issues_one_instanced_draw_for_any_batch { value := some Example.queue } Example.queue
    Example.device Example.pipelineState Example.callA [Example.callB] (by decide) rfl rfl
    (Example.ready 2 (by decide) (by decide)) Example.twoCalls_valid Example.twoCalls_holds

/-- C5, the code at the failing input. `submit` on a valid queue with zero recorded draw calls
is not a no-op: it binds the pipeline state, calls `Map` and `Unmap` on the shared buffer
(a null pointer, as no buffer was ever created), and then reads `getDrawCalls()[0]`, a slot
that holds no record, which ends the run in undefined behaviour. -/
theorem submit_empty_queue_maps_and_reads_call_zero :
    (submit { value := some Example.emptyQueue } Example.device World.initial).1 =
      { calls := [Call.RSSetState 1, Call.OMSetBlendState 2, Call.OMSetDepthStencilState 3 0,
          Call.IASetInputLayout 20, Call.VSSetShader 11, Call.HSSetShader 12,
          Call.DSSetShader 13, Call.GSSetShader 14, Call.PSSetShader 15, Call.Map none,
          Call.Unmap none],
        sharedBytes := none } ∧
      (submit { value := some Example.emptyQueue } Example.device World.initial).2 =
        Except.error (Fault.readOutsideLifetime 0) ∧
      Example.emptyQueue.drawCalls.GetSize = 0 :=
  ⟨rfl, rfl, rfl⟩

/-- C6. Stable removal: for every valid array state and every `index < size`, `Remove(index)`
succeeds; afterwards the element at each position `i < index` is unchanged and the element at
each position `i` with `index <= i < size - 1` is the element formerly at position `i + 1`. -/
theorem DynamicArray_Remove_preserves_order {T : Type} {I G : Nat} (a : DynamicArray T I G)
    (index : Nat) (hv : a.Valid) (hindex : index < a.size) :
    ∃ a2, a.Remove index = some a2 ∧
      (∀ i, i < index → a2.get i = a.get i) ∧
      (∀ i, index ≤ i → i + 1 < a.size →
        ∃ v, a.get (i + 1) = some v ∧ a2.get i = some v) := by
  obtain ⟨hsc, hcl, _, hlive⟩ := hv
  obtain ⟨v0, hv0⟩ := Option.isSome_iff_exists.mp (hlive index hindex)
  have hlen : a.size ≤ a.storage.length := by omega
  obtain ⟨s2, hs2, _, hlow, hmid, _⟩ :=
    DynamicArray.shiftLeft_spec (a.size - (index + 1)) index (a.storage.set index none)
      (by rw [List.length_set]; omega)
      (fun j h1 h2 => by
        obtain ⟨u, hu⟩ := Option.isSome_iff_exists.mp (hlive j (by omega))
        refine ⟨u, ?_⟩
        rw [List.getElem?_set_ne (by omega)]
        exact DynamicArray.readLive_eq_some.mp hu)
  have hv0r : DynamicArray.readLive a.storage index = some v0 := hv0
  refine ⟨a.setStorage s2, by simp only [DynamicArray.Remove, hindex, if_true, hv0r, hs2],
    ?_, ?_⟩
  · intro i hi
    unfold DynamicArray.get
    rw [DynamicArray.storage_setStorage]
    exact DynamicArray.readLive_congr (by rw [hlow i hi, List.getElem?_set_ne (by omega)])
  · intro i h1 h2
    obtain ⟨u, hu⟩ := Option.isSome_iff_exists.mp (hlive (i + 1) h2)
    refine ⟨u, hu, ?_⟩
    rw [← hu]
    unfold DynamicArray.get
    rw [DynamicArray.storage_setStorage]
    exact DynamicArray.readLive_congr
      (by rw [hmid i h1 (by omega), List.getElem?_set_ne (by omega)])

/-- Witness of C6: `Remove(1)` on the array holding 5, 6, 7. -/
theorem DynamicArray_Remove_preserves_order_witness :
    ∃ a2, Example.threeNumbers.Remove 1 = some a2 ∧
      (∀ i, i < 1 → a2.get i = Example.threeNumbers.get i) ∧
      (∀ i, 1 ≤ i → i + 1 < Example.threeNumbers.size →
        ∃ v, Example.threeNumbers.get (i + 1) = some v ∧ a2.get i = some v) :=
  DynamicArray_Remove_preserves_order Example.threeNumbers 1 Example.threeNumbers_valid
    (by decide)

/-- C8. Reuse of the backend storage: for every buffer state and every `newSize` not above
`dataBufferSize`, `setSize(newSize, n)` makes no backend call (no `Release`, no `CreateBuffer`,
no `CreateShaderResourceView`) and returns the state unchanged (`dataBuffer`, `dataView` and
`dataBufferSize` included), whatever the device would answer. -/
theorem setSize_reuses_storage (S : Nat) (cb : DXSharedConstantBuffer) (newSize n : Nat)
    (dev : Backend) (h : newSize ≤ cb.dataBufferSize) :
    DXSharedConstantBuffer.setSize S cb newSize n dev = (cb, []) := by
  unfold DXSharedConstantBuffer.setSize
  have : ¬ newSize > cb.dataBufferSize := by omega
  simp only [this, if_false]

/-- Witness of C8: a 48-byte buffer asked for 16 bytes. -/
theorem setSize_reuses_storage_witness :
    DXSharedConstantBuffer.setSize 16
        { dataBuffer := some { id := 50, ByteWidth := 48 }, dataView := some { id := 51 },
          dataBufferSize := 48 } 16 1 Example.device =
      ({ dataBuffer := some { id := 50, ByteWidth := 48 }, dataView := some { id := 51 },
          dataBufferSize := 48 }, []) :=
  setSize_reuses_storage 16
    { dataBuffer := some { id := 50, ByteWidth := 48 }, dataView := some { id := 51 },
      dataBufferSize := 48 } 16 1 Example.device (by decide)

/-- C9. Atomic creation of a pipeline state: for every descriptor and every outcome `r`, `b`,
`d` of the three creations (rasterizer, blend, depth/stencil, in this order; `none` is a
failure). If the rasterizer creation fails, the invalid handle is returned after that single
call. If the blend creation fails, the invalid handle is returned, no depth/stencil creation
is attempted and exactly the rasterizer state is released. If the depth/stencil creation
fails, the invalid handle is returned and exactly the rasterizer state and the blend state are
released. If all three succeed, a valid handle holding the three objects is returned and
nothing is released. -/
theorem createPipelineState_all_or_nothing (desc : PipelineStateDescriptor)
    (r b d : Option Nat) :
    match r, b, d with
    | none, _, _ =>
      createPipelineState desc ⟨r, b, d⟩ World.initial =
        ({ calls := [Call.CreateRasterizerState desc.rasterizerState], sharedBytes := none },
          Except.ok PipelineStateHandle.invalidHandle)
    | some rs, none, _ =>
      createPipelineState desc ⟨r, b, d⟩ World.initial =
        ({ calls := [Call.CreateRasterizerState desc.rasterizerState,
              Call.CreateBlendState desc.blendState, Call.Release rs], sharedBytes := none },
          Except.ok PipelineStateHandle.invalidHandle)
    | some rs, some bs, none =>
      createPipelineState desc ⟨r, b, d⟩ World.initial =
        ({ calls := [Call.CreateRasterizerState desc.rasterizerState,
              Call.CreateBlendState desc.blendState,
              Call.CreateDepthStencilState desc.depthStencilState, Call.Release rs,
              Call.Release bs], sharedBytes := none },
          Except.ok PipelineStateHandle.invalidHandle)
    | some rs, some bs, some ds =>
      (createPipelineState desc ⟨r, b, d⟩ World.initial).1.calls =
          [Call.CreateRasterizerState desc.rasterizerState,
            Call.CreateBlendState desc.blendState,
            Call.CreateDepthStencilState desc.depthStencilState] ∧
        ∃ impl, (createPipelineState desc ⟨r, b, d⟩ World.initial).2 =
            Except.ok { value := some impl } ∧
          impl.rasterizerState = rs ∧ impl.blendState = bs ∧ impl.depthStencilState = ds := by
  cases r with
  | none => simp [createPipelineState, Run.bind_apply, Run.emit_apply, Run.ret_apply, World.initial]
  | some rs =>
    cases b with
    | none =>
      simp [createPipelineState, Run.bind_apply, Run.emit_apply, Run.ret_apply, World.initial]
    | some bs =>
      cases d with
      | none =>
        simp [createPipelineState, Run.bind_apply, Run.emit_apply, Run.ret_apply, World.initial]
      | some ds =>
        simp [createPipelineState, Run.bind_apply, Run.emit_apply, Run.ret_apply, World.initial]

end sgfx

/-- C10. Ownership wrapper: for every wrapper constructed holding `h0`, assigned the handles
`hs = [h1, ..., hk]` with `operator=(T)` and then destroyed, the handles passed to the release
operation are exactly `h0, h1, ..., hk` in this order, `k + 1` calls in all. Each assignment
releases the handle held before it, once, and stores the new one; destruction releases the
handle held last; and every handle is released exactly as often as it was stored. -/
theorem iGfxObject_releases_every_held_handle_once {T : Type} [DecidableEq T] (h0 : T)
    (hs : List T) :
    iGfxObject.lifetime h0 hs = h0 :: hs ∧
      (iGfxObject.lifetime h0 hs).length = hs.length + 1 ∧
      (∀ (w : iGfxObject T) (h : T),
        w.assign h = ({ gfxObject := h }, [w.gfxObject]) ∧ w.destroy = [w.gfxObject]) ∧
      ∀ h, (iGfxObject.lifetime h0 hs).count h = (h0 :: hs).count h := by
  have hlife : iGfxObject.lifetime h0 hs = h0 :: hs := by
    unfold iGfxObject.lifetime
    rw [iGfxObject.assignAll_spec]
    simp [iGfxObject.create]
  refine ⟨hlife, by rw [hlife]; simp, fun w h => ⟨rfl, rfl⟩, fun h => by rw [hlife]⟩

namespace sgfx

open internal

theorem Example.heapNumbers_recorded :
    DynamicArray.appendAll (DynamicArray.new : DynamicArray Nat 2 3)
      [(false, 1), (false, 2), (false, 3)] = some Example.heapNumbers := rfl

theorem Example.heapNumbers_live :
    ∀ i, i < Example.heapNumbers.size → (Example.heapNumbers.get i).isSome = true := by
  intro i hi
  match i, hi with
  | 0, _ => rfl
  | 1, _ => rfl
  | 2, _ => rfl

theorem Example.queueC_holds :
    Example.queueC.drawCalls.Holds [Example.callA, Example.callC] := by
  refine ⟨rfl, ?_⟩
  intro i hi
  match i, hi with
  | 0, _ => rfl
  | 1, _ => rfl

/-- C11, the code at the failing inputs. A freshly constructed `DynamicArray<Nat, 4, 1>` has
capacity 4; `Reserve(5)` on it calls `Grow(5 - 4)`, which sets the capacity to
`size + 1 = 1`: the capacity goes down from 4 to 1. `Grow(0)` on the same array after one
`Add` sets the capacity to `size + 0 = 1` as well. -/
theorem Reserve_and_Grow_lower_the_capacity :
    (DynamicArray.new : DynamicArray Nat 4 1).GetCapacity = 4 ∧
    ((DynamicArray.new : DynamicArray Nat 4 1).Reserve 5).map DynamicArray.GetCapacity =
      some 1 ∧
    (((DynamicArray.new : DynamicArray Nat 4 1).Add 7).map DynamicArray.GetCapacity = some 4 ∧
      (((DynamicArray.new : DynamicArray Nat 4 1).Add 7).bind
        (fun a => a.Grow 0)).map DynamicArray.GetCapacity = some 1) := by
  decide

/-- C12, the code at the failing inputs. `Reserve(5)` on a freshly constructed
`DynamicArray<Nat, 4, 1>` leaves capacity 1, below the 5 asked for. `Reserve(10)` on the
`DynamicArray<Nat, 2, 3>` holding one element (size 1, capacity 2) allocates a block of 9
slots and leaves capacity 9, below the 10 asked for; size and the element are unchanged. -/
theorem Reserve_leaves_capacity_below_the_request :
    ((DynamicArray.new : DynamicArray Nat 4 1).Reserve 5).map
      (fun a => (a.GetCapacity, a.GetSize)) = some (1, 0) ∧
    (((DynamicArray.new : DynamicArray Nat 2 3).Add 7).map
      (fun a => (a.GetCapacity, a.GetSize, a.get 0))) = some (2, 1, some 7) ∧
    ((((DynamicArray.new : DynamicArray Nat 2 3).Add 7).bind (fun a => a.Reserve 10)).map
      (fun a => (a.GetCapacity, a.storage.length, a.GetSize, a.get 0))) =
        some (9, 9, 1, some 7) := by
  decide

/-- C14. `Clear` on an array whose slots below `size` hold live elements succeeds; afterwards
`GetSize()` is 0, `GetCapacity()` is unchanged, the storage in use is the same (inline before
and after, or the same heap block), and the allocator was not called: no `Free`, no
`Allocate`. -/
theorem DynamicArray_Clear_keeps_capacity_and_storage {T : Type} {I G : Nat}
    (a : DynamicArray T I G) (hlive : ∀ i, i < a.size → (a.get i).isSome = true) :
    ∃ a2, a.Clear = some a2 ∧ a2.GetSize = 0 ∧ a2.GetCapacity = a.GetCapacity ∧
      a2.heap.map (·.id) = a.heap.map (·.id) ∧ a2.freed = a.freed ∧
      a2.allocations = a.allocations := by
  obtain ⟨s2, hs2⟩ := DynamicArray.destroyRange_ok a.size 0 a.storage
    (fun j _ h2 => hlive j (by omega))
  obtain ⟨e1, e2, e3⟩ := DynamicArray.heap_setStorage a s2
  exact ⟨{ a.setStorage s2 with size := 0 }, by simp only [DynamicArray.Clear, hs2], rfl,
    by simp [DynamicArray.GetCapacity], e1, e3, e2⟩

/-- Witness of C14: `Clear` on the heap-backed array holding 1, 2, 3. -/
theorem DynamicArray_Clear_keeps_capacity_and_storage_witness :
    ∃ a2, Example.heapNumbers.Clear = some a2 ∧ a2.GetSize = 0 ∧
      a2.GetCapacity = Example.heapNumbers.GetCapacity ∧
      a2.heap.map (·.id) = Example.heapNumbers.heap.map (·.id) ∧
      a2.freed = Example.heapNumbers.freed ∧
      a2.allocations = Example.heapNumbers.allocations :=
  DynamicArray_Clear_keeps_capacity_and_storage Example.heapNumbers Example.heapNumbers_live

/-- C15. `Purge` on an array whose slots below `size` hold live elements succeeds and leaves
the state of a freshly constructed array: size 0, capacity `I`, storage the inline buffer. A
heap block that was in use has been passed to `Free` exactly once (its identity is the one
entry added to the list of freed blocks); when the storage was already inline `Free` is not
called. -/
theorem DynamicArray_Purge_returns_to_fresh_state {T : Type} {I G : Nat}
    (a : DynamicArray T I G) (hlive : ∀ i, i < a.size → (a.get i).isSome = true) :
    ∃ a2, a.Purge = some a2 ∧ a2.GetSize = 0 ∧ a2.GetCapacity = I ∧ a2.heap = none ∧
      a2.GetSize = (DynamicArray.new : DynamicArray T I G).GetSize ∧
      a2.GetCapacity = (DynamicArray.new : DynamicArray T I G).GetCapacity ∧
      a2.heap = (DynamicArray.new : DynamicArray T I G).heap ∧
      (∀ b, a.heap = some b → a2.freed = a.freed ++ [b.id]) ∧
      (a.heap = none → a2.freed = a.freed) := by
  obtain ⟨s2, hs2⟩ := DynamicArray.destroyRange_ok a.size 0 a.storage
    (fun j _ h2 => hlive j (by omega))
  have hclear : a.Clear = some { a.setStorage s2 with size := 0 } := by
    simp only [DynamicArray.Clear, hs2]
  have hp : a.Purge = some ({ DynamicArray.DeleteContents
      ({ a.setStorage s2 with size := 0 } : DynamicArray T I G) with
        size := 0, capacity := I } : DynamicArray T I G) := by
    simp only [DynamicArray.Purge, hclear]
  refine ⟨_, hp, rfl, rfl, ?_, rfl, rfl, ?_, ?_, ?_⟩
  · cases hh : a.heap <;> simp [DynamicArray.DeleteContents, DynamicArray.setStorage, hh]
  · cases hh : a.heap <;>
      simp [DynamicArray.DeleteContents, DynamicArray.setStorage, hh, DynamicArray.new]
  · intro b hb
    simp [DynamicArray.DeleteContents, DynamicArray.setStorage, hb]
  · intro hh
    simp [DynamicArray.DeleteContents, DynamicArray.setStorage, hh]

/-- Witness of C15: `Purge` on the heap-backed array holding 1, 2, 3. -/
theorem DynamicArray_Purge_returns_to_fresh_state_witness :
    ∃ a2, Example.heapNumbers.Purge = some a2 ∧ a2.GetSize = 0 ∧ a2.GetCapacity = 2 ∧
      a2.heap = none ∧
      a2.GetSize = (DynamicArray.new : DynamicArray Nat 2 3).GetSize ∧
      a2.GetCapacity = (DynamicArray.new : DynamicArray Nat 2 3).GetCapacity ∧
      a2.heap = (DynamicArray.new : DynamicArray Nat 2 3).heap ∧
      (∀ b, Example.heapNumbers.heap = some b →
        a2.freed = Example.heapNumbers.freed ++ [b.id]) ∧
      (Example.heapNumbers.heap = none → a2.freed = Example.heapNumbers.freed) :=
  DynamicArray_Purge_returns_to_fresh_state Example.heapNumbers Example.heapNumbers_live

/-- C16, the code at the failing input: the `DynamicArray<ptrdiff_t, 3, 1>` holding 5, 6, 7
and the call `Remove(e)` with the `ptrdiff_t` object `e = 6`. `Find(6)` returns 1 and the
member calls `Remove(index)` with `index = 1`, which names `Remove(const T&)` again; there
`Find(1)` returns -1, and the array is left as it was, 6 still at index 1, whereas
`Remove(size_t(1))` leaves 5, 7. On the array holding the one element 0, `Remove(e)` with
`e = 0` finds index 0 and calls itself with the element 0 again, without end. -/
theorem RemoveElement_on_ptrdiff_elements_calls_itself :
    Example.threeOffsets.Find 6 = some 1 ∧
    Example.threeOffsets.Find 1 = some (-1) ∧
    (∀ depth, Example.threeOffsets.RemoveElement (DynamicArray.RemoveOverload.toElement id)
      (depth + 1) 6 = some Example.threeOffsets) ∧
    Example.threeOffsets.get 1 = some 6 ∧
    (Example.threeOffsets.Remove 1).map (fun a => (a.get 0, a.get 1, a.get 2)) =
      some (some 5, some 7, none) ∧
    Example.zeroOffset.Find 0 = some 0 ∧
    (∀ depth, Example.zeroOffset.RemoveElement (DynamicArray.RemoveOverload.toElement id)
      depth 0 = none) := by
  have h6 : Example.threeOffsets.Find 6 = some 1 := by decide
  have h1 : Example.threeOffsets.Find 1 = some (-1) := by decide
  have h0 : Example.zeroOffset.Find 0 = some 0 := by decide
  refine ⟨h6, h1, fun depth => ?_, by decide, by decide, h0, fun depth => ?_⟩
  · unfold DynamicArray.RemoveElement
    rw [h6]
    simp only [id]
    unfold DynamicArray.RemoveElement
    rw [h1]
    rfl
  · induction depth with
    | zero =>
      unfold DynamicArray.RemoveElement
      rw [h0]
      rfl
    | succ depth ih =>
      unfold DynamicArray.RemoveElement
      rw [h0]
      exact ih

/-- C17. Every public operation that takes a handle of the resource it acts on (the eleven
`release*` functions, `dispatchComputeShader`, `updateTransientBuffer`, `setPrimitiveTopology`,
`setVertexBuffer`, `setIndexBuffer`, `setConstants`, `draw`, `drawIndexed`, `submit`), called
with the invalid handle and any other arguments, from any world: it ends normally and leaves
the world as it was (no backend call, no `Release`, no `delete`), also when it is repeated
`n` times; the queue operations give back the invalid handle. -/
theorem invalid_handle_operations_do_nothing (S I G : Nat) (op : HandleOperation) (n : Nat)
    (w : World) :
    op.callInvalid S I G w = (w, Except.ok ()) ∧
    Run.times (op.callInvalid S I G) n w = (w, Except.ok ()) ∧
    (∀ topology, setPrimitiveTopology (DrawQueueHandle.invalidHandle : DrawQueueHandle S I G)
      topology w = (w, Except.ok DrawQueueHandle.invalidHandle)) ∧
    (∀ vb, setVertexBuffer (DrawQueueHandle.invalidHandle : DrawQueueHandle S I G) vb w =
      (w, Except.ok DrawQueueHandle.invalidHandle)) ∧
    (∀ ib, setIndexBuffer (DrawQueueHandle.invalidHandle : DrawQueueHandle S I G) ib w =
      (w, Except.ok DrawQueueHandle.invalidHandle)) ∧
    (∀ idx constantsData constantsSize,
      setConstants (DrawQueueHandle.invalidHandle : DrawQueueHandle S I G) idx constantsData
        constantsSize w = (w, Except.ok DrawQueueHandle.invalidHandle)) ∧
    (∀ count startVertex,
      draw (DrawQueueHandle.invalidHandle : DrawQueueHandle S I G) count startVertex w =
        (w, Except.ok DrawQueueHandle.invalidHandle)) ∧
    (∀ count startIndex startVertex,
      drawIndexed (DrawQueueHandle.invalidHandle : DrawQueueHandle S I G) count startIndex
        startVertex w = (w, Except.ok DrawQueueHandle.invalidHandle)) ∧
    (∀ dev, submit (DrawQueueHandle.invalidHandle : DrawQueueHandle S I G) dev w =
      (w, Except.ok DrawQueueHandle.invalidHandle)) := by
  have h1 : op.callInvalid S I G w = (w, Except.ok ()) := by
    cases op <;> rfl
  exact ⟨h1, Run.times_of_unchanged _ w h1 n, fun _ => rfl, fun _ => rfl, fun _ => rfl,
    fun _ _ _ => rfl, fun _ _ => rfl, fun _ _ _ => rfl, fun _ => rfl⟩

/-- C18, the code at the failing inputs. `submit` of the queue holding `callA` and `callB`:
on a device that fails `CreateBuffer`, it goes on to call `Map` on the buffer pointer that was
not filled (null here) and to copy the parameter bytes through the pointer `Map` did not set,
which is undefined behaviour; on a device that creates the buffer and fails
`CreateShaderResourceView`, it maps and fills the buffer, binds the view pointer that was not
filled (null here) to the five shader stages, issues the draw and ends normally. No error
reaches the caller in either case. -/
theorem submit_goes_on_after_failed_buffer_creation :
    (submit { value := some Example.queue } Example.deviceWithoutBuffer World.initial).1 =
      { calls := [Call.RSSetState 1, Call.OMSetBlendState 2, Call.OMSetDepthStencilState 3 0,
          Call.IASetInputLayout 20, Call.VSSetShader 11, Call.HSSetShader 12,
          Call.DSSetShader 13, Call.GSSetShader 14, Call.PSSetShader 15,
          Call.CreateBuffer 4 2, Call.Map none],
        sharedBytes := none } ∧
    faultOf (submit { value := some Example.queue } Example.deviceWithoutBuffer
      World.initial).2 = some Fault.wildWrite ∧
    (submit { value := some Example.queue } Example.deviceWithoutView World.initial).1 =
      { calls := [Call.RSSetState 1, Call.OMSetBlendState 2, Call.OMSetDepthStencilState 3 0,
          Call.IASetInputLayout 20, Call.VSSetShader 11, Call.HSSetShader 12,
          Call.DSSetShader 13, Call.GSSetShader 14, Call.PSSetShader 15,
          Call.CreateBuffer 4 2, Call.CreateShaderResourceView 50 2, Call.Map (some 50),
          Call.Unmap (some 50), Call.IASetPrimitiveTopology 4, Call.IASetVertexBuffers 1 32 0,
          Call.IASetIndexBuffer 101, Call.VSSetShaderResources none,
          Call.HSSetShaderResources none, Call.DSSetShaderResources none,
          Call.GSSetShaderResources none, Call.PSSetShaderResources none,
          Call.DrawInstanced 3 2 0 0],
        sharedBytes := some [some 7, some 8, some 9, some 10] } ∧
    faultOf (submit { value := some Example.queue } Example.deviceWithoutView
      World.initial).2 = none := by
  decide

/-- C19. Non-interference of the later calls' geometry: two queues bound to the same pipeline
state whose batches have the same length `N >= 1`, the same draw call 0 and the same parameter
bytes in every call. On the same device answers and from the same world `dxProcessDrawQueue`
makes the same sequence of backend calls with the same arguments (it leaves the same world)
and ends the same way, whatever the kind, count, offsets, vertex buffer, index buffer and
topology of calls `1..N-1` are. -/
theorem dxProcessDrawQueue_depends_on_call_zero_and_bytes_only {S I G : Nat}
    (q1 q2 : DrawQueue S I G) (dev : Backend) (c0 : DrawCall S)
    (rest1 rest2 : List (DrawCall S)) (w : World) (hstate : q1.state = q2.state)
    (h1 : q1.drawCalls.Holds (c0 :: rest1)) (h2 : q2.drawCalls.Holds (c0 :: rest2))
    (hbytes : rest1.map (·.constantBufferData) = rest2.map (·.constantBufferData)) :
    (dxProcessDrawQueue q1 dev w).1.calls = (dxProcessDrawQueue q2 dev w).1.calls ∧
      (dxProcessDrawQueue q1 dev w).1 = (dxProcessDrawQueue q2 dev w).1 ∧
      faultOf (dxProcessDrawQueue q1 dev w).2 = faultOf (dxProcessDrawQueue q2 dev w).2 := by
  have hlen : rest1.length = rest2.length := by
    have := congrArg List.length hbytes
    simpa using this
  have hsize : q1.drawCalls.GetSize = q2.drawCalls.GetSize := by
    rw [h1.1, h2.1, List.length_cons, List.length_cons, hlen]
  have hN : q2.drawCalls.GetSize = rest2.length + 1 := h2.1
  have hcopy : copyConstants q1.drawCalls 0 q2.drawCalls.GetSize =
      copyConstants q2.drawCalls 0 q2.drawCalls.GetSize := by
    apply copyConstants_congr
    intro j _ hj
    rw [hN, Nat.zero_add] at hj
    cases j with
    | zero =>
      exact ⟨c0, c0, by simpa using h1.2 0 (by simp), by simpa using h2.2 0 (by simp), rfl⟩
    | succ j =>
      have hj1 : j < rest1.length := by omega
      have hj2 : j < rest2.length := by omega
      refine ⟨rest1[j], rest2[j], ?_, ?_, ?_⟩
      · have := h1.2 (j + 1) (by simp; omega)
        simpa [List.getElem?_eq_getElem hj1] using this
      · have := h2.2 (j + 1) (by simp; omega)
        simpa [List.getElem?_eq_getElem hj2] using this
      · have e := congrArg (fun l => l[j]?) hbytes
        simpa [List.getElem?_map, List.getElem?_eq_getElem hj1,
          List.getElem?_eq_getElem hj2] using e
  have hr1 : readDrawCall q1.drawCalls 0 = Run.ret c0 := by
    have : q1.drawCalls.get 0 = some c0 := by simpa using h1.2 0 (by simp)
    simp [readDrawCall, this]
  have hr2 : readDrawCall q2.drawCalls 0 = Run.ret c0 := by
    have : q2.drawCalls.get 0 = some c0 := by simpa using h2.2 0 (by simp)
    simp [readDrawCall, this]
  have hsame : SameEffect (dxProcessDrawQueue q1 dev) (dxProcessDrawQueue q2 dev) := by
    unfold dxProcessDrawQueue
    simp only [DrawQueue.getState, DrawQueue.getDrawCalls, hstate, hsize, hcopy, hr1, hr2]
    repeat (with_reducible apply SameEffect_bind; intro _)
    split <;> (repeat (with_reducible apply SameEffect_bind; intro _)) <;>
      exact SameEffect_ret _ _
  exact ⟨congrArg World.calls (hsame w).1, (hsame w).1, (hsame w).2⟩

/-- Witness of C19: the queues holding `callA, callB` and `callA, callC`; `callB` and `callC`
differ in kind, topology, buffers, count and offsets and carry the same parameter bytes. -/
theorem dxProcessDrawQueue_depends_on_call_zero_and_bytes_only_witness :
    (dxProcessDrawQueue Example.queue Example.device World.initial).1.calls =
        (dxProcessDrawQueue Example.queueC Example.device World.initial).1.calls ∧
      (dxProcessDrawQueue Example.queue Example.device World.initial).1 =
        (dxProcessDrawQueue Example.queueC Example.device World.initial).1 ∧
      faultOf (dxProcessDrawQueue Example.queue Example.device World.initial).2 =
        faultOf (dxProcessDrawQueue Example.queueC Example.device World.initial).2 :=
  dxProcessDrawQueue_depends_on_call_zero_and_bytes_only Example.queue Example.queueC
    Example.device Example.callA [Example.callB] [Example.callC] World.initial rfl
    Example.twoCalls_holds Example.queueC_holds rfl

/-- C20. `submit` on a valid queue clears it and keeps its capacity. The member `clear()` of
the absent `DrawQueue` is modelled from the spec as `Clear()` of the draw-call container.
First part: for a queue bound to a usable pipeline state that holds `N >= 1` valid draw
calls, on a device that creates and maps the shared buffer, `submit` ends normally and the
queue it leaves has zero recorded draw calls and the capacity it had before. Second part: on
any device answers and from any world, whenever `submit` ends normally the queue it leaves has
zero recorded draw calls and the capacity it had before. -/
theorem submit_clears_the_queue_and_keeps_capacity {S I G : Nat}
    (handle : DrawQueueHandle S I G) (queue : DrawQueue S I G) (dev : Backend)
    (impl : PipelineStateImpl) (c0 : DrawCall S) (rest : List (DrawCall S))
    (hhandle : handle.value = some queue) (hstate : queue.state.value = some impl)
    (hready : BackendReady S impl dev (rest.length + 1)) (hvalid : queue.drawCalls.Valid)
    (hholds : queue.drawCalls.Holds (c0 :: rest)) :
    (∃ w h q2, submit handle dev World.initial = (w, Except.ok h) ∧ h.value = some q2 ∧
      q2.getDrawCalls.GetSize = 0 ∧
      q2.getDrawCalls.GetCapacity = queue.getDrawCalls.GetCapacity) ∧
    (∀ (dev2 : Backend) (w0 w : World) (h : DrawQueueHandle S I G),
      submit handle dev2 w0 = (w, Except.ok h) →
      ∃ q2, h.value = some q2 ∧ q2.getDrawCalls.GetSize = 0 ∧
        q2.getDrawCalls.GetCapacity = queue.getDrawCalls.GetCapacity) := by
  have hgeneral : ∀ (dev2 : Backend) (w0 w : World) (h : DrawQueueHandle S I G),
      submit handle dev2 w0 = (w, Except.ok h) →
      ∃ q2, h.value = some q2 ∧ q2.getDrawCalls.GetSize = 0 ∧
        q2.getDrawCalls.GetCapacity = queue.getDrawCalls.GetCapacity := by
    intro dev2 w0 w h hrun
    unfold submit at hrun
    rw [hhandle] at hrun
    simp only [] at hrun
    obtain ⟨processed, w1, hproc, hrest⟩ := Run.ok_bind_inv hrun
    have hsame : processed.drawCalls = queue.drawCalls :=
      dxProcessDrawQueue_keeps_drawCalls queue dev2 w0 w1 processed hproc
    cases hc : processed.clear with
    | none =>
      rw [hc] at hrest
      simp [Run.fault] at hrest
    | some cleared =>
      rw [hc] at hrest
      simp only [Run.ret_apply, Prod.mk.injEq, Except.ok.injEq] at hrest
      obtain ⟨_, hh⟩ := hrest
      subst hh
      unfold DrawQueue.clear at hc
      cases hcl : processed.drawCalls.Clear with
      | none => rw [hcl] at hc; cases hc
      | some calls =>
        rw [hcl] at hc
        simp only [Option.some.injEq] at hc
        subst hc
        obtain ⟨e1, e2⟩ := Clear_result hcl
        rw [hsame] at e2
        exact ⟨_, rfl, e1, e2⟩
  refine ⟨?_, hgeneral⟩
  obtain ⟨w, vf, hrun, _⟩ :=
    dxProcessDrawQueue_nonempty queue dev impl c0 rest hstate hready hholds
  obtain ⟨cleared, hcleared⟩ := DynamicArray.Clear_ok hvalid
  have hclear : ∃ q2, (processedQueue queue impl
      (resizedFor S impl (c0 :: rest).length dev).1).clear = some q2 := by
    simp only [DrawQueue.clear, processedQueue, hcleared]
    exact ⟨_, rfl⟩
  obtain ⟨q2, hq2⟩ := hclear
  have hsubmit : submit handle dev World.initial = (w, Except.ok { value := some q2 }) := by
    unfold submit
    rw [hhandle]
    simp only []
    rw [Run.bind_ok hrun, hq2]
    rfl
  obtain ⟨q3, hq3, hs, hcap⟩ := hgeneral dev World.initial w _ hsubmit
  exact ⟨w, _, q3, hsubmit, hq3, hs, hcap⟩

/-- Witness of C20: the queue holding `callA` and `callB`. -/
theorem submit_clears_the_queue_and_keeps_capacity_witness :
    (∃ w h q2, submit { value := some Example.queue } Example.device World.initial =
        (w, Except.ok h) ∧ h.value = some q2 ∧ q2.getDrawCalls.GetSize = 0 ∧
      q2.getDrawCalls.GetCapacity = Example.queue.getDrawCalls.GetCapacity) ∧
    (∀ (dev2 : Backend) (w0 w : World) (h : DrawQueueHandle 2 2 1),
      submit { value := some Example.queue } dev2 w0 = (w, Except.ok h) →
      ∃ q2, h.value = some q2 ∧ q2.getDrawCalls.GetSize = 0 ∧
        q2.getDrawCalls.GetCapacity = Example.queue.getDrawCalls.GetCapacity) :=
  submit_clears_the_queue_and_keeps_capacity { value := some Example.queue } Example.queue
    Example.device Example.pipelineState Example.callA [Example.callB] rfl rfl
    (Example.ready 2 (by decide) (by decide)) Example.twoCalls_valid Example.twoCalls_holds

theorem Example.twoNumbers_valid : Example.twoNumbers.Valid := by
  refine ⟨by decide, by decide, by decide, ?_⟩
  intro i hi
  match i, hi with
  | 0, _ => rfl
  | 1, _ => rfl

/-- C21. `createVertexFormat` called with non-null `elements` (an array of at least `size`
descriptors) and bytecode and non-zero sizes, the scratch size `size * sizeofDesc` not
wrapping `size_t`, from any world and whatever the device answers. It makes the validating
`CreateInputLayout` call (no output pointer); if that call fails the error callback, when it
is set, receives the warning, and nothing else changes: the creating `CreateInputLayout` call
(with output pointer) is made in either case with the same arguments. When the creating call
fails the callback receives the failure message. The run ends normally, and the handle it
returns is valid exactly when the creating call succeeded, whatever the validation gave. -/
theorem createVertexFormat_validation_failure_is_a_warning (sizeofDesc : Nat)
    (array : List VertexElementDescriptor) (size bytecode bytecodeSize : Nat)
    (errorReport : Option Nat) (dev : LayoutBackend) (w : World) (hsize : size ≠ 0)
    (hbytecode : bytecodeSize ≠ 0) (harray : size ≤ array.length)
    (hfit : size * sizeofDesc < SIZE_MOD) :
    ∃ h, createVertexFormat sizeofDesc (some array) size (some bytecode) bytecodeSize
          errorReport dev w =
        ({ w with calls := w.calls ++
            ([Call.CreateInputLayout (array.take size) (size % UINT_MOD) bytecode bytecodeSize
                false] ++
              (if dev.validateInputLayout = false then
                reportCalls errorReport "Warning: VertexFormat validation failed!" else []) ++
              [Call.CreateInputLayout (array.take size) (size % UINT_MOD) bytecode bytecodeSize
                true] ++
              (if dev.createInputLayout.isSome = false then
                reportCalls errorReport "Failed to create vertex format!" else [])) },
          Except.ok h) ∧
      h.value.isSome = dev.createInputLayout.isSome := by
  obtain ⟨stride, hstride⟩ :=
    fillInputData_ok array ((size * sizeofDesc) % SIZE_MOD) sizeofDesc size 0 0 w
      (by omega) (by rw [Nat.zero_add, Nat.mod_eq_of_lt hfit])
  have hguard : ¬ (size = 0 ∨ bytecodeSize = 0) := by
    intro h; rcases h with h | h
    · exact hsize h
    · exact hbytecode h
  unfold createVertexFormat
  simp only [hguard, if_false]
  rw [Run.bind_ok hstride]
  cases hv : dev.validateInputLayout <;> cases hc : dev.createInputLayout <;>
    simp [Run.bind_apply, Run.emit_apply, Run.ret_apply, Run.pure_apply, reportError_apply, hv,
      hc, VertexFormatHandle.invalidHandle, List.append_assoc]

/-- Witness of C21: two vertex elements, a callback, and a device on which the validation
fails and the creation succeeds. -/
theorem createVertexFormat_validation_failure_is_a_warning_witness :
    ∃ h, createVertexFormat 32 (some Example.elements) 2 (some 3000) 64 (some 4000)
          Example.layoutDevice World.initial =
        ({ World.initial with calls := World.initial.calls ++
            ([Call.CreateInputLayout (Example.elements.take 2) (2 % UINT_MOD) 3000 64 false] ++
              (if Example.layoutDevice.validateInputLayout = false then
                reportCalls (some 4000) "Warning: VertexFormat validation failed!" else []) ++
              [Call.CreateInputLayout (Example.elements.take 2) (2 % UINT_MOD) 3000 64 true] ++
              (if Example.layoutDevice.createInputLayout.isSome = false then
                reportCalls (some 4000) "Failed to create vertex format!" else [])) },
          Except.ok h) ∧
      h.value.isSome = Example.layoutDevice.createInputLayout.isSome :=
  createVertexFormat_validation_failure_is_a_warning 32 Example.elements 2 3000 64 (some 4000)
    Example.layoutDevice World.initial (by decide) (by decide) (by decide) (by decide)

/-- C22. Recording of draw calls; the members of the absent `DrawQueue` are modelled from the
spec. On a valid queue that holds the draw calls `xs` (with `size + G` not wrapping
`size_t`), `draw(count, startVertex)` and `drawIndexed(count, startIndex, startVertex)` make
no backend call and each leave a queue that holds `xs` followed by exactly one new record `c`:
the records `xs` are where they were, and `c` has the kind of the call, the topology, vertex
buffer, index buffer and parameter bytes of the cursor at the time of the call, and the count
and offsets given. Every run of `setPrimitiveTopology`, `setVertexBuffer`, `setIndexBuffer`
and `setConstants` calls that ends normally leaves the recorded sequence as it was. -/
theorem draw_appends_one_snapshot {S I G : Nat} (handle : DrawQueueHandle S I G)
    (queue : DrawQueue S I G) (xs : List (DrawCall S)) (count startIndex startVertex : Nat)
    (w : World) (hG : 1 ≤ G) (hhandle : handle.value = some queue)
    (hvalid : queue.drawCalls.Valid) (hholds : queue.drawCalls.Holds xs)
    (hfit : xs.length + G < SIZE_MOD) :
    (∃ q2 c, draw handle count startVertex w = (w, Except.ok { value := some q2 }) ∧
      q2.getDrawCalls.Holds (xs ++ [c]) ∧ c.type = DrawCallType.Draw ∧
      c.primitiveTopology = queue.currentTopology ∧
      c.vertexBuffer = queue.currentVertexBuffer ∧ c.indexBuffer = queue.currentIndexBuffer ∧
      c.constantBufferData = queue.currentConstants ∧ c.count = count ∧
      c.startVertex = startVertex) ∧
    (∃ q2 c, drawIndexed handle count startIndex startVertex w =
        (w, Except.ok { value := some q2 }) ∧
      q2.getDrawCalls.Holds (xs ++ [c]) ∧ c.type = DrawCallType.DrawIndexed ∧
      c.primitiveTopology = queue.currentTopology ∧
      c.vertexBuffer = queue.currentVertexBuffer ∧ c.indexBuffer = queue.currentIndexBuffer ∧
      c.constantBufferData = queue.currentConstants ∧ c.count = count ∧
      c.startIndex = startIndex ∧ c.startVertex = startVertex) ∧
    (∀ (ops : List CursorOperation) (w1 w2 : World) (h : DrawQueueHandle S I G),
      CursorOperation.callAll handle ops w1 = (w2, Except.ok h) →
      ∃ q, h.value = some q ∧ q.getDrawCalls = queue.getDrawCalls ∧
        q.getDrawCalls.Holds xs) := by
  have hsize : queue.drawCalls.size + G < SIZE_MOD := by
    have := hholds.1
    unfold DynamicArray.GetSize at this
    omega
  refine ⟨?_, ?_, ?_⟩
  · obtain ⟨a2, hadd, _, hh2⟩ := DynamicArray.Add_step hvalid hholds hG hsize
      (queue.snapshot DrawCallType.Draw count 0 startVertex)
    refine ⟨{ queue with drawCalls := a2 }, _, ?_, hh2, rfl, rfl, rfl, rfl, rfl, rfl, rfl⟩
    simp only [draw, hhandle, DrawQueue.draw, hadd]
    rfl
  · obtain ⟨a2, hadd, _, hh2⟩ := DynamicArray.Add_step hvalid hholds hG hsize
      (queue.snapshot DrawCallType.DrawIndexed count startIndex startVertex)
    refine ⟨{ queue with drawCalls := a2 }, _, ?_, hh2, rfl, rfl, rfl, rfl, rfl, rfl, rfl, rfl⟩
    simp only [drawIndexed, hhandle, DrawQueue.drawIndexed, hadd]
    rfl
  · intro ops w1 w2 h hrun
    obtain ⟨q, hq, hsame⟩ :=
      cursorCallAll_keeps_drawCalls ops handle queue hhandle w1 w2 h hrun
    refine ⟨q, hq, hsame, ?_⟩
    unfold DrawQueue.getDrawCalls
    rw [hsame]
    exact hholds

/-- Witness of C22: the queue holding `callA` and `callB`, with `draw(12, 4)` and
`drawIndexed(12, 6, 4)`. -/
theorem draw_appends_one_snapshot_witness :
    (∃ q2 c, draw { value := some Example.queue } 12 4 World.initial =
        (World.initial, Except.ok { value := some q2 }) ∧
      q2.getDrawCalls.Holds ([Example.callA, Example.callB] ++ [c]) ∧
      c.type = DrawCallType.Draw ∧
      c.primitiveTopology = Example.queue.currentTopology ∧
      c.vertexBuffer = Example.queue.currentVertexBuffer ∧
      c.indexBuffer = Example.queue.currentIndexBuffer ∧
      c.constantBufferData = Example.queue.currentConstants ∧ c.count = 12 ∧
      c.startVertex = 4) ∧
    (∃ q2 c, drawIndexed { value := some Example.queue } 12 6 4 World.initial =
        (World.initial, Except.ok { value := some q2 }) ∧
      q2.getDrawCalls.Holds ([Example.callA, Example.callB] ++ [c]) ∧
      c.type = DrawCallType.DrawIndexed ∧
      c.primitiveTopology = Example.queue.currentTopology ∧
      c.vertexBuffer = Example.queue.currentVertexBuffer ∧
      c.indexBuffer = Example.queue.currentIndexBuffer ∧
      c.constantBufferData = Example.queue.currentConstants ∧ c.count = 12 ∧
      c.startIndex = 6 ∧ c.startVertex = 4) ∧
    (∀ (ops : List CursorOperation) (w1 w2 : World) (h : DrawQueueHandle 2 2 1),
      CursorOperation.callAll { value := some Example.queue } ops w1 = (w2, Except.ok h) →
      ∃ q, h.value = some q ∧ q.getDrawCalls = Example.queue.getDrawCalls ∧
        q.getDrawCalls.Holds [Example.callA, Example.callB]) :=
  draw_appends_one_snapshot { value := some Example.queue } Example.queue
    [Example.callA, Example.callB] 12 6 4 World.initial (by decide) rfl Example.twoCalls_valid
    Example.twoCalls_holds (by decide)

/-- C23, the code at the failing input. On the array holding 5, 6, 7 (`GetSize()` is 3),
`Remove(1)` and `Remove(2)` leave `GetSize()` at 3: the member never changes `size`. After
`Remove(1)` the elements are 5, 7 and slot 2 holds no live element, so `GetSize()` counts one
more than the live elements, and a following `Remove(2)`, `Clear()` or `Purge()` (which the
destructor calls) destroys the element of slot 2 a second time, which is undefined behaviour.
`Remove(3)`, with `index >= size`, leaves the size and the elements unchanged. -/
theorem Remove_does_not_decrease_the_size :
    Example.threeNumbers.GetSize = 3 ∧
    (Example.threeNumbers.Remove 1).map (fun a => (a.GetSize, a.get 0, a.get 1, a.get 2)) =
      some (3, some 5, some 7, none) ∧
    (Example.threeNumbers.Remove 2).map (fun a => (a.GetSize, a.get 0, a.get 1, a.get 2)) =
      some (3, some 5, some 6, none) ∧
    ((Example.threeNumbers.Remove 1).bind (fun a => a.Remove 2)).isNone = true ∧
    ((Example.threeNumbers.Remove 1).bind DynamicArray.Clear).isNone = true ∧
    ((Example.threeNumbers.Remove 1).bind DynamicArray.Purge).isNone = true ∧
    (Example.threeNumbers.Remove 3).map (fun a => (a.GetSize, a.get 0, a.get 1, a.get 2)) =
      some (3, some 5, some 6, some 7) := by
  decide

/-- C24, the code at the failing inputs. `IsEmpty()` returns `size != 0`: it is `false` on
a freshly constructed `DynamicArray<Nat, 4, 1>` (size 0), `true` after one `Add` (size 1), and
`false` again after a `Clear` (size 0). -/
theorem IsEmpty_answers_the_opposite :
    (DynamicArray.new : DynamicArray Nat 4 1).GetSize = 0 ∧
    (DynamicArray.new : DynamicArray Nat 4 1).IsEmpty = false ∧
    ((DynamicArray.new : DynamicArray Nat 4 1).Add 7).map
      (fun a => (a.GetSize, a.IsEmpty)) = some (1, true) ∧
    (((DynamicArray.new : DynamicArray Nat 4 1).Add 7).bind DynamicArray.Clear).map
      (fun a => (a.GetSize, a.IsEmpty)) = some (0, false) := by
  decide

/-- Counterexample to C26: on a freshly constructed `DynamicArray<Nat, 4, 1>`, the sequence
`Add(1); Add(2); Grow(SIZE_MAX)` (all arguments are `size_t` values) ends normally; `Grow`
computes the capacity `2 + SIZE_MAX`, which wraps to 1, so that `GetSize()` is 2 and
`GetCapacity()` is 1. -/
theorem Grow_wrap_breaks_size_le_capacity_counterexample :
    DynamicArray.applyAll DynamicArray.RemoveOverload.toIndex 0
        (DynamicArray.new : DynamicArray Nat 4 1)
        [.Add 1, .Add 2, .Grow (SIZE_MOD - 1)] = some Example.wrapped ∧
      (∀ op ∈ ([.Add 1, .Add 2, .Grow (SIZE_MOD - 1)] : List (Operation Nat 4 1)),
        op.inRange = true) ∧
      Example.wrapped.GetSize = 2 ∧ Example.wrapped.GetCapacity = 1 ∧
      ¬ (Example.wrapped.GetSize ≤ Example.wrapped.GetCapacity) := by
  refine ⟨rfl, by decide, rfl, rfl, by decide⟩

/-- C26, as amended. `GetSize() <= GetCapacity()` holds in every state reached from a freshly
constructed `DynamicArray<T, I, G>` with `G >= 1` by a sequence of `Add`, `EmplaceAdd`,
`Remove` (by index or by value), `Clear`, `Purge`, `Resize`, `Reserve`, `Grow` and copy
assignments with `size_t` arguments in which the sum `size + numElements` that `Grow` computes
never wraps `size_t`: neither in a direct call `Grow(numElements)` nor in the
`Grow(kGrowAmount)` that `Add` and `EmplaceAdd` make at `size >= capacity`. This holds
whichever member the inner call of `Remove(const T&)` names (`overload`) and however deep its
calls of itself may go (`depth`). -/
theorem DynamicArray_size_le_capacity_without_wrap {T : Type} [BEq T] [Inhabited T]
    (I G : Nat) (hG : 1 ≤ G) (overload : DynamicArray.RemoveOverload T) (depth : Nat)
    (ops : List (Operation T I G)) (a : DynamicArray T I G)
    (hrange : ∀ op ∈ ops, op.inRange = true)
    (hwrap : DynamicArray.noWrapRun overload depth (DynamicArray.new : DynamicArray T I G)
      ops = true)
    (hreach : DynamicArray.applyAll overload depth (DynamicArray.new : DynamicArray T I G)
      ops = some a) :
    a.GetSize ≤ a.GetCapacity :=
  (DynamicArray.applyAll_fits hG overload depth ops _ a (Nat.zero_le _) (Nat.two_pow_pos 64)
    hrange hwrap hreach).1

/-- Witness of the amended C26: the `DynamicArray<Nat, 2, 3>` after
`Add(1); Add(2); Add(3); Resize(2); Reserve(7)`. -/
theorem DynamicArray_size_le_capacity_without_wrap_witness :
    Example.reserved.GetSize ≤ Example.reserved.GetCapacity :=
  DynamicArray_size_le_capacity_without_wrap 2 3 (by decide)
    DynamicArray.RemoveOverload.toIndex 0
    [.Add 1, .Add 2, .Add 3, .Resize 2, .Reserve 7] Example.reserved (by decide) rfl rfl

/-- C27, the code at the failing inputs. `submit` of the queue holding `callA` and `callB`,
bound to the invalid pipeline-state handle: `dxSetPipelineState` skips it and
`dxProcessDrawQueue` then reads `psimpl->constantBuffer` through the null pointer, before any
backend call. Bound to the pipeline state `createPipelineState` returns for a descriptor
whose shader handle is invalid (a valid handle, its `shader` null): `dxSetPipelineState` binds
the three state objects and the input layout and then reads `impl->shader->vs` through the
null pointer. For a descriptor whose vertex-format handle is invalid it reads
`impl->vertexFormat->inputLayout` through the null pointer after binding the three state
objects. -/
theorem submit_dereferences_absent_objects :
    submit { value := some (Example.queueOn PipelineStateHandle.invalidHandle) } Example.device
        World.initial = (World.initial, Except.error Fault.nullDereference) ∧
    (createPipelineState
        (Example.descriptor { value := none } { value := some { inputLayout := 20, stride := 32 } })
        Example.stateDevice World.initial).2 = Except.ok Example.stateWithoutShader ∧
    submit { value := some (Example.queueOn Example.stateWithoutShader) } Example.device
        World.initial =
      ({ calls := [Call.RSSetState 1, Call.OMSetBlendState 2, Call.OMSetDepthStencilState 3 0,
            Call.IASetInputLayout 20],
          sharedBytes := none }, Except.error Fault.nullDereference) ∧
    (createPipelineState
        (Example.descriptor { value := some { vs := 11, hs := 12, ds := 13, gs := 14, ps := 15 } }
          { value := none })
        Example.stateDevice World.initial).2 = Except.ok Example.stateWithoutVertexFormat ∧
    submit { value := some (Example.queueOn Example.stateWithoutVertexFormat) } Example.device
        World.initial =
      ({ calls := [Call.RSSetState 1, Call.OMSetBlendState 2, Call.OMSetDepthStencilState 3 0],
          sharedBytes := none }, Except.error Fault.nullDereference) :=
  ⟨rfl, rfl, rfl, rfl, rfl⟩

/-- C28, the code at the failing inputs. `setSize(48, 3)` on a fresh buffer whose
`CreateBuffer` fails leaves `dataBufferSize` at 48 with no buffer, and a second
`setSize(48, 3)` on a device that would succeed makes no call at all. The same holds when
`CreateShaderResourceView` fails: `dataBufferSize` is 48, there is no view, and the retry
makes no call. On a 48-byte buffer with its view, `setSize(80, 5)` whose `CreateBuffer` fails
releases both, leaves the two pointers as they were and records `dataBufferSize` 80. -/
theorem setSize_records_the_size_of_a_failed_creation :
    DXSharedConstantBuffer.setSize 16 DXSharedConstantBuffer.new 48 3 Example.deviceWithoutBuffer =
      ({ dataBuffer := none, dataView := none, dataBufferSize := 48 },
        [Call.CreateBuffer 48 16]) ∧
    DXSharedConstantBuffer.setSize 16 { dataBuffer := none, dataView := none, dataBufferSize := 48 }
        48 3 Example.device =
      ({ dataBuffer := none, dataView := none, dataBufferSize := 48 }, []) ∧
    DXSharedConstantBuffer.setSize 16 DXSharedConstantBuffer.new 48 3 Example.deviceWithoutView =
      ({ dataBuffer := some { id := 50, ByteWidth := 48 }, dataView := none,
          dataBufferSize := 48 },
        [Call.CreateBuffer 48 16, Call.CreateShaderResourceView 50 3]) ∧
    DXSharedConstantBuffer.setSize 16
        { dataBuffer := some { id := 50, ByteWidth := 48 }, dataView := none,
          dataBufferSize := 48 } 48 3 Example.device =
      ({ dataBuffer := some { id := 50, ByteWidth := 48 }, dataView := none,
          dataBufferSize := 48 }, []) ∧
    DXSharedConstantBuffer.setSize 16
        { dataBuffer := some { id := 50, ByteWidth := 48 }, dataView := some { id := 51 },
          dataBufferSize := 48 } 80 5 Example.deviceWithoutBuffer =
      ({ dataBuffer := some { id := 50, ByteWidth := 48 }, dataView := some { id := 51 },
          dataBufferSize := 80 },
        [Call.Release 50, Call.Release 51, Call.CreateBuffer 80 16]) := by
  decide

/-- C29, the code at the failing inputs, with `sizeof(D3D_SHADER_MACRO) = 16`. For one macro
the scratch buffer has `1 + 16 = 17` bytes, fewer than the 32 that the entry and the
terminating entry take. For two macros it has `2 + 16 = 18` bytes, fewer than the 32 the two
entries take and than the 48 with the terminating entry, and the conversion loop writes entry
1 outside the buffer. -/
theorem compileShader_scratch_buffer_is_too_small :
    compileShader.convertMacros 16 (some [{ name := 2000, value := 2010 }]) 1 World.initial =
      (World.initial, Except.ok (some 17)) ∧
    17 < (1 + 1) * 16 ∧
    compileShader.convertMacros 16 (some Example.macros) 2 World.initial =
      (World.initial, Except.error Fault.wildWrite) ∧
    (2 + 16) % SIZE_MOD = 18 ∧ 18 < 2 * 16 ∧ 18 < (2 + 1) * 16 :=
  ⟨rfl, by decide, rfl, by decide, by decide, by decide⟩

/-- C30. Copy assignment and copy construction. For every valid array `a` (any size, any
capacity, inline or heap storage) and every array `b` whose elements below its size are live
(`b` of any inline capacity and growth amount, its size a `size_t` value): the assignment
`a = b` ends normally and leaves `a` with `GetSize()` equal to `b.GetSize()` and
`a[i] = b[i]` for every `i < b.GetSize()`; the copy construction from `b` ends normally and
gives an array with the same size and the same elements. `b` is only read: the two
operations take it by reference to `const` and give back the new array alone. -/
theorem DynamicArray_copy_gives_the_same_elements {T : Type} [Inhabited T] {I G I2 G2 : Nat}
    (a : DynamicArray T I G) (b : DynamicArray T I2 G2) (hv : a.Valid)
    (hlive : ∀ i, i < b.size → (b.get i).isSome = true) (hsize : b.size < SIZE_MOD) :
    (∃ a2, a.assign b = some a2 ∧ a2.GetSize = b.GetSize ∧
      ∀ i, i < b.GetSize → a2.get i = b.get i) ∧
    (∃ c, DynamicArray.copyConstruct b = some c ∧ c.GetSize = b.GetSize ∧
      ∀ i, i < b.GetSize → c.get i = b.get i) :=
  ⟨DynamicArray.assign_spec hv hlive hsize,
    DynamicArray.assign_spec (DynamicArray.Valid_new (T := T) (I := I2) (G := G2)) hlive hsize⟩

/-- Witness of C30: the inline array holding 8, 9 assigned from, and a new array constructed
from, the heap-backed array holding 1, 2, 3. -/
theorem DynamicArray_copy_gives_the_same_elements_witness :
    (∃ a2, Example.twoNumbers.assign Example.heapNumbers = some a2 ∧
      a2.GetSize = Example.heapNumbers.GetSize ∧
      ∀ i, i < Example.heapNumbers.GetSize → a2.get i = Example.heapNumbers.get i) ∧
    (∃ c, DynamicArray.copyConstruct Example.heapNumbers = some c ∧
      c.GetSize = Example.heapNumbers.GetSize ∧
      ∀ i, i < Example.heapNumbers.GetSize → c.get i = Example.heapNumbers.get i) :=
  DynamicArray_copy_gives_the_same_elements Example.twoNumbers Example.heapNumbers
    Example.twoNumbers_valid Example.heapNumbers_live (by decide)


end sgfx
